import Mathlib

/-!
# The shielded-wallet transaction planner

A shallow embedding of `src/wallet/wallet_tx_builder.cpp` (`WalletTxBuilder::PrepareTransaction`,
`WalletTxBuilder::ResolveInputsAndPayments`, `GetOVKsForUFVK`, `WalletTxBuilder::SelectOVKs`,
`TransactionEffects::GetRequiredPrivacyPolicy`, `TransactionEffects::ApproveAndBuild`,
`TransactionEffects::LockSpendable`, `TransactionEffects::UnlockSpendable`) and of
`src/zip317.cpp` (`ceil_div`, `CalculateConventionalFee`, `CalculateLogicalActionCount`).

Conventions of the embedding.

* `CAmount` (a signed 64-bit integer in the source) is `Int`: signed overflow is undefined in
  C++, so every statement about sums of amounts is a statement about runs whose sums stay inside
  the 64-bit range, where machine and mathematical arithmetic agree.
* Unsigned 32-bit counters wrap explicitly (`% 2 ^ 32`); the `size_t` and `unsigned int`
  arithmetic of `zip317.cpp` wraps explicitly (`% 2 ^ 64`, `% 2 ^ 32`), and its result is
  converted to a signed 64-bit `CAmount` explicitly.
* Addresses, keys, outpoints, witnesses and anchors are opaque identifiers (natural numbers).
* A failed `assert` and a thrown exception are outcomes of their own (`Outcome`): a function
  that ends that way returns nothing.
* The wallet, the chain, the consensus parameters and the low-level builder are collaborators:
  their operations are fields of the structures `CWallet`, `CChain`, `WalletTxBuilder` and
  `BuilderModel`.
* `std::set<OutputPool>` is `Finset OutputPool`; a `std::set<ReceiverType>` that is only
  iterated over is the list of its elements.
-/

namespace Zcash

/-! ## Data model -/

/-- Amounts in zatoshi (`CAmount`). -/
abbrev CAmount := Int

/-- Opaque 256-bit values (`uint256`): outgoing viewing keys, anchors, transaction hashes. -/
abbrev uint256 := Nat

/-- Account identifiers (`libzcash::AccountId`). -/
abbrev AccountId := Nat

/-- Pools a payment may be sent to (`OutputPool`); Sprout is never a recipient pool. -/
inductive OutputPool where
  | Orchard
  | Sapling
  | Transparent
  deriving DecidableEq, Repr

/-- Receiver types of a unified address or viewing key (`ReceiverType`). -/
inductive ReceiverType where
  | P2PKH
  | P2SH
  | Sapling
  | Orchard
  deriving DecidableEq, Repr

/-- Privacy policies, the eight values named by the specification. -/
inductive PrivacyPolicy where
  | FullPrivacy
  | AllowRevealedSendersAndRecipients
  | AllowFullyTransparent
  | AllowLinkingAccountAddresses
  | AllowRevealedAmounts
  | AllowRevealedRecipients
  | AllowRevealedSenders
  | NoPrivacy
  deriving DecidableEq, Repr

/-- Modelled from the spec: the ordinal of a policy in the ordering the specification gives
for `TransactionStrategy` (the header declaring it is not among the sources), "weakest to
strongest privacy: NoPrivacy > AllowRevealedSenders > AllowRevealedRecipients >
AllowRevealedAmounts > AllowLinkingAccountAddresses > AllowFullyTransparent >
AllowRevealedSendersAndRecipients > FullPrivacy". -/
def PrivacyPolicy.ordinal : PrivacyPolicy → Nat
  | .FullPrivacy => 0
  | .AllowRevealedSendersAndRecipients => 1
  | .AllowFullyTransparent => 2
  | .AllowLinkingAccountAddresses => 3
  | .AllowRevealedAmounts => 4
  | .AllowRevealedRecipients => 5
  | .AllowRevealedSenders => 6
  | .NoPrivacy => 7

/-- A transaction strategy (`TransactionStrategy`): a privacy policy acting as an upper bound
on the permitted leaks. -/
structure TransactionStrategy where
  privacy : PrivacyPolicy
  deriving DecidableEq, Repr

/-- Modelled from the spec: `TransactionStrategy::IsCompatibleWith` (declared in a header that
is not among the sources), "IsCompatibleWith(required) ⇔ strategy ≥ required in the lattice",
the lattice being the total order of `PrivacyPolicy.ordinal`. -/
def TransactionStrategy.IsCompatibleWith (s : TransactionStrategy) (required : PrivacyPolicy) :
    Bool :=
  decide (required.ordinal ≤ s.privacy.ordinal)

/-- Modelled from the spec: `TransactionStrategy::AllowRevealedAmounts`, the boolean allowance
of the policy of the same name. -/
def TransactionStrategy.AllowRevealedAmounts (s : TransactionStrategy) : Bool :=
  s.IsCompatibleWith .AllowRevealedAmounts

/-- Modelled from the spec: `TransactionStrategy::AllowRevealedRecipients`, the boolean
allowance of the policy of the same name. -/
def TransactionStrategy.AllowRevealedRecipients (s : TransactionStrategy) : Bool :=
  s.IsCompatibleWith .AllowRevealedRecipients

/-- Modelled from the spec: `TransactionStrategy::AllowRevealedSenders`, the boolean allowance
of the policy of the same name. -/
def TransactionStrategy.AllowRevealedSenders (s : TransactionStrategy) : Bool :=
  s.IsCompatibleWith .AllowRevealedSenders

/-- A transparent key hash (`CKeyID`). -/
structure CKeyID where
  id : Nat
  deriving DecidableEq, Repr

/-- A transparent script hash (`CScriptID`). -/
structure CScriptID where
  id : Nat
  deriving DecidableEq, Repr

/-- A Sprout payment address. -/
structure SproutPaymentAddress where
  id : Nat
  deriving DecidableEq, Repr

/-- A Sapling payment address. -/
structure SaplingPaymentAddress where
  id : Nat
  deriving DecidableEq, Repr

/-- An Orchard raw address. -/
structure OrchardRawAddress where
  id : Nat
  deriving DecidableEq, Repr

/-- A unified address: at most one receiver per receiver type. The four fields are what
`GetOrchardReceiver`, `GetSaplingReceiver`, `GetP2SHReceiver` and `GetP2PKHReceiver` return. -/
structure UnifiedAddress where
  orchardReceiver : Option OrchardRawAddress
  saplingReceiver : Option SaplingPaymentAddress
  p2shReceiver : Option CScriptID
  p2pkhReceiver : Option CKeyID
  deriving DecidableEq, Repr

/-- Modelled from the spec: `UnifiedAddress::GetKnownReceiverTypes` (not among the sources):
the receiver types for which the address has a receiver. -/
def UnifiedAddress.GetKnownReceiverTypes (ua : UnifiedAddress) : List ReceiverType :=
  (if ua.p2pkhReceiver.isSome then [ReceiverType.P2PKH] else []) ++
  (if ua.p2shReceiver.isSome then [ReceiverType.P2SH] else []) ++
  (if ua.saplingReceiver.isSome then [ReceiverType.Sapling] else []) ++
  (if ua.orchardReceiver.isSome then [ReceiverType.Orchard] else [])

/-- The recipient of a payment (`PaymentAddress`). -/
inductive PaymentAddress where
  | p2pkh (keyId : CKeyID)
  | p2sh (scriptId : CScriptID)
  | sprout (addr : SproutPaymentAddress)
  | sapling (addr : SaplingPaymentAddress)
  | unified (ua : UnifiedAddress)
  deriving DecidableEq, Repr

/-- The concrete receiver of a resolved payment (`RecipientAddress`). -/
inductive RecipientAddress where
  | p2pkh (keyId : CKeyID)
  | p2sh (scriptId : CScriptID)
  | sapling (addr : SaplingPaymentAddress)
  | orchard (addr : OrchardRawAddress)
  deriving DecidableEq, Repr

/-- The pool of a receiver: each receiver belongs to exactly one pool. -/
def RecipientAddress.pool : RecipientAddress → OutputPool
  | .p2pkh _ => .Transparent
  | .p2sh _ => .Transparent
  | .sapling _ => .Sapling
  | .orchard _ => .Orchard

/-- Whether a receiver is transparent (P2PKH or P2SH). -/
def RecipientAddress.isTransparent : RecipientAddress → Bool
  | .p2pkh _ => true
  | .p2sh _ => true
  | .sapling _ => false
  | .orchard _ => false

/-- Whether a receiver is an Orchard receiver. -/
def RecipientAddress.isOrchard : RecipientAddress → Bool
  | .orchard _ => true
  | _ => false

/-- Whether a receiver is a Sapling receiver. -/
def RecipientAddress.isSapling : RecipientAddress → Bool
  | .sapling _ => true
  | _ => false

/-- A memo: an opaque byte string. -/
structure Memo where
  bytes : List Nat
  deriving DecidableEq, Repr

/-- A requested payment (`Payment`): recipient, amount and optional memo. -/
structure Payment where
  address : PaymentAddress
  amount : CAmount
  memo : Option Memo
  deriving DecidableEq, Repr

/-- The invariant of `Payment`: no memo on a payment whose recipient is P2PKH or P2SH. -/
def Payment.memoInvariant (p : Payment) : Bool :=
  match p.address with
  | .p2pkh _ => p.memo.isNone
  | .p2sh _ => p.memo.isNone
  | _ => true

/-- A resolved payment (`ResolvedPayment`), with the fields in the order of its constructor:
originating unified address, receiver, amount, memo, `isInternal`. -/
structure ResolvedPayment where
  ua : Option UnifiedAddress
  address : RecipientAddress
  amount : CAmount
  memo : Option Memo
  isInternal : Bool
  deriving DecidableEq, Repr

/-- Modelled from the spec: the aggregate `Payments` (its class is declared in a header that
is not among the sources): "ordered sequence of ResolvedPayment with derived summaries: total
amount, set of recipient pools used, has transparent / Sapling / Orchard recipient". -/
structure Payments where
  payments : List ResolvedPayment
  deriving DecidableEq, Repr

/-- Modelled from the spec: `Payments::GetResolvedPayments`. -/
def Payments.GetResolvedPayments (p : Payments) : List ResolvedPayment := p.payments

/-- Modelled from the spec: `Payments::Total`, the total amount of the resolved payments. -/
def Payments.Total (p : Payments) : CAmount := (p.payments.map (·.amount)).sum

/-- Modelled from the spec: `Payments::GetRecipientPools`, the set of recipient pools used. -/
def Payments.GetRecipientPools (p : Payments) : Finset OutputPool :=
  (p.payments.map (·.address.pool)).toFinset

/-- Modelled from the spec: `Payments::HasTransparentRecipient`. -/
def Payments.HasTransparentRecipient (p : Payments) : Bool :=
  p.payments.any (·.address.isTransparent)

/-- Modelled from the spec: `Payments::HasSaplingRecipient`. -/
def Payments.HasSaplingRecipient (p : Payments) : Bool :=
  p.payments.any (·.address.isSapling)

/-- Modelled from the spec: `Payments::HasOrchardRecipient`. -/
def Payments.HasOrchardRecipient (p : Payments) : Bool :=
  p.payments.any (·.address.isOrchard)

/-- Modelled from the spec: `Payments::AddPayment`, which appends to the ordered sequence. -/
def Payments.AddPayment (p : Payments) (r : ResolvedPayment) : Payments :=
  ⟨p.payments ++ [r]⟩

/-- A transparent outpoint (`COutPoint`): transaction hash and output index. -/
structure COutPoint where
  hash : uint256
  n : Nat
  deriving DecidableEq, Repr

/-- A Sprout outpoint (`JSOutPoint`). -/
structure JSOutPoint where
  hash : uint256
  js : Nat
  n : Nat
  deriving DecidableEq, Repr

/-- A Sapling outpoint (`SaplingOutPoint`). -/
structure SaplingOutPoint where
  hash : uint256
  n : Nat
  deriving DecidableEq, Repr

/-- An Orchard outpoint (`OrchardOutPoint`). -/
structure OrchardOutPoint where
  hash : uint256
  n : Nat
  deriving DecidableEq, Repr

/-- A spendable transparent output (`COutput`): `txHash` is `tx->GetHash()`, `i` the output
index, `scriptPubKey` and `nValue` are those of `tx->vout[i]`. -/
structure COutput where
  txHash : uint256
  i : Nat
  scriptPubKey : Nat
  nValue : CAmount
  fIsCoinbase : Bool
  deriving DecidableEq, Repr

/-- A spendable Sprout note (`SproutNoteEntry`); `value` is `note.value()`. -/
structure SproutNoteEntry where
  jsop : JSOutPoint
  address : SproutPaymentAddress
  value : Nat
  deriving DecidableEq, Repr

/-- A spendable Sapling note (`SaplingNoteEntry`); `value` is `note.value()`. -/
structure SaplingNoteEntry where
  op : SaplingOutPoint
  address : SaplingPaymentAddress
  value : Nat
  deriving DecidableEq, Repr

/-- Metadata of a spendable Orchard note (`OrchardNoteMetadata`). -/
structure OrchardNoteMetadata where
  op : OrchardOutPoint
  value : Nat
  deriving DecidableEq, Repr

/-- The candidate or selected inputs, one collection per pool (`SpendableInputs`). -/
structure SpendableInputs where
  utxos : List COutput
  sproutNoteEntries : List SproutNoteEntry
  saplingNoteEntries : List SaplingNoteEntry
  orchardNoteMetadata : List OrchardNoteMetadata
  deriving DecidableEq, Repr

/-- Modelled from the spec: `SpendableInputs::GetTransparentTotal`, the per-pool total. -/
def SpendableInputs.GetTransparentTotal (s : SpendableInputs) : CAmount :=
  (s.utxos.map (·.nValue)).sum

/-- Modelled from the spec: `SpendableInputs::GetSproutTotal`, the per-pool total. -/
def SpendableInputs.GetSproutTotal (s : SpendableInputs) : CAmount :=
  ((s.sproutNoteEntries.map (·.value)).sum : Nat)

/-- Modelled from the spec: `SpendableInputs::GetSaplingTotal`, the per-pool total. -/
def SpendableInputs.GetSaplingTotal (s : SpendableInputs) : CAmount :=
  ((s.saplingNoteEntries.map (·.value)).sum : Nat)

/-- Modelled from the spec: `SpendableInputs::GetOrchardTotal`, the per-pool total. -/
def SpendableInputs.GetOrchardTotal (s : SpendableInputs) : CAmount :=
  ((s.orchardNoteMetadata.map (·.value)).sum : Nat)

/-- Modelled from the spec: `SpendableInputs::Total`, the sum of the four per-pool totals. -/
def SpendableInputs.Total (s : SpendableInputs) : CAmount :=
  s.GetTransparentTotal + s.GetSproutTotal + s.GetSaplingTotal + s.GetOrchardTotal

/-- Modelled from the spec: `SpendableInputs::HasTransparentCoinbase`, "the selected inputs
include any transparent coinbase output". -/
def SpendableInputs.HasTransparentCoinbase (s : SpendableInputs) : Bool :=
  s.utxos.any (·.fIsCoinbase)


/-! ## Selectors and keys -/

/-- A Sprout viewing key; `address` is what `vk.address()` returns. -/
structure SproutViewingKey where
  address : SproutPaymentAddress
  deriving DecidableEq, Repr

/-- A Sapling extended full viewing key; `defaultAddress` is `DefaultAddress()` and `ovks` is
`GetOVKs()`, the pair (internal, external). -/
structure SaplingExtendedFullViewingKey where
  defaultAddress : SaplingPaymentAddress
  ovks : uint256 × uint256
  deriving DecidableEq, Repr

/-- A Sapling extended spending key; `xfvk` is `ToXFVK()`. -/
structure SaplingExtendedSpendingKey where
  id : Nat
  xfvk : SaplingExtendedFullViewingKey
  deriving DecidableEq, Repr

/-- A unified full viewing key. `orchardKey` is `GetOrchardKey()` given by its pair
(`ToInternalOutgoingViewingKey()`, `ToExternalOutgoingViewingKey()`), `saplingKey` is
`GetSaplingKey()` given by its `GetOVKs()`, `transparentKey` is `GetTransparentKey()` given by
its `GetOVKsForShielding()`, and `knownReceiverTypes` is `GetKnownReceiverTypes()`. -/
structure UnifiedFullViewingKey where
  id : Nat
  orchardKey : Option (uint256 × uint256)
  saplingKey : Option (uint256 × uint256)
  transparentKey : Option (uint256 × uint256)
  knownReceiverTypes : List ReceiverType
  deriving DecidableEq, Repr

/-- The wallet's form of a unified full viewing key (`ZcashdUnifiedFullViewingKey`);
`ufvk` is `ToFullViewingKey()`. -/
structure ZcashdUnifiedFullViewingKey where
  ufvk : UnifiedFullViewingKey
  deriving DecidableEq, Repr

/-- Modelled from the spec: `ZcashdUnifiedFullViewingKey::FromUnifiedFullViewingKey(params,
fvk)` (not among the sources), the wallet form of the same key. -/
def ZcashdUnifiedFullViewingKey.FromUnifiedFullViewingKey (fvk : UnifiedFullViewingKey) :
    ZcashdUnifiedFullViewingKey := ⟨fvk⟩

/-- An account pattern (`AccountZTXOPattern`): account id and enabled receiver types. -/
structure AccountZTXOPattern where
  accountId : AccountId
  receiverTypes : List ReceiverType
  deriving DecidableEq, Repr

/-- The nine variants of a selector pattern (`ZTXOPattern`). -/
inductive ZTXOPattern where
  | keyId (k : CKeyID)
  | scriptId (s : CScriptID)
  | sproutAddress (addr : SproutPaymentAddress)
  | sproutViewingKey (vk : SproutViewingKey)
  | saplingAddress (addr : SaplingPaymentAddress)
  | saplingExtendedFullViewingKey (fvk : SaplingExtendedFullViewingKey)
  | unifiedAddress (ua : UnifiedAddress)
  | unifiedFullViewingKey (fvk : UnifiedFullViewingKey)
  | account (acct : AccountZTXOPattern)
  deriving DecidableEq, Repr

/-- A selector (`ZTXOSelector`); `pattern` is `GetPattern()`. -/
structure ZTXOSelector where
  pattern : ZTXOPattern
  deriving DecidableEq, Repr

/-- Whether the selector is one of the two Sprout variants. -/
def ZTXOSelector.isSprout (s : ZTXOSelector) : Bool :=
  match s.pattern with
  | .sproutAddress _ => true
  | .sproutViewingKey _ => true
  | _ => false

/-- Where change goes (`ChangeAddress`): a Sprout address or a concrete recipient address. -/
inductive ChangeAddress where
  | sprout (addr : SproutPaymentAddress)
  | recipient (addr : RecipientAddress)
  deriving DecidableEq, Repr

/-! ## Results and errors -/

/-- How a call ends: it returns a value, an `assert` fails, or an exception is thrown. -/
inductive Outcome (α : Type) where
  | ok (a : α)
  | assertionFailure
  | exception
  deriving DecidableEq, Repr

/-- Errors of address resolution (`AddressResolutionError`). -/
inductive AddressResolutionError where
  | SproutRecipientsNotSupported
  | TransparentRecipientNotAllowed
  | TransparentReceiverNotAllowed
  | RevealingSaplingAmountNotAllowed
  | CouldNotResolveReceiver
  | RevealingReceiverAmountsNotAllowed
  deriving DecidableEq, Repr

/-- The reason carried by `InvalidFundsError` (`InvalidFundsReason`). -/
inductive InvalidFundsReason where
  | DustThresholdError (dustThreshold : CAmount) (changeAmount : CAmount)
  | InsufficientFundsError (targetAmount : CAmount)
  deriving DecidableEq, Repr

/-- The side an excess of Orchard actions was found on (`ActionSide`). -/
inductive ActionSide where
  | Input
  | Output
  deriving DecidableEq, Repr

/-- Errors of input selection (`InputSelectionError`). -/
inductive InputSelectionError where
  | AddressResolution (e : AddressResolutionError)
  | InvalidFunds (available : CAmount) (reason : InvalidFundsReason)
  | ChangeNotAllowed (available : CAmount) (target : CAmount)
  | ExcessOrchardActions (side : ActionSide) (count : Nat) (limit : Nat)
  deriving DecidableEq, Repr

/-- A successful input selection (`InputSelection`): resolved payments and anchor height. -/
structure InputSelection where
  payments : Payments
  anchorHeight : Int
  deriving DecidableEq, Repr

/-- The accessor `InputSelection::GetPayments`. -/
def InputSelection.GetPayments (s : InputSelection) : Payments := s.payments

/-- The result of `ResolveInputsAndPayments` (`InputSelectionResult`). -/
inductive InputSelectionResult where
  | error (e : InputSelectionError)
  | selection (s : InputSelection)
  deriving DecidableEq, Repr

/-- The plan (`TransactionEffects`), with the fields in the order of its constructor. -/
structure TransactionEffects where
  anchorConfirmations : Nat
  spendable : SpendableInputs
  payments : Payments
  changeAddr : Option ChangeAddress
  fee : CAmount
  internalOVK : uint256
  externalOVK : uint256
  anchorHeight : Int
  deriving DecidableEq, Repr

/-- The result of `PrepareTransaction` (`PrepareTransactionResult`). -/
inductive PrepareTransactionResult where
  | error (e : InputSelectionError)
  | effects (t : TransactionEffects)
  deriving DecidableEq, Repr

/-! ## Collaborators -/

/-- The chain view (`CChain`): `Height()` and, for `chain[h]`, the `hashFinalOrchardRoot` of
the block index at height `h` (`none` for a null block index). -/
structure CChain where
  Height : Int
  orchardRootAt : Int → Option uint256

/-- What the wallet returns for an Orchard note to spend (`orchard::SpendInfo`); `value` is
`Value()`. -/
structure OrchardSpendInfo where
  id : Nat
  value : Nat
  deriving DecidableEq, Repr

/-- The wallet (`CWallet`). The first fields are its lookups, as functions of their arguments;
the last three are its lock state, the sets of locked coins and notes that `LockCoin`,
`LockNote`, `UnlockCoin` and `UnlockNote` change. `legacyOVKs` is
`GetLegacyAccountKey().ToAccountPubKey().GetOVKsForShielding()`; `GetZUFVKChangeAddress` is
`ZcashdUnifiedFullViewingKey::GetChangeAddress`. -/
structure CWallet where
  FindAccountForSelector : ZTXOSelector → Option AccountId
  GenerateChangeAddressForAccount : AccountId → Finset OutputPool → Option RecipientAddress
  GetZUFVKChangeAddress : ZcashdUnifiedFullViewingKey → Finset OutputPool →
    Option RecipientAddress
  GetUFVKForAddress : UnifiedAddress → Option ZcashdUnifiedFullViewingKey
  GetUnifiedFullViewingKeyByAccount : AccountId → Option ZcashdUnifiedFullViewingKey
  legacyOVKs : uint256 × uint256
  GetSaplingExtendedSpendingKey : SaplingPaymentAddress → Option SaplingExtendedSpendingKey
  GetSproutSpendingKey : SproutPaymentAddress → Option Nat
  GetSaplingNoteWitnesses : List SaplingOutPoint → Nat → Option (List (Option Nat) × uint256)
  GetSproutNoteWitnesses : List JSOutPoint → Nat → Option (List (Option Nat) × uint256)
  GetOrchardSpendInfo : List OrchardNoteMetadata → uint256 → List (Nat × OrchardSpendInfo)
  setLockedCoins : Finset COutPoint
  setLockedSproutNotes : Finset JSOutPoint
  setLockedSaplingNotes : Finset SaplingOutPoint

/-- Modelled from the spec: `CWallet::LockCoin` (the wallet is not among the sources), which
marks a coin as locked. -/
def CWallet.LockCoin (w : CWallet) (o : COutPoint) : CWallet :=
  { w with setLockedCoins := insert o w.setLockedCoins }

/-- Modelled from the spec: `CWallet::UnlockCoin` (the wallet is not among the sources), which
removes the lock mark of a coin. -/
def CWallet.UnlockCoin (w : CWallet) (o : COutPoint) : CWallet :=
  { w with setLockedCoins := w.setLockedCoins.erase o }

/-- Modelled from the spec: `CWallet::LockNote` for a Sprout outpoint, which marks the note as
locked. -/
def CWallet.LockSproutNote (w : CWallet) (o : JSOutPoint) : CWallet :=
  { w with setLockedSproutNotes := insert o w.setLockedSproutNotes }

/-- Modelled from the spec: `CWallet::UnlockNote` for a Sprout outpoint, which removes the lock
mark of the note. -/
def CWallet.UnlockSproutNote (w : CWallet) (o : JSOutPoint) : CWallet :=
  { w with setLockedSproutNotes := w.setLockedSproutNotes.erase o }

/-- Modelled from the spec: `CWallet::LockNote` for a Sapling outpoint, which marks the note as
locked. -/
def CWallet.LockSaplingNote (w : CWallet) (o : SaplingOutPoint) : CWallet :=
  { w with setLockedSaplingNotes := insert o w.setLockedSaplingNotes }

/-- Modelled from the spec: `CWallet::UnlockNote` for a Sapling outpoint, which removes the
lock mark of the note. -/
def CWallet.UnlockSaplingNote (w : CWallet) (o : SaplingOutPoint) : CWallet :=
  { w with setLockedSaplingNotes := w.setLockedSaplingNotes.erase o }

/-- The planner object (`WalletTxBuilder`) with what it reads from outside the sources:
`nu5Active h` is `params.GetConsensus().NetworkUpgradeActive(h, Consensus::UPGRADE_NU5)`,
`maxOrchardActions` its 32-bit limit, `dustThreshold` the value `DefaultDustThreshold()`
computes from `minRelayFee`, `MAX_MONEY` and `ZCASH_LEGACY_ACCOUNT` the constants of those
names, and `LimitToAmount` the method `SpendableInputs::LimitToAmount`, returning its boolean
together with the set it leaves behind. -/
structure WalletTxBuilder where
  nu5Active : Int → Bool
  maxOrchardActions : Nat
  dustThreshold : CAmount
  MAX_MONEY : CAmount
  ZCASH_LEGACY_ACCOUNT : AccountId
  LimitToAmount : SpendableInputs → CAmount → CAmount → Finset OutputPool →
    Bool × SpendableInputs

/-- The value `WalletTxBuilder::DefaultDustThreshold` returns. -/
def WalletTxBuilder.DefaultDustThreshold (b : WalletTxBuilder) : CAmount := b.dustThreshold

/-! ## The planner -/

set_option linter.unusedVariables false

/-- Conversion of an integer to a signed 32-bit `int` (two's complement wrap-around). -/
def toInt32 (x : Int) : Int := (x + 2 ^ 31) % 2 ^ 32 - 2 ^ 31

/-- The function `GetAnchorHeight`: `chain.Height() + 1 - anchorConfirmations`, the subtraction
being done in unsigned 32-bit arithmetic and the result returned as an `int`. -/
def GetAnchorHeight (chain : CChain) (anchorConfirmations : Nat) : Int :=
  let nextBlockHeight := chain.Height + 1
  toInt32 (nextBlockHeight - anchorConfirmations)

/-- The local state of the payment loop of `ResolveInputsAndPayments`. -/
structure ResolverState where
  maxSaplingAvailable : CAmount
  maxOrchardAvailable : CAmount
  orchardOutputs : Nat
  resolvedPayments : List ResolvedPayment
  deriving DecidableEq, Repr

/-- The first branch condition for a unified address of the payment loop, with the receiver it
selects: `canResolveOrchard && ua.GetOrchardReceiver().has_value() &&
(strategy.AllowRevealedAmounts() || payment.GetAmount() <= maxOrchardAvailable)`. -/
def orchardReceiverFor (strategy : TransactionStrategy) (canResolveOrchard : Bool)
    (st : ResolverState) (payment : Payment) (ua : UnifiedAddress) : Option OrchardRawAddress :=
  if canResolveOrchard then
    match ua.orchardReceiver with
    | some r =>
      if strategy.AllowRevealedAmounts || decide (payment.amount ≤ st.maxOrchardAvailable)
      then some r else none
    | none => none
  else none

/-- The second branch condition for a unified address of the payment loop, with the receiver
it selects: `ua.GetSaplingReceiver().has_value() &&
(strategy.AllowRevealedAmounts() || payment.GetAmount() <= maxSaplingAvailable)`. -/
def saplingReceiverFor (strategy : TransactionStrategy) (st : ResolverState)
    (payment : Payment) (ua : UnifiedAddress) : Option SaplingPaymentAddress :=
  match ua.saplingReceiver with
  | some r =>
    if strategy.AllowRevealedAmounts || decide (payment.amount ≤ st.maxSaplingAvailable)
    then some r else none
  | none => none

/-- The body of the payment loop of `ResolveInputsAndPayments` for one payment: the new local
state, or the resolution error the loop returns with. -/
def resolvePayment (strategy : TransactionStrategy) (canResolveOrchard : Bool)
    (st : ResolverState) (payment : Payment) : Except AddressResolutionError ResolverState :=
  match payment.address with
  | .p2pkh p2pkh =>
    if strategy.AllowRevealedRecipients then
      .ok { st with resolvedPayments := st.resolvedPayments ++
              [⟨none, .p2pkh p2pkh, payment.amount, payment.memo, false⟩] }
    else
      .error .TransparentRecipientNotAllowed
  | .p2sh p2sh =>
    if strategy.AllowRevealedRecipients then
      .ok { st with resolvedPayments := st.resolvedPayments ++
              [⟨none, .p2sh p2sh, payment.amount, payment.memo, false⟩] }
    else
      .error .TransparentRecipientNotAllowed
  | .sprout _ => .error .SproutRecipientsNotSupported
  | .sapling addr =>
    if strategy.AllowRevealedAmounts || decide (payment.amount ≤ st.maxSaplingAvailable) then
      .ok { st with
            resolvedPayments := st.resolvedPayments ++
              [⟨none, .sapling addr, payment.amount, payment.memo, false⟩]
            maxSaplingAvailable :=
              if !strategy.AllowRevealedAmounts then st.maxSaplingAvailable - payment.amount
              else st.maxSaplingAvailable }
    else
      .error .RevealingSaplingAmountNotAllowed
  | .unified ua =>
    match orchardReceiverFor strategy canResolveOrchard st payment ua with
    | some r =>
      .ok { st with
            resolvedPayments := st.resolvedPayments ++
              [⟨some ua, .orchard r, payment.amount, payment.memo, false⟩]
            maxOrchardAvailable :=
              if !strategy.AllowRevealedAmounts then st.maxOrchardAvailable - payment.amount
              else st.maxOrchardAvailable
            orchardOutputs := (st.orchardOutputs + 1) % 2 ^ 32 }
    | none =>
      match saplingReceiverFor strategy st payment ua with
      | some r =>
        .ok { st with
              resolvedPayments := st.resolvedPayments ++
                [⟨some ua, .sapling r, payment.amount, payment.memo, false⟩]
              maxSaplingAvailable :=
                if !strategy.AllowRevealedAmounts then st.maxSaplingAvailable - payment.amount
                else st.maxSaplingAvailable }
      | none =>
        if strategy.AllowRevealedRecipients then
          match ua.p2shReceiver with
          | some r =>
            .ok { st with resolvedPayments := st.resolvedPayments ++
                    [⟨some ua, .p2sh r, payment.amount, none, false⟩] }
          | none =>
            match ua.p2pkhReceiver with
            | some r =>
              .ok { st with resolvedPayments := st.resolvedPayments ++
                      [⟨some ua, .p2pkh r, payment.amount, none, false⟩] }
            | none => .error .CouldNotResolveReceiver
        else if strategy.AllowRevealedAmounts then
          .error .TransparentReceiverNotAllowed
        else
          .error .RevealingReceiverAmountsNotAllowed

/-- The payment loop of `ResolveInputsAndPayments`: payments are taken in order and the loop
returns at the first resolution error. -/
def resolvePayments (strategy : TransactionStrategy) (canResolveOrchard : Bool) :
    List Payment → ResolverState → Except AddressResolutionError ResolverState
  | [], st => .ok st
  | payment :: rest, st =>
    match resolvePayment strategy canResolveOrchard st payment with
    | .error e => .error e
    | .ok st1 => resolvePayments strategy canResolveOrchard rest st1

/-- The method `WalletTxBuilder::ResolveInputsAndPayments`. It returns its result together
with the value it leaves in its in-out argument `spendableMut`. -/
def WalletTxBuilder.ResolveInputsAndPayments (b : WalletTxBuilder) (wallet : CWallet)
    (selector : ZTXOSelector) (spendableMut : SpendableInputs) (payments : List Payment)
    (chain : CChain) (strategy : TransactionStrategy) (fee : CAmount) (anchorHeight : Int) :
    InputSelectionResult × SpendableInputs :=
  let sendAmount : CAmount := payments.foldl (fun acc payment => acc + payment.amount) 0
  let targetAmount : CAmount := sendAmount + fee
  let maxSaplingAvailable := spendableMut.GetSaplingTotal
  let maxOrchardAvailable := spendableMut.GetOrchardTotal
  let canResolveOrchard : Bool :=
    b.nu5Active anchorHeight
      && decide (spendableMut.Total - spendableMut.GetSproutTotal ≥ targetAmount)
  match resolvePayments strategy canResolveOrchard payments
      ⟨maxSaplingAvailable, maxOrchardAvailable, 0, []⟩ with
  | .error e => (.error (.AddressResolution e), spendableMut)
  | .ok st =>
    let resolved : Payments := ⟨st.resolvedPayments⟩
    if st.orchardOutputs > b.maxOrchardActions then
      (.error (.ExcessOrchardActions .Output st.orchardOutputs b.maxOrchardActions),
        spendableMut)
    else
      let dustThreshold : CAmount := b.DefaultDustThreshold
      let limited := b.LimitToAmount spendableMut targetAmount dustThreshold
        resolved.GetRecipientPools
      let spendableMut := limited.2
      if !limited.1 then
        let changeAmount : CAmount := spendableMut.Total - targetAmount
        (.error (.InvalidFunds spendableMut.Total
          (if changeAmount > 0 ∧ changeAmount < dustThreshold
           then .DustThresholdError dustThreshold changeAmount
           else .InsufficientFundsError targetAmount)), spendableMut)
      else if spendableMut.HasTransparentCoinbase
          && decide (spendableMut.Total ≠ targetAmount) then
        (.error (.ChangeNotAllowed spendableMut.Total targetAmount), spendableMut)
      else if spendableMut.HasTransparentCoinbase && resolved.HasTransparentRecipient then
        (.error (.AddressResolution .TransparentRecipientNotAllowed), spendableMut)
      else if spendableMut.orchardNoteMetadata.length > b.maxOrchardActions then
        (.error (.ExcessOrchardActions .Input spendableMut.orchardNoteMetadata.length
          b.maxOrchardActions), spendableMut)
      else
        (.selection ⟨resolved, anchorHeight⟩, spendableMut)

/-- The function `GetOVKsForUFVK`: the pair (internal, external) by pool priority; a missing
key fails an `assert`, and a set without Orchard notes, Sapling notes and UTXOs throws. -/
def GetOVKsForUFVK (ufvk : UnifiedFullViewingKey) (spendable : SpendableInputs) :
    Outcome (uint256 × uint256) :=
  if !spendable.orchardNoteMetadata.isEmpty then
    match ufvk.orchardKey with
    | some fvk => .ok fvk
    | none => .assertionFailure
  else if !spendable.saplingNoteEntries.isEmpty then
    match ufvk.saplingKey with
    | some dfvk => .ok dfvk
    | none => .assertionFailure
  else if !spendable.utxos.isEmpty then
    match ufvk.transparentKey with
    | some tfvk => .ok tfvk
    | none => .assertionFailure
  else
    .exception

/-- The method `WalletTxBuilder::SelectOVKs`. -/
def WalletTxBuilder.SelectOVKs (b : WalletTxBuilder) (wallet : CWallet)
    (selector : ZTXOSelector) (spendable : SpendableInputs) : Outcome (uint256 × uint256) :=
  match selector.pattern with
  | .keyId _ => .ok wallet.legacyOVKs
  | .scriptId _ => .ok wallet.legacyOVKs
  | .sproutAddress _ => .ok wallet.legacyOVKs
  | .sproutViewingKey _ => .ok wallet.legacyOVKs
  | .saplingAddress addr =>
    match wallet.GetSaplingExtendedSpendingKey addr with
    | some extsk => .ok extsk.xfvk.ovks
    | none => .assertionFailure
  | .saplingExtendedFullViewingKey sxfvk => .ok sxfvk.ovks
  | .unifiedAddress ua =>
    match wallet.GetUFVKForAddress ua with
    | some ufvk => GetOVKsForUFVK ufvk.ufvk spendable
    | none => .assertionFailure
  | .unifiedFullViewingKey ufvk => GetOVKsForUFVK ufvk spendable
  | .account acct =>
    if acct.accountId = b.ZCASH_LEGACY_ACCOUNT then
      .ok wallet.legacyOVKs
    else
      match wallet.GetUnifiedFullViewingKeyByAccount acct.accountId with
      | some ufvk => GetOVKsForUFVK ufvk.ufvk spendable
      | none => .assertionFailure

/-- The method `TransactionEffects::LockSpendable`: coins, then Sprout notes, then Sapling
notes; Orchard notes are not locked. -/
def TransactionEffects.LockSpendable (t : TransactionEffects) (wallet : CWallet) : CWallet :=
  let w1 := t.spendable.utxos.foldl (fun w utxo => w.LockCoin ⟨utxo.txHash, utxo.i⟩) wallet
  let w2 := t.spendable.sproutNoteEntries.foldl (fun w note => w.LockSproutNote note.jsop) w1
  t.spendable.saplingNoteEntries.foldl (fun w note => w.LockSaplingNote note.op) w2

/-- The method `TransactionEffects::UnlockSpendable`: coins, then Sprout notes, then Sapling
notes; Orchard notes are not unlocked. -/
def TransactionEffects.UnlockSpendable (t : TransactionEffects) (wallet : CWallet) : CWallet :=
  let w1 := t.spendable.utxos.foldl (fun w utxo => w.UnlockCoin ⟨utxo.txHash, utxo.i⟩) wallet
  let w2 := t.spendable.sproutNoteEntries.foldl (fun w note => w.UnlockSproutNote note.jsop) w1
  t.spendable.saplingNoteEntries.foldl (fun w note => w.UnlockSaplingNote note.op) w2

/-- The lambda `getAllowedChangePools` of `PrepareTransaction`, with the variables it
captures as arguments. -/
def getAllowedChangePools (b : WalletTxBuilder) (strategy : TransactionStrategy)
    (spendable : SpendableInputs) (resolvedPayments : Payments) (sendFromAccount : AccountId)
    (anchorHeight : Int) (receiverTypes : List ReceiverType) : Finset OutputPool :=
  let result : Finset OutputPool := resolvedPayments.GetRecipientPools
  let result : Finset OutputPool :=
    if sendFromAccount ≠ b.ZCASH_LEGACY_ACCOUNT then insert OutputPool.Sapling result
    else result
  receiverTypes.foldl (fun result rtype =>
    match rtype with
    | .P2PKH =>
      if !spendable.utxos.isEmpty || strategy.AllowRevealedRecipients
      then insert OutputPool.Transparent result else result
    | .P2SH =>
      if !spendable.utxos.isEmpty || strategy.AllowRevealedRecipients
      then insert OutputPool.Transparent result else result
    | .Sapling =>
      if !spendable.saplingNoteEntries.isEmpty || strategy.AllowRevealedAmounts
      then insert OutputPool.Sapling result else result
    | .Orchard =>
      if b.nu5Active anchorHeight
          && (!spendable.orchardNoteMetadata.isEmpty || strategy.AllowRevealedAmounts)
      then insert OutputPool.Orchard result else result) result

/-- The lambda `addChangePayment` of `PrepareTransaction`: it asserts that a change address
was found, appends the change payment, and returns the address (with the payments as they are
after the call). -/
def addChangePayment (resolvedPayments : Payments) (changeAmount : CAmount)
    (sendTo : Option RecipientAddress) : Outcome (ChangeAddress × Payments) :=
  match sendTo with
  | none => .assertionFailure
  | some addr =>
    .ok (.recipient addr,
      resolvedPayments.AddPayment ⟨none, addr, changeAmount, none, true⟩)

/-- The `examine(selector.GetPattern(), ...)` of `PrepareTransaction` that chooses the change
address, run when `changeAmount > 0`; `pools` is `getAllowedChangePools` with its captured
variables supplied. -/
def selectChangeAddress (wallet : CWallet) (selector : ZTXOSelector)
    (resolvedPayments : Payments) (changeAmount : CAmount) (sendFromAccount : AccountId)
    (legacyAccount : AccountId) (pools : List ReceiverType → Finset OutputPool) :
    Outcome (ChangeAddress × Payments) :=
  let changeAddressForTransparentSelector := fun (receiverTypes : List ReceiverType) =>
    addChangePayment resolvedPayments changeAmount
      (wallet.GenerateChangeAddressForAccount sendFromAccount (pools receiverTypes))
  let changeAddressForSaplingAddress := fun (addr : SaplingPaymentAddress) =>
    addChangePayment resolvedPayments changeAmount
      (if sendFromAccount = legacyAccount then some (RecipientAddress.sapling addr)
       else wallet.GenerateChangeAddressForAccount sendFromAccount
              (pools [ReceiverType.Sapling]))
  let changeAddressForZUFVK := fun (zufvk : ZcashdUnifiedFullViewingKey)
      (receiverTypes : List ReceiverType) =>
    addChangePayment resolvedPayments changeAmount
      (wallet.GetZUFVKChangeAddress zufvk (pools receiverTypes))
  match selector.pattern with
  | .keyId _ => changeAddressForTransparentSelector [ReceiverType.P2PKH]
  | .scriptId _ => changeAddressForTransparentSelector [ReceiverType.P2SH]
  | .sproutAddress addr => .ok (.sprout addr, resolvedPayments)
  | .sproutViewingKey vk => .ok (.sprout vk.address, resolvedPayments)
  | .saplingAddress addr => changeAddressForSaplingAddress addr
  | .saplingExtendedFullViewingKey fvk => changeAddressForSaplingAddress fvk.defaultAddress
  | .unifiedAddress ua =>
    match wallet.GetUFVKForAddress ua with
    | none => .assertionFailure
    | some zufvk => changeAddressForZUFVK zufvk ua.GetKnownReceiverTypes
  | .unifiedFullViewingKey fvk =>
    changeAddressForZUFVK (ZcashdUnifiedFullViewingKey.FromUnifiedFullViewingKey fvk)
      fvk.knownReceiverTypes
  | .account acct =>
    addChangePayment resolvedPayments changeAmount
      (wallet.GenerateChangeAddressForAccount acct.accountId (pools acct.receiverTypes))

/-- What a call of `PrepareTransaction` that returns leaves behind: its result, the wallet
(whose lock state `LockSpendable` may have changed) and the in-out argument `spendable`. -/
structure PrepareOutcome where
  result : PrepareTransactionResult
  wallet : CWallet
  spendable : SpendableInputs

/-- The method `WalletTxBuilder::PrepareTransaction`. -/
def WalletTxBuilder.PrepareTransaction (b : WalletTxBuilder) (wallet : CWallet)
    (selector : ZTXOSelector) (spendable : SpendableInputs) (payments : List Payment)
    (chain : CChain) (strategy : TransactionStrategy) (fee : CAmount)
    (anchorConfirmations : Nat) : Outcome PrepareOutcome :=
  if ¬ (fee < b.MAX_MONEY) then .assertionFailure
  else
    let anchorHeight := GetAnchorHeight chain anchorConfirmations
    let selected := b.ResolveInputsAndPayments wallet selector spendable payments chain
      strategy fee anchorHeight
    let spendable := selected.2
    match selected.1 with
    | .error e => .ok ⟨.error e, wallet, spendable⟩
    | .selection resolvedSelection =>
      let resolvedPayments := resolvedSelection.GetPayments
      let changeAmount : CAmount := spendable.Total - resolvedPayments.Total - fee
      let change : Outcome (Option ChangeAddress × Payments) :=
        if changeAmount > 0 then
          let sendFromAccount :=
            (wallet.FindAccountForSelector selector).getD b.ZCASH_LEGACY_ACCOUNT
          match selectChangeAddress wallet selector resolvedPayments changeAmount
              sendFromAccount b.ZCASH_LEGACY_ACCOUNT
              (getAllowedChangePools b strategy spendable resolvedPayments sendFromAccount
                anchorHeight) with
          | .ok (addr, ps) => .ok (some addr, ps)
          | .assertionFailure => .assertionFailure
          | .exception => .exception
        else .ok (none, resolvedPayments)
      match change with
      | .assertionFailure => .assertionFailure
      | .exception => .exception
      | .ok (changeAddr, resolvedPayments) =>
        match b.SelectOVKs wallet selector spendable with
        | .assertionFailure => .assertionFailure
        | .exception => .exception
        | .ok ovks =>
          let effects : TransactionEffects :=
            ⟨anchorConfirmations, spendable, resolvedPayments, changeAddr, fee,
              ovks.1, ovks.2, anchorHeight⟩
          .ok ⟨.effects effects, effects.LockSpendable wallet, spendable⟩

/-! ## The effects of a plan -/

/-- The method `TransactionEffects::GetRequiredPrivacyPolicy`. -/
def TransactionEffects.GetRequiredPrivacyPolicy (t : TransactionEffects) : PrivacyPolicy :=
  if !t.spendable.utxos.isEmpty then
    if t.payments.HasTransparentRecipient then
      PrivacyPolicy.AllowRevealedSenders
    else
      PrivacyPolicy.AllowRevealedSenders
  else if t.payments.HasTransparentRecipient then
    PrivacyPolicy.AllowRevealedRecipients
  else if !t.spendable.orchardNoteMetadata.isEmpty && t.payments.HasSaplingRecipient
      || !t.spendable.saplingNoteEntries.isEmpty && t.payments.HasOrchardRecipient
      || !t.spendable.sproutNoteEntries.isEmpty && t.payments.HasSaplingRecipient then
    PrivacyPolicy.AllowRevealedAmounts
  else
    PrivacyPolicy.FullPrivacy

/-- The method `TransactionEffects::InvolvesOrchard`. -/
def TransactionEffects.InvolvesOrchard (t : TransactionEffects) : Bool :=
  decide (t.spendable.GetOrchardTotal > 0) || t.payments.HasOrchardRecipient

/-- A call made on the low-level `TransactionBuilder`, with its arguments. -/
inductive BuilderOp where
  | New (nextBlockHeight : Int) (orchardAnchor : Option uint256)
  | SetFee (fee : CAmount)
  | AddOrchardSpend (sk : Nat) (spendInfo : OrchardSpendInfo)
  | AddSaplingSpend (expsk : Nat) (note : SaplingNoteEntry) (anchor : uint256) (witness : Nat)
  | AddTransparentOutput (dest : RecipientAddress) (amount : CAmount)
  | AddSaplingOutput (ovk : uint256) (dest : SaplingPaymentAddress) (amount : CAmount)
      (memo : Option Memo)
  | AddOrchardOutput (ovk : uint256) (dest : OrchardRawAddress) (amount : CAmount)
      (memo : Option Memo)
  | AddTransparentInput (outpoint : COutPoint) (scriptPubKey : Nat) (nValue : CAmount)
  | AddSproutInput (sk : Nat) (note : SproutNoteEntry) (witness : Nat)
  | SendChangeToSprout (addr : SproutPaymentAddress)
  | Build
  deriving DecidableEq, Repr

/-- The error results `ApproveAndBuild` constructs itself, one per message. -/
inductive BuildError where
  | PolicyNotPermitted (strategy : PrivacyPolicy) (required : PrivacyPolicy)
  | InsufficientSaplingWitnesses
  | FailedToAddOrchardNote
  | MissingSaplingWitness (op : SaplingOutPoint)
  | MemoToTransparentAddress
  | InsufficientSproutWitnesses
  | FromBuilder (code : Nat)
  deriving DecidableEq, Repr

/-- The result of building (`TransactionBuilderResult`): a transaction or an error. -/
inductive TransactionBuilderResult where
  | tx (id : Nat)
  | error (e : BuildError)
  deriving DecidableEq, Repr

/-- The low-level builder and the globals `ApproveAndBuild` reads. Each function takes the
calls made so far: `throws` tells whether the next call throws, `AddOrchardSpendOk` is the
boolean `AddOrchardSpend` returns, `BuildResult` is what `Build` returns. -/
structure BuilderModel where
  nPreferredTxVersion : Int
  ZIP225_MIN_TX_VERSION : Int
  throws : List BuilderOp → BuilderOp → Bool
  AddOrchardSpendOk : List BuilderOp → Nat → OrchardSpendInfo → Bool
  BuildResult : List BuilderOp → TransactionBuilderResult

/-- The local state of `ApproveAndBuild`: the builder calls made so far and `totalSpend`. -/
structure BuildState where
  ops : List BuilderOp
  totalSpend : CAmount
  deriving DecidableEq, Repr

/-- A step of `ApproveAndBuild`: it goes on with a new state, or the function ends there with
the calls made and its outcome. -/
abbrev BuildStep (α : Type) := Except (List BuilderOp × Outcome TransactionBuilderResult) α

/-- One call on the builder: recorded, and ending the function if the builder throws. -/
def BuilderModel.call (m : BuilderModel) (st : BuildState) (op : BuilderOp) :
    BuildStep BuildState :=
  if m.throws st.ops op then .error (st.ops ++ [op], .exception)
  else .ok { st with ops := st.ops ++ [op] }

/-- The first loop over `spendable.saplingNoteEntries`: the spending key of each note is
fetched under an `assert` and the note value is added to `totalSpend`. -/
def collectSaplingKeys (wallet : CWallet) :
    List SaplingNoteEntry → List SaplingExtendedSpendingKey → BuildState →
      BuildStep (List SaplingExtendedSpendingKey × BuildState)
  | [], keys, st => .ok (keys, st)
  | t :: rest, keys, st =>
    match wallet.GetSaplingExtendedSpendingKey t.address with
    | none => .error (st.ops, .assertionFailure)
    | some saplingKey =>
      collectSaplingKeys wallet rest (keys ++ [saplingKey])
        { st with totalSpend := st.totalSpend + t.value }

/-- The loop `Add Orchard spends`. -/
def addOrchardSpends (m : BuilderModel) :
    List (Nat × OrchardSpendInfo) → BuildState → BuildStep BuildState
  | [], st => .ok st
  | spendInfo :: rest, st =>
    match m.call st (.AddOrchardSpend spendInfo.1 spendInfo.2) with
    | .error r => .error r
    | .ok st1 =>
      if !m.AddOrchardSpendOk st.ops spendInfo.1 spendInfo.2 then
        .error (st1.ops, .ok (.error .FailedToAddOrchardNote))
      else
        addOrchardSpends m rest { st1 with totalSpend := st1.totalSpend + spendInfo.2.value }

/-- The loop `Add Sapling spends`, over the notes with their keys; `i` is the loop index into
`witnesses`, an index past its end being read as an absent witness. -/
def addSaplingSpends (m : BuilderModel) (anchor : uint256) (witnesses : List (Option Nat)) :
    List (SaplingNoteEntry × SaplingExtendedSpendingKey) → Nat → BuildState →
      BuildStep BuildState
  | [], _, st => .ok st
  | (note, key) :: rest, i, st =>
    match (witnesses.get? i).join with
    | none => .error (st.ops, .ok (.error (.MissingSaplingWitness note.op)))
    | some witness =>
      match m.call st (.AddSaplingSpend key.id note anchor witness) with
      | .error r => .error r
      | .ok st1 => addSaplingSpends m anchor witnesses rest (i + 1) st1

/-- The loop `Add outputs` over the resolved payments. -/
def addOutputs (m : BuilderModel) (internalOVK externalOVK : uint256) :
    List ResolvedPayment → BuildState → BuildStep BuildState
  | [], st => .ok st
  | r :: rest, st =>
    let step : BuildStep BuildState :=
      match r.address with
      | .p2pkh keyId =>
        if r.memo.isSome then .error (st.ops, .ok (.error .MemoToTransparentAddress))
        else m.call st (.AddTransparentOutput (.p2pkh keyId) r.amount)
      | .p2sh scriptId =>
        if r.memo.isSome then .error (st.ops, .ok (.error .MemoToTransparentAddress))
        else m.call st (.AddTransparentOutput (.p2sh scriptId) r.amount)
      | .sapling addr =>
        m.call st (.AddSaplingOutput (if r.isInternal then internalOVK else externalOVK)
          addr r.amount r.memo)
      | .orchard addr =>
        m.call st (.AddOrchardOutput (if r.isInternal then internalOVK else externalOVK)
          addr r.amount r.memo)
    match step with
    | .error e => .error e
    | .ok st1 => addOutputs m internalOVK externalOVK rest st1

/-- The loop `Add transparent utxos`. -/
def addTransparentInputs (m : BuilderModel) : List COutput → BuildState → BuildStep BuildState
  | [], st => .ok st
  | out :: rest, st =>
    match m.call st (.AddTransparentInput ⟨out.txHash, out.i⟩ out.scriptPubKey out.nValue) with
    | .error r => .error r
    | .ok st1 =>
      addTransparentInputs m rest { st1 with totalSpend := st1.totalSpend + out.nValue }

/-- The loop `Add Sprout spends`; `i` is the loop index into `vSproutWitnesses`. The spending
key is fetched under an `assert`, and `value()` of an absent witness throws. -/
def addSproutSpends (m : BuilderModel) (wallet : CWallet)
    (vSproutWitnesses : List (Option Nat)) :
    List SproutNoteEntry → Nat → BuildState → BuildStep BuildState
  | [], _, st => .ok st
  | t :: rest, i, st =>
    match wallet.GetSproutSpendingKey t.address with
    | none => .error (st.ops, .assertionFailure)
    | some sk =>
      match (vSproutWitnesses.get? i).join with
      | none => .error (st.ops, .exception)
      | some witness =>
        match m.call st (.AddSproutInput sk t witness) with
        | .error r => .error r
        | .ok st1 =>
          addSproutSpends m wallet vSproutWitnesses rest (i + 1)
            { st1 with totalSpend := st1.totalSpend + t.value }

/-- The Orchard anchor `ApproveAndBuild` passes to the builder: `none` when left unset, and
an `assert` fails when the block index at `anchorHeight` is null. -/
def TransactionEffects.orchardAnchor (t : TransactionEffects) (m : BuilderModel)
    (chain : CChain) : Outcome (Option uint256) :=
  if t.spendable.sproutNoteEntries.isEmpty
      && (t.InvolvesOrchard || decide (m.nPreferredTxVersion > m.ZIP225_MIN_TX_VERSION))
      && decide (t.anchorConfirmations > 0) then
    match chain.orchardRootAt t.anchorHeight with
    | none => .assertionFailure
    | some root => .ok (some root)
  else .ok none

/-- The part of `ApproveAndBuild` after the privacy check. -/
def TransactionEffects.buildSteps (t : TransactionEffects) (m : BuilderModel)
    (wallet : CWallet) (chain : CChain) : BuildStep BuildState :=
  let nextBlockHeight := chain.Height + 1
  match t.orchardAnchor m chain with
  | .assertionFailure => .error ([], .assertionFailure)
  | .exception => .error ([], .exception)
  | .ok orchardAnchor => do
    let st ← m.call ⟨[], 0⟩ (.New nextBlockHeight orchardAnchor)
    let st ← m.call st (.SetFee t.fee)
    let (saplingKeys, st) ← collectSaplingKeys wallet t.spendable.saplingNoteEntries [] st
    let saplingOutPoints := t.spendable.saplingNoteEntries.map (·.op)
    match wallet.GetSaplingNoteWitnesses saplingOutPoints t.anchorConfirmations with
    | none => .error (st.ops, .ok (.error .InsufficientSaplingWitnesses))
    | some (witnesses, anchor) =>
      let orchardSpendInfo :=
        match orchardAnchor with
        | some a => wallet.GetOrchardSpendInfo t.spendable.orchardNoteMetadata a
        | none => []
      let st ← addOrchardSpends m orchardSpendInfo st
      let st ← addSaplingSpends m anchor witnesses
        (t.spendable.saplingNoteEntries.zip saplingKeys) 0 st
      let st ← addOutputs m t.internalOVK t.externalOVK t.payments.GetResolvedPayments st
      let st ← addTransparentInputs m t.spendable.utxos st
      let vOutPoints := t.spendable.sproutNoteEntries.map (·.jsop)
      match wallet.GetSproutNoteWitnesses vOutPoints t.anchorConfirmations with
      | none => .error (st.ops, .ok (.error .InsufficientSproutWitnesses))
      | some (vSproutWitnesses, _) =>
        let st ← addSproutSpends m wallet vSproutWitnesses t.spendable.sproutNoteEntries 0 st
        let st ←
          match t.changeAddr with
          | some (.sprout addr) => m.call st (.SendChangeToSprout addr)
          | some (.recipient _) =>
            if st.totalSpend = t.payments.Total + t.fee then .ok st
            else .error (st.ops, .assertionFailure)
          | none => .ok st
        m.call st .Build

/-- The method `TransactionEffects::ApproveAndBuild`: the calls made on the builder, in
order, and how the method ends. -/
def TransactionEffects.ApproveAndBuild (t : TransactionEffects) (m : BuilderModel)
    (wallet : CWallet) (chain : CChain) (strategy : TransactionStrategy) :
    List BuilderOp × Outcome TransactionBuilderResult :=
  let requiredPrivacy := t.GetRequiredPrivacyPolicy
  if !strategy.IsCompatibleWith requiredPrivacy then
    ([], .ok (.error (.PolicyNotPermitted strategy.privacy requiredPrivacy)))
  else
    match t.buildSteps m wallet chain with
    | .error r => r
    | .ok st => (st.ops, .ok (m.BuildResult st.ops))

/-! ## Predicates used in the statements -/

/-- What the payment loop guarantees of the resolved payment it appends for a payment. -/
def ResolvedFrom (strategy : TransactionStrategy) (canResolveOrchard : Bool) (p : Payment)
    (rp : ResolvedPayment) : Prop :=
  rp.amount = p.amount ∧ rp.isInternal = false ∧
  (rp.address.isTransparent = true →
    strategy.AllowRevealedRecipients = true ∧ (p.memoInvariant = true → rp.memo = none)) ∧
  (rp.address.isOrchard = true → canResolveOrchard = true)

/-- The target amount of `ResolveInputsAndPayments`: the requested amounts plus the fee. -/
def targetAmountOf (payments : List Payment) (fee : CAmount) : CAmount :=
  payments.foldl (fun acc payment => acc + payment.amount) 0 + fee

/-- The flag `canResolveOrchard` of `ResolveInputsAndPayments`. -/
def canResolveOrchardOf (b : WalletTxBuilder) (spendable : SpendableInputs)
    (payments : List Payment) (fee : CAmount) (anchorHeight : Int) : Bool :=
  b.nu5Active anchorHeight
    && decide (spendable.Total - spendable.GetSproutTotal ≥ targetAmountOf payments fee)

/-- How the change of a plan relates to the selection it was made from. -/
def ChangeShape (selector : ZTXOSelector) (resolved : Payments) (fee : CAmount)
    (t : TransactionEffects) : Prop :=
  (t.spendable.Total - resolved.Total - fee ≤ 0 ∧ t.changeAddr = none ∧
    t.payments = resolved) ∨
  (0 < t.spendable.Total - resolved.Total - fee ∧ selector.isSprout = true ∧
    (∃ a, t.changeAddr = some (.sprout a)) ∧ t.payments = resolved) ∨
  (0 < t.spendable.Total - resolved.Total - fee ∧ selector.isSprout = false ∧
    ∃ addr, t.changeAddr = some (.recipient addr) ∧
      t.payments = resolved.AddPayment
        ⟨none, addr, t.spendable.Total - resolved.Total - fee, none, true⟩)

/-- The call of `PrepareTransaction` with these arguments returns the plan `t`. -/
def ReturnsPlan (b : WalletTxBuilder) (wallet : CWallet) (selector : ZTXOSelector)
    (spendable : SpendableInputs) (payments : List Payment) (chain : CChain)
    (strategy : TransactionStrategy) (fee : CAmount) (anchorConfirmations : Nat)
    (t : TransactionEffects) : Prop :=
  ∃ out, b.PrepareTransaction wallet selector spendable payments chain strategy fee
      anchorConfirmations = .ok out ∧ out.result = .effects t

/-- What the contract of `SpendableInputs::LimitToAmount` promises of a selection: when it
returns `true` the set it leaves has a total of at least the target and leaves no change
strictly between zero and the dust threshold, and its inputs are among the candidates; when
it returns `false` the set is untouched. -/
def LimitToAmountSound (b : WalletTxBuilder) : Prop :=
  ∀ (sp : SpendableInputs) (target dust : CAmount) (pools : Finset OutputPool)
    (ok : Bool) (sp1 : SpendableInputs),
    b.LimitToAmount sp target dust pools = (ok, sp1) →
    (ok = true →
      target ≤ sp1.Total ∧ ¬ (0 < sp1.Total - target ∧ sp1.Total - target < dust) ∧
      sp1.utxos ⊆ sp.utxos ∧ sp1.sproutNoteEntries ⊆ sp.sproutNoteEntries ∧
      sp1.saplingNoteEntries ⊆ sp.saplingNoteEntries ∧
      sp1.orchardNoteMetadata ⊆ sp.orchardNoteMetadata) ∧
    (ok = false → sp1 = sp)

/-! ## Concrete collaborators -/

/-- A limiter that keeps every candidate input when their total meets the target without
leaving change strictly between zero and the dust threshold, and fails otherwise. On a
candidate set of which no proper part reaches the target it does what every limiter honouring
the contract of `LimitToAmount` does. -/
def limitKeepAll (sp : SpendableInputs) (target dust : CAmount) (pools : Finset OutputPool) :
    Bool × SpendableInputs :=
  if target ≤ sp.Total ∧ ¬ (0 < sp.Total - target ∧ sp.Total - target < dust) then (true, sp)
  else (false, sp)

/-- A planner on a chain where NU5 is active, with the limit `maxActions` on Orchard
actions, a dust threshold of 54 zatoshi and `limitKeepAll` as limiter. -/
def builderWith (maxActions : Nat) : WalletTxBuilder where
  nu5Active := fun _ => true
  maxOrchardActions := maxActions
  dustThreshold := 54
  MAX_MONEY := 2100000000000000
  ZCASH_LEGACY_ACCOUNT := 2147483647
  LimitToAmount := limitKeepAll

/-- The unified full viewing key of account 0 of the example wallet. -/
def exampleUFVK : UnifiedFullViewingKey where
  id := 1
  orchardKey := some (11, 12)
  saplingKey := some (21, 22)
  transparentKey := some (31, 32)
  knownReceiverTypes := [.P2PKH, .Sapling, .Orchard]

/-- A change address in the most recent of the allowed pools, as the wallet generates it. -/
def exampleChangeAddress (pools : Finset OutputPool) : Option RecipientAddress :=
  if OutputPool.Orchard ∈ pools then some (.orchard ⟨900⟩)
  else if OutputPool.Sapling ∈ pools then some (.sapling ⟨901⟩)
  else if OutputPool.Transparent ∈ pools then some (.p2pkh ⟨902⟩)
  else none

/-- An example wallet with nothing locked: every selector but the Sprout ones belongs to
account 0, whose keys are those of `exampleUFVK`; all witnesses are available. -/
def exampleWallet : CWallet where
  FindAccountForSelector := fun s => if s.isSprout then none else some 0
  GenerateChangeAddressForAccount := fun _ pools => exampleChangeAddress pools
  GetZUFVKChangeAddress := fun _ pools => exampleChangeAddress pools
  GetUFVKForAddress := fun _ => some ⟨exampleUFVK⟩
  GetUnifiedFullViewingKeyByAccount := fun _ => some ⟨exampleUFVK⟩
  legacyOVKs := (41, 42)
  GetSaplingExtendedSpendingKey := fun addr => some ⟨addr.id, ⟨addr, (51, 52)⟩⟩
  GetSproutSpendingKey := fun addr => some addr.id
  GetSaplingNoteWitnesses := fun ops _ => some (ops.map (fun _ => some 7), 70)
  GetSproutNoteWitnesses := fun ops _ => some (ops.map (fun _ => some 8), 80)
  GetOrchardSpendInfo := fun notes _ => notes.map (fun n => (n.op.n, ⟨n.op.n, n.value⟩))
  setLockedCoins := ∅
  setLockedSproutNotes := ∅
  setLockedSaplingNotes := ∅

/-- An example chain at height 2000000 with an Orchard root at every height. -/
def exampleChain : CChain where
  Height := 2000000
  orchardRootAt := fun _ => some 99

/-- A low-level builder that accepts every call. -/
def exampleBuilder : BuilderModel where
  nPreferredTxVersion := 5
  ZIP225_MIN_TX_VERSION := 5
  throws := fun _ _ => false
  AddOrchardSpendOk := fun _ _ _ => true
  BuildResult := fun _ => .tx 1

/-- A Sprout note of the example wallet, at Sprout address 500. -/
def sproutNote (n : Nat) (v : Nat) : SproutNoteEntry := ⟨⟨n, 0, 0⟩, ⟨500⟩, v⟩

/-- A Sapling note of the example wallet, at Sapling address 600. -/
def saplingNote (n : Nat) (v : Nat) : SaplingNoteEntry := ⟨⟨n, 0⟩, ⟨600⟩, v⟩

/-- An Orchard note of the example wallet. -/
def orchardNote (n : Nat) (v : Nat) : OrchardNoteMetadata := ⟨⟨n, 0⟩, v⟩

/-- A transparent output of the example wallet. -/
def utxo (n : Nat) (v : CAmount) (cb : Bool) : COutput := ⟨n, 0, 700, v, cb⟩

/-! ## Scenarios -/

/-- The plan of the scenario `Sprout selector with change`: one Sprout note of 100000 zatoshi,
50000 paid to a Sapling address, fee 10000; the change of 40000 returns to the Sprout address
and is not among the payments. -/
def planSproutChange : TransactionEffects where
  anchorConfirmations := 10
  spendable := ⟨[], [sproutNote 1 100000], [], []⟩
  payments := ⟨[⟨none, .sapling ⟨1⟩, 50000, none, false⟩]⟩
  changeAddr := some (.sprout ⟨500⟩)
  fee := 10000
  internalOVK := 41
  externalOVK := 42
  anchorHeight := 1999991

/-- The plan of the scenario `Sapling payment needing a UTXO`: a UTXO of 30000 and a Sapling
note of 50000, 50000 paid to a Sapling address, fee 10000; both inputs are needed, and the
change of 20000 goes to a Sapling change address. -/
def planSaplingWithUtxo : TransactionEffects where
  anchorConfirmations := 10
  spendable := ⟨[utxo 1 30000 false], [], [saplingNote 2 50000], []⟩
  payments := ⟨[⟨none, .sapling ⟨1⟩, 50000, none, false⟩,
    ⟨none, .sapling ⟨901⟩, 20000, none, true⟩]⟩
  changeAddr := some (.recipient (.sapling ⟨901⟩))
  fee := 10000
  internalOVK := 21
  externalOVK := 22
  anchorHeight := 1999991

/-- The plan of the scenario `transparent recipient from Sapling funds`: one Sapling note of
100000, 50000 paid to a P2PKH address under `AllowRevealedRecipients`, fee 10000; the change of
40000 goes to a Sapling change address. -/
def planTransparentRecipient : TransactionEffects where
  anchorConfirmations := 10
  spendable := ⟨[], [], [saplingNote 2 100000], []⟩
  payments := ⟨[⟨none, .p2pkh ⟨5⟩, 50000, none, false⟩,
    ⟨none, .sapling ⟨901⟩, 40000, none, true⟩]⟩
  changeAddr := some (.recipient (.sapling ⟨901⟩))
  fee := 10000
  internalOVK := 51
  externalOVK := 52
  anchorHeight := 1999991

/-- The plan of the scenario `Orchard payment with Orchard change`: one Orchard note of
200000000 (2 ZEC), 100000000 paid to a unified address with Orchard and Sapling receivers
under `FullPrivacy`, fee 10000, sent from a unified-address selector; payment and change both
go to Orchard. -/
def planOrchardChange : TransactionEffects where
  anchorConfirmations := 10
  spendable := ⟨[], [], [], [orchardNote 2 200000000]⟩
  payments := ⟨[⟨some ⟨some ⟨5⟩, some ⟨6⟩, none, none⟩, .orchard ⟨5⟩, 100000000, none, false⟩,
    ⟨none, .orchard ⟨900⟩, 99990000, none, true⟩]⟩
  changeAddr := some (.recipient (.orchard ⟨900⟩))
  fee := 10000
  internalOVK := 11
  externalOVK := 12
  anchorHeight := 1999991

/-- The plan of the scenario `unified address falling back to P2PKH`: one UTXO of 100000,
90000 paid with a memo to a unified address that has only a P2PKH receiver, under `NoPrivacy`,
fee 10000, no change. -/
def planTransparentFallback : TransactionEffects where
  anchorConfirmations := 10
  spendable := ⟨[utxo 1 100000 false], [], [], []⟩
  payments := ⟨[⟨some ⟨none, none, none, some ⟨8⟩⟩, .p2pkh ⟨8⟩, 90000, none, false⟩]⟩
  changeAddr := none
  fee := 10000
  internalOVK := 41
  externalOVK := 42
  anchorHeight := 1999991

/-- The plan of the scenario `shielding a coinbase output`: one coinbase UTXO of 500000000,
499990000 paid to a Sapling address under `AllowRevealedSenders`, fee 10000, no change. -/
def planShieldCoinbase : TransactionEffects where
  anchorConfirmations := 10
  spendable := ⟨[utxo 1 500000000 true], [], [], []⟩
  payments := ⟨[⟨none, .sapling ⟨1⟩, 499990000, none, false⟩]⟩
  changeAddr := none
  fee := 10000
  internalOVK := 41
  externalOVK := 42
  anchorHeight := 1999991

/-- The required privacy policy as the specification words it: `AllowRevealedSenders` if any
UTXO is selected; otherwise `AllowRevealedRecipients` if some resolved payment is transparent;
otherwise `AllowRevealedAmounts` if Orchard notes are selected and a Sapling recipient exists,
or Sapling notes are selected and an Orchard recipient exists, or Sprout notes are selected and
a Sapling recipient exists; otherwise `FullPrivacy`. -/
def requiredPrivacyReference (t : TransactionEffects) : PrivacyPolicy :=
  if 0 < t.spendable.utxos.length then .AllowRevealedSenders
  else if ∃ rp ∈ t.payments.payments, rp.address.pool = .Transparent then
    .AllowRevealedRecipients
  else if (0 < t.spendable.orchardNoteMetadata.length
        ∧ ∃ rp ∈ t.payments.payments, rp.address.pool = .Sapling)
      ∨ (0 < t.spendable.saplingNoteEntries.length
        ∧ ∃ rp ∈ t.payments.payments, rp.address.pool = .Orchard)
      ∨ (0 < t.spendable.sproutNoteEntries.length
        ∧ ∃ rp ∈ t.payments.payments, rp.address.pool = .Sapling) then
    .AllowRevealedAmounts
  else .FullPrivacy

/-- What the refused call of the scenario `transparent recipient under FullPrivacy` leaves:
the error, the wallet with the Sapling note that was locked before the call, and the candidate
inputs. -/
def outcomeRefused : PrepareOutcome where
  result := .error (.AddressResolution .TransparentRecipientNotAllowed)
  wallet := exampleWallet.LockSaplingNote ⟨9, 0⟩
  spendable := ⟨[], [], [saplingNote 2 100000], []⟩

/-! ## The fee and action calculator (`src/zip317.cpp`) -/

/-- Conversion of an integer to a signed 64-bit value (two's complement wrap-around), as when
an unsigned 64-bit result is returned as a `CAmount`. -/
def toInt64 (x : Int) : Int := (x + 2 ^ 63) % 2 ^ 64 - 2 ^ 63

/-- The function `ceil_div` of `zip317.cpp`, on `size_t` operands: `(num + den - 1)/den` with
the sum and the difference taken modulo `2 ^ 64`. Division by `den = 0` is undefined in the
source and is read as Lean reads it. -/
def ceil_div (num den : Nat) : Nat :=
  ((((num : Int) + (den : Int) - 1) % 2 ^ 64).toNat) / den

/-- The function `CalculateConventionalFee`. The constants `MARGINAL_FEE` (a `CAmount`) and
`GRACE_ACTIONS` (a `size_t`) are declared in a header that is not among the sources and are
arguments here. The product of a signed and an unsigned 64-bit operand is computed in unsigned
64-bit arithmetic and returned as a signed 64-bit `CAmount`. -/
def CalculateConventionalFee (MARGINAL_FEE : CAmount) (GRACE_ACTIONS : Nat)
    (logicalActionCount : Nat) : CAmount :=
  toInt64 ((MARGINAL_FEE * ((max GRACE_ACTIONS logicalActionCount : Nat) : Int)) % 2 ^ 64)

/-- The function `CalculateLogicalActionCount`. The serialized sizes of `vin` and `vout`
(`GetSerializeSize`, not among the sources) and the constants `P2PKH_STANDARD_INPUT_SIZE` and
`P2PKH_STANDARD_OUTPUT_SIZE` are arguments. `2 * joinSplitCount` is a product of an `int` and
an `unsigned int`, computed modulo `2 ^ 32`; the sums are `size_t` sums, modulo `2 ^ 64`. -/
def CalculateLogicalActionCount (P2PKH_STANDARD_INPUT_SIZE P2PKH_STANDARD_OUTPUT_SIZE : Nat)
    (tx_in_total_size tx_out_total_size : Nat)
    (joinSplitCount saplingSpendCount saplingOutputCount orchardActionCount : Nat) : Nat :=
  (((max (ceil_div tx_in_total_size P2PKH_STANDARD_INPUT_SIZE)
          (ceil_div tx_out_total_size P2PKH_STANDARD_OUTPUT_SIZE)
        + (2 * joinSplitCount) % 2 ^ 32) % 2 ^ 64
      + max saplingSpendCount saplingOutputCount) % 2 ^ 64
    + orchardActionCount) % 2 ^ 64

/-- The exact ceiling of `num / den`, as the specification writes it. -/
def exactCeil (num den : Nat) : Nat := ⌈(num : ℚ) / (den : ℚ)⌉₊

/-- The logical action count as the specification writes it, over the integers:
`max(⌈in_size / P2PKH_STD_IN⌉, ⌈out_size / P2PKH_STD_OUT⌉) + 2·joinSplitCount
+ max(saplingSpendCount, saplingOutputCount) + orchardActionCount`. -/
def logicalActionCountReference (P2PKH_STANDARD_INPUT_SIZE P2PKH_STANDARD_OUTPUT_SIZE : Nat)
    (in_size out_size : Nat)
    (joinSplitCount saplingSpendCount saplingOutputCount orchardActionCount : Nat) : Nat :=
  max (exactCeil in_size P2PKH_STANDARD_INPUT_SIZE)
      (exactCeil out_size P2PKH_STANDARD_OUTPUT_SIZE)
    + 2 * joinSplitCount + max saplingSpendCount saplingOutputCount + orchardActionCount

/-- The outpoints of the UTXOs of a plan, as `LockSpendable` builds them. -/
def TransactionEffects.utxoOutPoints (t : TransactionEffects) : Finset COutPoint :=
  (t.spendable.utxos.map (fun utxo => (⟨utxo.txHash, utxo.i⟩ : COutPoint))).toFinset

/-- The outpoints of the Sprout notes of a plan. -/
def TransactionEffects.sproutOutPoints (t : TransactionEffects) : Finset JSOutPoint :=
  (t.spendable.sproutNoteEntries.map (·.jsop)).toFinset

/-- The outpoints of the Sapling notes of a plan. -/
def TransactionEffects.saplingOutPoints (t : TransactionEffects) : Finset SaplingOutPoint :=
  (t.spendable.saplingNoteEntries.map (·.op)).toFinset

/-- The plan of the scenario `one UTXO, fully spent`: one UTXO of 100000, 90000 paid to a
P2PKH address under `NoPrivacy`, fee 10000, no change. -/
def planOneUtxo : TransactionEffects where
  anchorConfirmations := 10
  spendable := ⟨[utxo 1 100000 false], [], [], []⟩
  payments := ⟨[⟨none, .p2pkh ⟨8⟩, 90000, none, false⟩]⟩
  changeAddr := none
  fee := 10000
  internalOVK := 41
  externalOVK := 42
  anchorHeight := 1999991

/-- The receivers a recipient offers: the recipient itself for a P2PKH, P2SH or Sapling
address, the receivers of the address for a unified address, none for a Sprout address. -/
def PaymentAddress.offers : PaymentAddress → RecipientAddress → Prop
  | .p2pkh k, .p2pkh r => k = r
  | .p2sh s, .p2sh r => s = r
  | .sapling a, .sapling r => a = r
  | .unified ua, .orchard r => ua.orchardReceiver = some r
  | .unified ua, .sapling r => ua.saplingReceiver = some r
  | .unified ua, .p2sh r => ua.p2shReceiver = some r
  | .unified ua, .p2pkh r => ua.p2pkhReceiver = some r
  | _, _ => False

/-- Whether a recipient is a P2PKH or P2SH address. -/
def PaymentAddress.isTransparent : PaymentAddress → Bool
  | .p2pkh _ => true
  | .p2sh _ => true
  | _ => false

/-- Whether a recipient is a Sprout payment address. -/
def PaymentAddress.isSprout : PaymentAddress → Bool
  | .sprout _ => true
  | _ => false

/-- The state the payment loop of `ResolveInputsAndPayments` starts from. -/
def initialResolverState (spendable : SpendableInputs) : ResolverState :=
  ⟨spendable.GetSaplingTotal, spendable.GetOrchardTotal, 0, []⟩

/-- The receiver of a unified address the specification selects: the first that qualifies in
the order Orchard, Sapling, P2SH, P2PKH. Orchard qualifies iff the address has an Orchard
receiver, `canResolveOrchard` holds, and `AllowRevealedAmounts` or `amount ≤
maxOrchardAvailable`; Sapling qualifies iff the address has a Sapling receiver and
`AllowRevealedAmounts` or `amount ≤ maxSaplingAvailable`; P2SH and then P2PKH qualify iff
present and `AllowRevealedRecipients` holds. -/
def firstQualifyingReceiver (strategy : TransactionStrategy) (canResolveOrchard : Bool)
    (maxOrchardAvailable maxSaplingAvailable : CAmount) (amount : CAmount)
    (ua : UnifiedAddress) : Option RecipientAddress :=
  let orchardQualifies : Bool :=
    ua.orchardReceiver.isSome && canResolveOrchard
      && (strategy.AllowRevealedAmounts || decide (amount ≤ maxOrchardAvailable))
  let saplingQualifies : Bool :=
    ua.saplingReceiver.isSome
      && (strategy.AllowRevealedAmounts || decide (amount ≤ maxSaplingAvailable))
  let p2shQualifies : Bool := ua.p2shReceiver.isSome && strategy.AllowRevealedRecipients
  let p2pkhQualifies : Bool := ua.p2pkhReceiver.isSome && strategy.AllowRevealedRecipients
  if orchardQualifies then ua.orchardReceiver.map RecipientAddress.orchard
  else if saplingQualifies then ua.saplingReceiver.map RecipientAddress.sapling
  else if p2shQualifies then ua.p2shReceiver.map RecipientAddress.p2sh
  else if p2pkhQualifies then ua.p2pkhReceiver.map RecipientAddress.p2pkh
  else none

/-- The candidate inputs of the scenario `three payments, the second refused`: one Sapling
note of 100000. -/
def spendableOneSapling : SpendableInputs := ⟨[], [], [saplingNote 2 100000], []⟩

/-- The payments of the scenario `three payments, the second refused`: 10000 to a Sapling
address, 20000 to a P2PKH address, 30000 to a Sapling address. -/
def paymentsSecondRefused : List Payment :=
  [⟨.sapling ⟨1⟩, 10000, none⟩, ⟨.p2pkh ⟨5⟩, 20000, none⟩, ⟨.sapling ⟨3⟩, 30000, none⟩]

/-- The selection `ResolveInputsAndPayments` returns in the scenario `Orchard payment with
Orchard change`: the payment to the unified address, resolved to its Orchard receiver. -/
def selectionOrchard : InputSelection where
  payments := ⟨[⟨some ⟨some ⟨5⟩, some ⟨6⟩, none, none⟩, .orchard ⟨5⟩, 100000000, none, false⟩]⟩
  anchorHeight := 1999991

/-- The candidate inputs of the scenario `dust change`: one Sapling note of 100001000. -/
def spendableDust : SpendableInputs := ⟨[], [], [saplingNote 2 100001000], []⟩

/-- The candidate inputs of the scenario `coinbase with a transparent recipient`: one
coinbase UTXO of 500000000. -/
def spendableCoinbase : SpendableInputs := ⟨[utxo 1 500000000 true], [], [], []⟩

/-- The allowed change pools as the specification lists them: the recipient pools of the
resolved payments, plus Sapling if the sending account is not the legacy account, plus
Transparent if P2PKH or P2SH is among the receiver types and UTXOs are selected or revealed
recipients are allowed, plus Sapling if Sapling is among the receiver types and Sapling notes
are selected or revealed amounts are allowed, plus Orchard if Orchard is among the receiver
types, NU5 is active at the anchor height and Orchard notes are selected or revealed amounts
are allowed. -/
def allowedChangePoolsReference (b : WalletTxBuilder) (strategy : TransactionStrategy)
    (spendable : SpendableInputs) (resolvedPayments : Payments) (sendFromAccount : AccountId)
    (anchorHeight : Int) (receiverTypes : List ReceiverType) : Finset OutputPool :=
  resolvedPayments.GetRecipientPools
    ∪ (if sendFromAccount ≠ b.ZCASH_LEGACY_ACCOUNT then {OutputPool.Sapling} else ∅)
    ∪ (if (ReceiverType.P2PKH ∈ receiverTypes ∨ ReceiverType.P2SH ∈ receiverTypes)
          ∧ (spendable.utxos ≠ [] ∨ strategy.AllowRevealedRecipients = true)
       then {OutputPool.Transparent} else ∅)
    ∪ (if ReceiverType.Sapling ∈ receiverTypes
          ∧ (spendable.saplingNoteEntries ≠ [] ∨ strategy.AllowRevealedAmounts = true)
       then {OutputPool.Sapling} else ∅)
    ∪ (if ReceiverType.Orchard ∈ receiverTypes ∧ b.nu5Active anchorHeight = true
          ∧ (spendable.orchardNoteMetadata ≠ [] ∨ strategy.AllowRevealedAmounts = true)
       then {OutputPool.Orchard} else ∅)

/-- What one receiver type adds to the allowed change pools in the loop of
`getAllowedChangePools`. -/
def changePoolsOfReceiverType (b : WalletTxBuilder) (strategy : TransactionStrategy)
    (spendable : SpendableInputs) (anchorHeight : Int) : ReceiverType → Finset OutputPool
  | .P2PKH =>
    if !spendable.utxos.isEmpty || strategy.AllowRevealedRecipients
    then {OutputPool.Transparent} else ∅
  | .P2SH =>
    if !spendable.utxos.isEmpty || strategy.AllowRevealedRecipients
    then {OutputPool.Transparent} else ∅
  | .Sapling =>
    if !spendable.saplingNoteEntries.isEmpty || strategy.AllowRevealedAmounts
    then {OutputPool.Sapling} else ∅
  | .Orchard =>
    if b.nu5Active anchorHeight
        && (!spendable.orchardNoteMetadata.isEmpty || strategy.AllowRevealedAmounts)
    then {OutputPool.Orchard} else ∅

/-- The plan of the scenario `Sapling selector, Orchard recipient`: sent from a Sapling
address of account 0, one Sapling note of 200000, 100000 paid to a unified address with an
Orchard receiver only under `AllowRevealedAmounts`, fee 10000; the change of 90000 goes to an
Orchard change address. -/
def planSaplingSelectorOrchardChange : TransactionEffects where
  anchorConfirmations := 10
  spendable := ⟨[], [], [saplingNote 2 200000], []⟩
  payments := ⟨[⟨some ⟨some ⟨5⟩, none, none, none⟩, .orchard ⟨5⟩, 100000, none, false⟩,
    ⟨none, .orchard ⟨900⟩, 90000, none, true⟩]⟩
  changeAddr := some (.recipient (.orchard ⟨900⟩))
  fee := 10000
  internalOVK := 51
  externalOVK := 52
  anchorHeight := 1999991

/-- The calls recorded by a step of `ApproveAndBuild` start with the calls `p`, whether the
step goes on (with the state `f` reads off its value) or ends the function. -/
def StepExtends {α : Type} (p : List BuilderOp) (f : α → BuildState) : BuildStep α → Prop
  | .ok a => p <+: (f a).ops
  | .error r => p <+: r.1

/-- The plan of the scenario `Orchard note without anchor confirmations`: sent from account
0 with `anchorConfirmations = 0`, one Orchard note of 200000, 100000 paid to a Sapling
address under `AllowRevealedAmounts`, fee 10000; the change of 90000 goes to a Sapling change
address. -/
def planOrchardNoAnchor : TransactionEffects where
  anchorConfirmations := 0
  spendable := ⟨[], [], [], [orchardNote 3 200000]⟩
  payments := ⟨[⟨none, .sapling ⟨1⟩, 100000, none, false⟩,
    ⟨none, .sapling ⟨901⟩, 90000, none, true⟩]⟩
  changeAddr := some (.recipient (.sapling ⟨901⟩))
  fee := 10000
  internalOVK := 11
  externalOVK := 12
  anchorHeight := 2000001

/-- The sum of the amounts of the resolved payments whose receiver is a Sapling receiver. -/
def resolvedSaplingTotal (rps : List ResolvedPayment) : CAmount :=
  ((rps.filter (·.address.isSapling)).map (·.amount)).sum

/-- The sum of the amounts of the resolved payments whose receiver is an Orchard receiver. -/
def resolvedOrchardTotal (rps : List ResolvedPayment) : CAmount :=
  ((rps.filter (·.address.isOrchard)).map (·.amount)).sum

/-- The loop invariant of the payment loop under a strategy that does not allow revealed
amounts: the two budgets are not negative, and each budget plus the amounts resolved to its
pool so far is the total `initS` (Sapling) or `initO` (Orchard) the loop started with. -/
def BudgetInvariant (initS initO : CAmount) (st : ResolverState) : Prop :=
  0 ≤ st.maxSaplingAvailable ∧ 0 ≤ st.maxOrchardAvailable ∧
  st.maxSaplingAvailable + resolvedSaplingTotal st.resolvedPayments = initS ∧
  st.maxOrchardAvailable + resolvedOrchardTotal st.resolvedPayments = initO

/-! ## Lemmas on the planner -/

/-- An Orchard receiver is chosen only when `canResolveOrchard` holds. -/
theorem orchardReceiverFor_some {strategy : TransactionStrategy} {cro : Bool}
    {st : ResolverState} {p : Payment} {ua : UnifiedAddress} {r : OrchardRawAddress}
    (h : orchardReceiverFor strategy cro st p ua = some r) : cro = true := by
  unfold orchardReceiverFor at h
  split at h
  · assumption
  · simp at h

/-- A loop iteration that does not fail appends exactly one resolved payment, made from the
payment it handles. -/
theorem resolvePayment_ok {strategy : TransactionStrategy} {cro : Bool}
    {st st1 : ResolverState} {p : Payment}
    (h : resolvePayment strategy cro st p = .ok st1) :
    ∃ rp, st1.resolvedPayments = st.resolvedPayments ++ [rp] ∧
      ResolvedFrom strategy cro p rp := by
  unfold resolvePayment at h
  split at h
  · split at h
    · rename_i hs
      injection h with h; subst h
      exact ⟨_, rfl, rfl, rfl, fun _ => ⟨hs, fun hm => by
        simpa [Payment.memoInvariant, *] using hm⟩, fun hc => by simp [RecipientAddress.isOrchard] at hc⟩
    · simp at h
  · split at h
    · rename_i hs
      injection h with h; subst h
      exact ⟨_, rfl, rfl, rfl, fun _ => ⟨hs, fun hm => by
        simpa [Payment.memoInvariant, *] using hm⟩, fun hc => by simp [RecipientAddress.isOrchard] at hc⟩
    · simp at h
  · simp at h
  · split at h
    · injection h with h; subst h
      exact ⟨_, rfl, rfl, rfl, fun hc => by simp [RecipientAddress.isTransparent] at hc,
        fun hc => by simp [RecipientAddress.isOrchard] at hc⟩
    · simp at h
  · split at h
    · rename_i ho
      injection h with h; subst h
      exact ⟨_, rfl, rfl, rfl, fun hc => by simp [RecipientAddress.isTransparent] at hc,
        fun _ => orchardReceiverFor_some ho⟩
    · split at h
      · injection h with h; subst h
        exact ⟨_, rfl, rfl, rfl, fun hc => by simp [RecipientAddress.isTransparent] at hc,
          fun hc => by simp [RecipientAddress.isOrchard] at hc⟩
      · split at h
        · rename_i hs
          split at h
          · injection h with h; subst h
            exact ⟨_, rfl, rfl, rfl, fun _ => ⟨hs, fun _ => rfl⟩,
              fun hc => by simp [RecipientAddress.isOrchard] at hc⟩
          · split at h
            · injection h with h; subst h
              exact ⟨_, rfl, rfl, rfl, fun _ => ⟨hs, fun _ => rfl⟩,
                fun hc => by simp [RecipientAddress.isOrchard] at hc⟩
            · simp at h
        · split at h <;> simp at h

/-- A payment loop that does not fail appends one resolved payment per payment, in order. -/
theorem resolvePayments_ok {strategy : TransactionStrategy} {cro : Bool} :
    ∀ (ps : List Payment) {st st1 : ResolverState},
      resolvePayments strategy cro ps st = .ok st1 →
      ∃ rps, st1.resolvedPayments = st.resolvedPayments ++ rps ∧
        List.Forall₂ (ResolvedFrom strategy cro) ps rps
  | [], st, st1, h => by
    simp only [resolvePayments] at h
    injection h with h; subst h
    exact ⟨[], by simp, List.Forall₂.nil⟩
  | p :: rest, st, st1, h => by
    simp only [resolvePayments] at h
    split at h
    · simp at h
    · rename_i st2 h2
      obtain ⟨rp, hrp, hfrom⟩ := resolvePayment_ok h2
      obtain ⟨rps, hrps, hall⟩ := resolvePayments_ok rest h
      exact ⟨rp :: rps, by simp [hrps, hrp], List.Forall₂.cons hfrom hall⟩

/-- The accumulation of `sendAmount` is the sum of the requested amounts. -/
theorem foldl_amount_eq (ps : List Payment) (a : CAmount) :
    ps.foldl (fun acc payment => acc + payment.amount) a = a + (ps.map (·.amount)).sum := by
  induction ps generalizing a with
  | nil => simp
  | cons p rest ih => simp [ih, add_assoc]

/-- Resolved payments made from the requested ones have the same total. -/
theorem forall2_resolved_sum {strategy : TransactionStrategy} {cro : Bool}
    {ps : List Payment} {rps : List ResolvedPayment}
    (h : List.Forall₂ (ResolvedFrom strategy cro) ps rps) :
    (rps.map (·.amount)).sum = (ps.map (·.amount)).sum := by
  induction h with
  | nil => rfl
  | cons hab _ ih => simp [ih, hab.1]

/-- Every resolved payment was made from one of the requested payments. -/
theorem forall2_resolved_mem {strategy : TransactionStrategy} {cro : Bool}
    {ps : List Payment} {rps : List ResolvedPayment}
    (h : List.Forall₂ (ResolvedFrom strategy cro) ps rps) {rp : ResolvedPayment}
    (hrp : rp ∈ rps) : ∃ p ∈ ps, ResolvedFrom strategy cro p rp := by
  induction h with
  | nil => simp at hrp
  | cons hab _ ih =>
    rcases List.mem_cons.1 hrp with rfl | hmem
    · exact ⟨_, List.mem_cons_self _ _, hab⟩
    · obtain ⟨p, hp, hfrom⟩ := ih hmem
      exact ⟨p, List.mem_cons_of_mem _ hp, hfrom⟩

/-- What a successful `ResolveInputsAndPayments` went through. -/
theorem resolveInputs_selection {b : WalletTxBuilder} {wallet : CWallet}
    {selector : ZTXOSelector} {spendable sp1 : SpendableInputs} {payments : List Payment}
    {chain : CChain} {strategy : TransactionStrategy} {fee : CAmount} {anchorHeight : Int}
    {sel : InputSelection}
    (h : b.ResolveInputsAndPayments wallet selector spendable payments chain strategy fee
      anchorHeight = (.selection sel, sp1)) :
    ∃ st, resolvePayments strategy (canResolveOrchardOf b spendable payments fee anchorHeight)
        payments ⟨spendable.GetSaplingTotal, spendable.GetOrchardTotal, 0, []⟩ = .ok st ∧
      sel = ⟨⟨st.resolvedPayments⟩, anchorHeight⟩ ∧
      st.orchardOutputs ≤ b.maxOrchardActions ∧
      b.LimitToAmount spendable (targetAmountOf payments fee) b.DefaultDustThreshold
        (Payments.GetRecipientPools ⟨st.resolvedPayments⟩) = (true, sp1) ∧
      (sp1.HasTransparentCoinbase = true →
        sp1.Total = targetAmountOf payments fee ∧
        (Payments.HasTransparentRecipient ⟨st.resolvedPayments⟩) = false) ∧
      sp1.orchardNoteMetadata.length ≤ b.maxOrchardActions := by
  unfold WalletTxBuilder.ResolveInputsAndPayments at h
  simp only at h
  split at h
  · simp at h
  · rename_i st hst
    split at h
    · simp at h
    · rename_i hout
      split at h
      · simp at h
      · rename_i hlim
        split at h
        · simp at h
        · rename_i hcb1
          split at h
          · simp at h
          · rename_i hcb2
            split at h
            · simp at h
            · rename_i hin
              simp only [Prod.mk.injEq, InputSelectionResult.selection.injEq] at h
              refine ⟨st, hst, h.1.symm, Nat.le_of_not_lt hout, ?_, ?_, ?_⟩
              · rw [← h.2]
                simp only [Bool.not_eq_true', Bool.not_eq_false] at hlim
                exact Prod.ext hlim rfl
              · rw [← h.2]
                intro hcb
                simp only [hcb, Bool.true_and, decide_eq_true_eq, ne_eq, not_not,
                  Bool.not_eq_true] at hcb1 hcb2
                exact ⟨hcb1, hcb2⟩
              · rw [← h.2]
                exact Nat.le_of_not_lt hin

/-- When `addChangePayment` returns, the change payment was appended. -/
theorem addChangePayment_ok {resolved ps : Payments} {changeAmount : CAmount}
    {sendTo : Option RecipientAddress} {ca : ChangeAddress}
    (h : addChangePayment resolved changeAmount sendTo = .ok (ca, ps)) :
    ∃ addr, sendTo = some addr ∧ ca = .recipient addr ∧
      ps = resolved.AddPayment ⟨none, addr, changeAmount, none, true⟩ := by
  unfold addChangePayment at h
  split at h
  · simp at h
  · rename_i addr
    simp only [Outcome.ok.injEq, Prod.mk.injEq] at h
    exact ⟨addr, rfl, h.1.symm, h.2.symm⟩

/-- The two ways `selectChangeAddress` returns: a Sprout selector gets its own address back and
the payments are untouched, any other selector gets a recipient address and the change payment
is appended. -/
theorem selectChangeAddress_ok {wallet : CWallet} {selector : ZTXOSelector}
    {resolved ps : Payments} {changeAmount : CAmount} {acct legacy : AccountId}
    {pools : List ReceiverType → Finset OutputPool} {ca : ChangeAddress}
    (h : selectChangeAddress wallet selector resolved changeAmount acct legacy pools
      = .ok (ca, ps)) :
    (selector.isSprout = true ∧ (∃ a, ca = .sprout a) ∧ ps = resolved) ∨
    (selector.isSprout = false ∧ ∃ addr, ca = .recipient addr ∧
      ps = resolved.AddPayment ⟨none, addr, changeAmount, none, true⟩) := by
  unfold selectChangeAddress at h
  simp only at h
  split at h
  all_goals rename_i hpat
  · obtain ⟨addr, -, h1, h2⟩ := addChangePayment_ok h
    exact Or.inr ⟨by simp [ZTXOSelector.isSprout, hpat], addr, h1, h2⟩
  · obtain ⟨addr, -, h1, h2⟩ := addChangePayment_ok h
    exact Or.inr ⟨by simp [ZTXOSelector.isSprout, hpat], addr, h1, h2⟩
  · simp only [Outcome.ok.injEq, Prod.mk.injEq] at h
    exact Or.inl ⟨by simp [ZTXOSelector.isSprout, hpat], ⟨_, h.1.symm⟩, h.2.symm⟩
  · simp only [Outcome.ok.injEq, Prod.mk.injEq] at h
    exact Or.inl ⟨by simp [ZTXOSelector.isSprout, hpat], ⟨_, h.1.symm⟩, h.2.symm⟩
  · obtain ⟨addr, -, h1, h2⟩ := addChangePayment_ok h
    exact Or.inr ⟨by simp [ZTXOSelector.isSprout, hpat], addr, h1, h2⟩
  · obtain ⟨addr, -, h1, h2⟩ := addChangePayment_ok h
    exact Or.inr ⟨by simp [ZTXOSelector.isSprout, hpat], addr, h1, h2⟩
  · split at h
    · simp at h
    · obtain ⟨addr, -, h1, h2⟩ := addChangePayment_ok h
      exact Or.inr ⟨by simp [ZTXOSelector.isSprout, hpat], addr, h1, h2⟩
  · obtain ⟨addr, -, h1, h2⟩ := addChangePayment_ok h
    exact Or.inr ⟨by simp [ZTXOSelector.isSprout, hpat], addr, h1, h2⟩
  · obtain ⟨addr, -, h1, h2⟩ := addChangePayment_ok h
    exact Or.inr ⟨by simp [ZTXOSelector.isSprout, hpat], addr, h1, h2⟩

/-- What a call of `PrepareTransaction` that returns a plan went through. -/
theorem prepare_effects {b : WalletTxBuilder} {wallet : CWallet} {selector : ZTXOSelector}
    {spendable : SpendableInputs} {payments : List Payment} {chain : CChain}
    {strategy : TransactionStrategy} {fee : CAmount} {anchorConfirmations : Nat}
    {out : PrepareOutcome} {t : TransactionEffects}
    (h : b.PrepareTransaction wallet selector spendable payments chain strategy fee
      anchorConfirmations = .ok out)
    (ht : out.result = .effects t) :
    ∃ sel, b.ResolveInputsAndPayments wallet selector spendable payments chain strategy fee
        (GetAnchorHeight chain anchorConfirmations) = (.selection sel, t.spendable) ∧
      out.spendable = t.spendable ∧ t.fee = fee ∧ out.wallet = t.LockSpendable wallet ∧
      ChangeShape selector sel.payments fee t := by
  unfold WalletTxBuilder.PrepareTransaction at h
  split at h
  · simp at h
  · simp only at h
    split at h
    · simp only [Outcome.ok.injEq] at h
      subst h
      simp at ht
    · rename_i sel hsel
      split at h
      · simp at h
      · simp at h
      · rename_i changeAddr ps hchange
        split at h
        · simp at h
        · simp at h
        · rename_i ovks hovks
          simp only [Outcome.ok.injEq] at h
          subst h
          simp only [PrepareTransactionResult.effects.injEq] at ht
          subst ht
          refine ⟨sel, Prod.ext hsel rfl, rfl, rfl, rfl, ?_⟩
          unfold ChangeShape
          simp only [InputSelection.GetPayments] at hchange ⊢
          split at hchange
          · rename_i hpos
            split at hchange
            · rename_i ca ps1 hsca
              simp only [Outcome.ok.injEq, Prod.mk.injEq] at hchange
              obtain ⟨h1, h2⟩ := hchange
              subst h1 h2
              rcases selectChangeAddress_ok hsca with ⟨hs, ⟨a, ha⟩, hps⟩ | ⟨hs, addr, ha, hps⟩
              · exact Or.inr (Or.inl ⟨hpos, hs, ⟨a, by rw [ha]⟩, hps⟩)
              · exact Or.inr (Or.inr ⟨hpos, hs, addr, by rw [ha], hps⟩)
            · simp at hchange
            · simp at hchange
          · rename_i hneg
            simp only [Outcome.ok.injEq, Prod.mk.injEq] at hchange
            obtain ⟨h1, h2⟩ := hchange
            subst h1 h2
            exact Or.inl ⟨not_lt.1 hneg, rfl, rfl⟩

/-- The limiter `limitKeepAll` honours the contract of `LimitToAmount`. -/
theorem limitKeepAll_sound (n : Nat) : LimitToAmountSound (builderWith n) := by
  intro sp target dust pools ok sp1 h
  simp only [builderWith, limitKeepAll] at h
  split at h
  · rename_i hv
    simp only [Prod.mk.injEq] at h
    obtain ⟨h1, h2⟩ := h
    subst h1 h2
    exact ⟨fun _ => ⟨hv.1, hv.2, List.Subset.refl _, List.Subset.refl _,
      List.Subset.refl _, List.Subset.refl _⟩, fun hf => by simp at hf⟩
  · simp only [Prod.mk.injEq] at h
    exact ⟨fun ht => by simp [← h.1] at ht, fun _ => h.2.symm⟩

/-- What a returned plan went through: the resolved payments, pairwise made from the requested
ones, the limiter call that left the selected inputs, the two checks after it, and the shape
of the change. -/
theorem returnsPlan_structure {b : WalletTxBuilder} {wallet : CWallet}
    {selector : ZTXOSelector} {spendable : SpendableInputs} {payments : List Payment}
    {chain : CChain} {strategy : TransactionStrategy} {fee : CAmount}
    {anchorConfirmations : Nat} {t : TransactionEffects}
    (h : ReturnsPlan b wallet selector spendable payments chain strategy fee
      anchorConfirmations t) :
    ∃ rps : List ResolvedPayment,
      List.Forall₂ (ResolvedFrom strategy (canResolveOrchardOf b spendable payments fee
        (GetAnchorHeight chain anchorConfirmations))) payments rps ∧
      b.LimitToAmount spendable (targetAmountOf payments fee) b.DefaultDustThreshold
        (Payments.GetRecipientPools ⟨rps⟩) = (true, t.spendable) ∧
      (t.spendable.HasTransparentCoinbase = true →
        t.spendable.Total = targetAmountOf payments fee ∧
        Payments.HasTransparentRecipient ⟨rps⟩ = false) ∧
      t.spendable.orchardNoteMetadata.length ≤ b.maxOrchardActions ∧
      t.fee = fee ∧
      ChangeShape selector ⟨rps⟩ fee t := by
  obtain ⟨out, hout, hres⟩ := h
  obtain ⟨sel, hsel, -, hfee, -, hshape⟩ := prepare_effects hout hres
  obtain ⟨st, hst, hseleq, -, hlim, hcb, hin⟩ := resolveInputs_selection hsel
  obtain ⟨rps, hrps, hall⟩ := resolvePayments_ok payments hst
  simp only [List.nil_append] at hrps
  rw [hrps] at hlim hcb hseleq
  subst hseleq
  exact ⟨rps, hall, hlim, hcb, hin, hfee, hshape⟩

/-- The resolved payments plus the fee total the target amount. -/
theorem resolved_total_eq {strategy : TransactionStrategy} {cro : Bool}
    {ps : List Payment} {rps : List ResolvedPayment} (fee : CAmount)
    (h : List.Forall₂ (ResolvedFrom strategy cro) ps rps) :
    Payments.Total ⟨rps⟩ + fee = targetAmountOf ps fee := by
  simp [Payments.Total, targetAmountOf, foldl_amount_eq, forall2_resolved_sum h]

/-! ## Scenario runs -/

/-- The run of the scenario `Sprout selector with change`. -/
theorem planSproutChange_returned :
    ReturnsPlan (builderWith 50) exampleWallet ⟨.sproutAddress ⟨500⟩⟩
      ⟨[], [sproutNote 1 100000], [], []⟩ [⟨.sapling ⟨1⟩, 50000, none⟩] exampleChain
      ⟨.AllowRevealedAmounts⟩ 10000 10 planSproutChange :=
  ⟨⟨.effects planSproutChange, planSproutChange.LockSpendable exampleWallet,
    planSproutChange.spendable⟩, rfl, rfl⟩

/-- The run of the scenario `Sapling payment needing a UTXO`. -/
theorem planSaplingWithUtxo_returned :
    ReturnsPlan (builderWith 50) exampleWallet ⟨.account ⟨0, [.P2PKH, .Sapling]⟩⟩
      ⟨[utxo 1 30000 false], [], [saplingNote 2 50000], []⟩ [⟨.sapling ⟨1⟩, 50000, none⟩]
      exampleChain ⟨.FullPrivacy⟩ 10000 10 planSaplingWithUtxo :=
  ⟨⟨.effects planSaplingWithUtxo, planSaplingWithUtxo.LockSpendable exampleWallet,
    planSaplingWithUtxo.spendable⟩, rfl, rfl⟩

/-! ## The claims -/

/-- C1, as amended: for every plan returned by `PrepareTransaction`, with a limiter whose
selections reach the target amount, the total of the selected inputs equals the total of the
plan's payments (change payment included) plus the fee whenever the selector is not a Sprout
selector or the plan has no change; for a Sprout selector with change, the change is not among
the payments and the selected total is strictly larger than payments plus fee. -/
theorem C1_balance_outside_sprout_change {b : WalletTxBuilder} {wallet : CWallet}
    {selector : ZTXOSelector} {spendable : SpendableInputs} {payments : List Payment}
    {chain : CChain} {strategy : TransactionStrategy} {fee : CAmount}
    {anchorConfirmations : Nat} {t : TransactionEffects}
    (hlim : LimitToAmountSound b)
    (h : ReturnsPlan b wallet selector spendable payments chain strategy fee
      anchorConfirmations t) :
    ((selector.isSprout = false ∨ t.changeAddr = none) →
      t.spendable.Total = t.payments.Total + t.fee) ∧
    ((selector.isSprout = true ∧ t.changeAddr ≠ none) →
      t.payments.Total + t.fee < t.spendable.Total) := by
  obtain ⟨rps, hall, hcall, -, -, hfee, hshape⟩ := returnsPlan_structure h
  have htarget := resolved_total_eq fee hall
  have hge : targetAmountOf payments fee ≤ t.spendable.Total :=
    ((hlim _ _ _ _ _ _ hcall).1 rfl).1
  rw [hfee]
  rcases hshape with ⟨hle, hnone, hpay⟩ | ⟨hpos, hs, ⟨a, ha⟩, hpay⟩ | ⟨hpos, hs, addr, ha, hpay⟩
  · refine ⟨fun _ => ?_, fun hc => absurd hnone hc.2⟩
    rw [hpay]
    linarith
  · refine ⟨fun hc => ?_, fun _ => ?_⟩
    · rcases hc with hc | hc
      · rw [hs] at hc; exact absurd hc (by decide)
      · rw [ha] at hc; exact absurd hc (by simp)
    · rw [hpay]
      linarith
  · refine ⟨fun _ => ?_, fun hc => ?_⟩
    · rw [hpay]
      simp only [Payments.AddPayment, Payments.Total, List.map_append, List.sum_append,
        List.map_cons, List.map_nil, List.sum_cons, List.sum_nil]
      simp only [Payments.Total] at htarget
      linarith
    · rw [hs] at hc; exact absurd hc.1 (by decide)

/-- C1, witness: the scenario `Sapling payment needing a UTXO` balances, change included. -/
theorem C1_balance_witness :
    planSaplingWithUtxo.spendable.Total
      = planSaplingWithUtxo.payments.Total + planSaplingWithUtxo.fee :=
  (C1_balance_outside_sprout_change (limitKeepAll_sound 50) planSaplingWithUtxo_returned).1
    (Or.inl rfl)

/-- C1, counterexample: with a Sprout selector and positive change, `PrepareTransaction`
returns a plan whose selected inputs total 100000 while payments plus fee total 60000; the
limiter honours its contract. -/
theorem C1_counterexample_sprout_change :
    LimitToAmountSound (builderWith 50) ∧
    ReturnsPlan (builderWith 50) exampleWallet ⟨.sproutAddress ⟨500⟩⟩
      ⟨[], [sproutNote 1 100000], [], []⟩ [⟨.sapling ⟨1⟩, 50000, none⟩] exampleChain
      ⟨.AllowRevealedAmounts⟩ 10000 10 planSproutChange ∧
    planSproutChange.spendable.Total = 100000 ∧
    planSproutChange.payments.Total + planSproutChange.fee = 60000 ∧
    ¬ (planSproutChange.spendable.Total
        = planSproutChange.payments.Total + planSproutChange.fee) :=
  ⟨limitKeepAll_sound 50, planSproutChange_returned, by decide, by decide, by decide⟩

/-- The run of the scenario `transparent recipient from Sapling funds`. -/
theorem planTransparentRecipient_returned :
    ReturnsPlan (builderWith 50) exampleWallet ⟨.saplingAddress ⟨600⟩⟩
      ⟨[], [], [saplingNote 2 100000], []⟩ [⟨.p2pkh ⟨5⟩, 50000, none⟩] exampleChain
      ⟨.AllowRevealedRecipients⟩ 10000 10 planTransparentRecipient :=
  ⟨⟨.effects planTransparentRecipient, planTransparentRecipient.LockSpendable exampleWallet,
    planTransparentRecipient.spendable⟩, rfl, rfl⟩

/-- C2, as amended: for every plan returned by `PrepareTransaction` called with strategy `S`,
if no UTXO is selected and a recipient payment (not the change) has a transparent receiver,
then the required privacy policy is `AllowRevealedRecipients` and `S` is compatible with it;
and if the required policy is `FullPrivacy`, `S` is compatible with it. Nothing is checked at
planning time when the policy is required by a selected UTXO, by a crossing of shielded pools
or by the change: that is left to the check of `ApproveAndBuild`. -/
theorem C2_compatible_when_resolver_checked {b : WalletTxBuilder} {wallet : CWallet}
    {selector : ZTXOSelector} {spendable : SpendableInputs} {payments : List Payment}
    {chain : CChain} {strategy : TransactionStrategy} {fee : CAmount}
    {anchorConfirmations : Nat} {t : TransactionEffects}
    (h : ReturnsPlan b wallet selector spendable payments chain strategy fee
      anchorConfirmations t) :
    (t.spendable.utxos = [] →
      (∃ rp ∈ t.payments.payments, rp.isInternal = false ∧ rp.address.isTransparent = true) →
      t.GetRequiredPrivacyPolicy = .AllowRevealedRecipients ∧
      strategy.IsCompatibleWith t.GetRequiredPrivacyPolicy = true) ∧
    (t.GetRequiredPrivacyPolicy = .FullPrivacy →
      strategy.IsCompatibleWith t.GetRequiredPrivacyPolicy = true) := by
  obtain ⟨rps, hall, -, -, -, -, hshape⟩ := returnsPlan_structure h
  refine ⟨?_, ?_⟩
  · rintro hutxo ⟨rp, hrp, hint, htr⟩
    have hmem : rp ∈ rps := by
      rcases hshape with ⟨-, -, hpay⟩ | ⟨-, -, -, hpay⟩ | ⟨-, -, addr, -, hpay⟩
      · rw [hpay] at hrp; exact hrp
      · rw [hpay] at hrp; exact hrp
      · rw [hpay] at hrp
        simp only [Payments.AddPayment, List.mem_append, List.mem_singleton] at hrp
        rcases hrp with hrp | hrp
        · exact hrp
        · rw [hrp] at hint
          exact absurd hint (by simp)
    obtain ⟨p, -, hfrom⟩ := forall2_resolved_mem hall hmem
    have hallow := (hfrom.2.2.1 htr).1
    have hany : t.payments.HasTransparentRecipient = true := by
      simp only [Payments.HasTransparentRecipient, List.any_eq_true]
      exact ⟨rp, hrp, htr⟩
    have hreq : t.GetRequiredPrivacyPolicy = .AllowRevealedRecipients := by
      simp [TransactionEffects.GetRequiredPrivacyPolicy, hutxo, hany]
    exact ⟨hreq, by rw [hreq]; exact hallow⟩
  · intro hfull
    rw [hfull]
    simp [TransactionStrategy.IsCompatibleWith, PrivacyPolicy.ordinal]

/-- C2, witness: in the scenario `transparent recipient from Sapling funds` the required
policy is `AllowRevealedRecipients` and the strategy of the call is compatible with it. -/
theorem C2_compatible_witness :
    planTransparentRecipient.GetRequiredPrivacyPolicy = .AllowRevealedRecipients ∧
    TransactionStrategy.IsCompatibleWith ⟨.AllowRevealedRecipients⟩
      planTransparentRecipient.GetRequiredPrivacyPolicy = true :=
  (C2_compatible_when_resolver_checked planTransparentRecipient_returned).1 rfl
    ⟨⟨none, .p2pkh ⟨5⟩, 50000, none, false⟩, by decide, rfl, rfl⟩

/-- C2, counterexample: called with the strategy `FullPrivacy`, `PrepareTransaction` returns
a plan that selects a UTXO (the Sapling note alone does not cover payment plus fee, and the
limiter honours its contract), whose required policy `AllowRevealedSenders` the strategy is not
compatible with. -/
theorem C2_counterexample_utxo_under_full_privacy :
    LimitToAmountSound (builderWith 50) ∧
    ReturnsPlan (builderWith 50) exampleWallet ⟨.account ⟨0, [.P2PKH, .Sapling]⟩⟩
      ⟨[utxo 1 30000 false], [], [saplingNote 2 50000], []⟩ [⟨.sapling ⟨1⟩, 50000, none⟩]
      exampleChain ⟨.FullPrivacy⟩ 10000 10 planSaplingWithUtxo ∧
    planSaplingWithUtxo.GetRequiredPrivacyPolicy = .AllowRevealedSenders ∧
    TransactionStrategy.IsCompatibleWith ⟨.FullPrivacy⟩
      planSaplingWithUtxo.GetRequiredPrivacyPolicy = false :=
  ⟨limitKeepAll_sound 50, planSaplingWithUtxo_returned, by decide, by decide⟩

/-- C4: with a limiter honouring the contract of `LimitToAmount`, in every plan returned by
`PrepareTransaction` the change amount, the selected total less the payments to recipients
less the fee, is zero or at least `DefaultDustThreshold()`. -/
theorem C4_change_zero_or_at_least_dust {b : WalletTxBuilder} {wallet : CWallet}
    {selector : ZTXOSelector} {spendable : SpendableInputs} {payments : List Payment}
    {chain : CChain} {strategy : TransactionStrategy} {fee : CAmount}
    {anchorConfirmations : Nat} {t : TransactionEffects}
    (hlim : LimitToAmountSound b)
    (h : ReturnsPlan b wallet selector spendable payments chain strategy fee
      anchorConfirmations t) :
    t.spendable.Total
        - ((t.payments.payments.filter (fun rp => !rp.isInternal)).map (·.amount)).sum
        - t.fee = 0 ∨
    b.DefaultDustThreshold ≤ t.spendable.Total
        - ((t.payments.payments.filter (fun rp => !rp.isInternal)).map (·.amount)).sum
        - t.fee := by
  obtain ⟨rps, hall, hcall, -, -, hfee, hshape⟩ := returnsPlan_structure h
  have htarget := resolved_total_eq fee hall
  obtain ⟨hge, hdust, -⟩ := (hlim _ _ _ _ _ _ hcall).1 rfl
  have hfilter : rps.filter (fun rp => !rp.isInternal) = rps := by
    rw [List.filter_eq_self]
    intro rp hrp
    obtain ⟨p, -, hfrom⟩ := forall2_resolved_mem hall hrp
    simp [hfrom.2.1]
  have hrecipients : t.payments.payments.filter (fun rp => !rp.isInternal) = rps := by
    rcases hshape with ⟨-, -, hpay⟩ | ⟨-, -, -, hpay⟩ | ⟨-, -, addr, -, hpay⟩
    · rw [hpay]; exact hfilter
    · rw [hpay]; exact hfilter
    · rw [hpay]
      simp [Payments.AddPayment, List.filter_append, hfilter]
  rw [hrecipients, hfee]
  simp only [Payments.Total] at htarget
  by_cases hz : t.spendable.Total - (rps.map (·.amount)).sum - fee = 0
  · exact Or.inl hz
  · right
    by_contra hlt
    apply hdust
    constructor
    · have : t.spendable.Total - (rps.map (·.amount)).sum - fee ≠ 0 := hz
      have h2 : 0 ≤ t.spendable.Total - targetAmountOf payments fee := by linarith
      rcases lt_or_eq_of_le h2 with h3 | h3
      · exact h3
      · exfalso; apply hz; linarith
    · have := not_le.1 hlt
      linarith

/-- C4, witness: in the scenario `Sapling payment needing a UTXO` the change of 20000 is
at least the dust threshold of 54. -/
theorem C4_change_witness :
    planSaplingWithUtxo.spendable.Total
        - ((planSaplingWithUtxo.payments.payments.filter
            (fun rp => !rp.isInternal)).map (·.amount)).sum
        - planSaplingWithUtxo.fee = 0 ∨
    (builderWith 50).DefaultDustThreshold ≤ planSaplingWithUtxo.spendable.Total
        - ((planSaplingWithUtxo.payments.payments.filter
            (fun rp => !rp.isInternal)).map (·.amount)).sum
        - planSaplingWithUtxo.fee :=
  C4_change_zero_or_at_least_dust (limitKeepAll_sound 50) planSaplingWithUtxo_returned

/-- The run of the scenario `Orchard payment with Orchard change`, with a limit of one Orchard
action. -/
theorem planOrchardChange_returned :
    ReturnsPlan (builderWith 1) exampleWallet
      ⟨.unifiedAddress ⟨some ⟨3⟩, some ⟨4⟩, none, none⟩⟩
      ⟨[], [], [], [orchardNote 2 200000000]⟩
      [⟨.unified ⟨some ⟨5⟩, some ⟨6⟩, none, none⟩, 100000000, none⟩] exampleChain
      ⟨.FullPrivacy⟩ 10000 10 planOrchardChange :=
  ⟨⟨.effects planOrchardChange, planOrchardChange.LockSpendable exampleWallet,
    planOrchardChange.spendable⟩, rfl, rfl⟩

/-- The run of the scenario `unified address falling back to P2PKH`. -/
theorem planTransparentFallback_returned :
    ReturnsPlan (builderWith 50) exampleWallet ⟨.keyId ⟨700⟩⟩
      ⟨[utxo 1 100000 false], [], [], []⟩
      [⟨.unified ⟨none, none, none, some ⟨8⟩⟩, 90000, some ⟨[1, 2, 3]⟩⟩] exampleChain
      ⟨.NoPrivacy⟩ 10000 10 planTransparentFallback :=
  ⟨⟨.effects planTransparentFallback, planTransparentFallback.LockSpendable exampleWallet,
    planTransparentFallback.spendable⟩, rfl, rfl⟩

/-- The run of the scenario `shielding a coinbase output`. -/
theorem planShieldCoinbase_returned :
    ReturnsPlan (builderWith 50) exampleWallet ⟨.keyId ⟨700⟩⟩
      ⟨[utxo 1 500000000 true], [], [], []⟩
      [⟨.sapling ⟨1⟩, 499990000, none⟩] exampleChain
      ⟨.AllowRevealedSenders⟩ 10000 10 planShieldCoinbase :=
  ⟨⟨.effects planShieldCoinbase, planShieldCoinbase.LockSpendable exampleWallet,
    planShieldCoinbase.spendable⟩, rfl, rfl⟩

/-- C3: in every plan returned by `PrepareTransaction` whose selected inputs include a
transparent coinbase output, there is no change (no change address, no payment with
`isInternal` set) and no resolved payment has a transparent receiver. -/
theorem C3_coinbase_no_change_all_shielded {b : WalletTxBuilder} {wallet : CWallet}
    {selector : ZTXOSelector} {spendable : SpendableInputs} {payments : List Payment}
    {chain : CChain} {strategy : TransactionStrategy} {fee : CAmount}
    {anchorConfirmations : Nat} {t : TransactionEffects}
    (h : ReturnsPlan b wallet selector spendable payments chain strategy fee
      anchorConfirmations t)
    (hcb : t.spendable.HasTransparentCoinbase = true) :
    t.changeAddr = none ∧
    ∀ rp ∈ t.payments.payments, rp.isInternal = false ∧ rp.address.isTransparent = false := by
  obtain ⟨rps, hall, -, hcoin, -, -, hshape⟩ := returnsPlan_structure h
  obtain ⟨htot, hnot⟩ := hcoin hcb
  have hzero : t.spendable.Total - Payments.Total ⟨rps⟩ - fee = 0 := by
    have := resolved_total_eq fee hall
    linarith
  have hshape1 : t.changeAddr = none ∧ t.payments = ⟨rps⟩ := by
    rcases hshape with ⟨-, h1, h2⟩ | ⟨hpos, -⟩ | ⟨hpos, -⟩
    · exact ⟨h1, h2⟩
    · exact absurd hpos (by rw [hzero]; exact lt_irrefl _)
    · exact absurd hpos (by rw [hzero]; exact lt_irrefl _)
  refine ⟨hshape1.1, ?_⟩
  intro rp hrp
  rw [hshape1.2] at hrp
  obtain ⟨p, -, hfrom⟩ := forall2_resolved_mem hall hrp
  refine ⟨hfrom.2.1, ?_⟩
  simp only [Payments.HasTransparentRecipient, List.any_eq_false] at hnot
  simpa using hnot rp hrp

/-- C3, witness: the scenario `shielding a coinbase output` has no change and only shielded,
external payments. -/
theorem C3_coinbase_witness :
    planShieldCoinbase.spendable.HasTransparentCoinbase = true ∧
    planShieldCoinbase.changeAddr = none ∧
    ∀ rp ∈ planShieldCoinbase.payments.payments,
      rp.isInternal = false ∧ rp.address.isTransparent = false :=
  ⟨rfl, C3_coinbase_no_change_all_shielded planShieldCoinbase_returned rfl⟩

/-- C6, the code at the failing input: with `maxOrchardActions = 1`, `PrepareTransaction`
returns a plan with two payments to Orchard receivers, the recipient payment and the change
appended after the limit was checked. -/
theorem C6_orchard_change_exceeds_limit :
    LimitToAmountSound (builderWith 1) ∧
    ReturnsPlan (builderWith 1) exampleWallet
      ⟨.unifiedAddress ⟨some ⟨3⟩, some ⟨4⟩, none, none⟩⟩
      ⟨[], [], [], [orchardNote 2 200000000]⟩
      [⟨.unified ⟨some ⟨5⟩, some ⟨6⟩, none, none⟩, 100000000, none⟩] exampleChain
      ⟨.FullPrivacy⟩ 10000 10 planOrchardChange ∧
    (planOrchardChange.payments.payments.filter (·.address.isOrchard)).length = 2 ∧
    (builderWith 1).maxOrchardActions = 1 :=
  ⟨limitKeepAll_sound 1, planOrchardChange_returned, rfl, rfl⟩

/-- C7: for payments that satisfy the invariant of `Payment` (no memo on a P2PKH or P2SH
recipient), in every plan returned by `PrepareTransaction` no resolved payment with a
transparent receiver carries a memo; a unified-address payment that falls back to a
transparent receiver loses its memo. -/
theorem C7_no_memo_on_transparent {b : WalletTxBuilder} {wallet : CWallet}
    {selector : ZTXOSelector} {spendable : SpendableInputs} {payments : List Payment}
    {chain : CChain} {strategy : TransactionStrategy} {fee : CAmount}
    {anchorConfirmations : Nat} {t : TransactionEffects}
    (hinv : ∀ p ∈ payments, p.memoInvariant = true)
    (h : ReturnsPlan b wallet selector spendable payments chain strategy fee
      anchorConfirmations t) :
    ∀ rp ∈ t.payments.payments, rp.address.isTransparent = true → rp.memo = none := by
  obtain ⟨rps, hall, -, -, -, -, hshape⟩ := returnsPlan_structure h
  have hres : ∀ rp ∈ rps, rp.address.isTransparent = true → rp.memo = none := by
    intro rp hrp htr
    obtain ⟨p, hp, hfrom⟩ := forall2_resolved_mem hall hrp
    exact (hfrom.2.2.1 htr).2 (hinv p hp)
  intro rp hrp htr
  rcases hshape with ⟨-, -, hpay⟩ | ⟨-, -, -, hpay⟩ | ⟨-, -, addr, -, hpay⟩
  · rw [hpay] at hrp; exact hres rp hrp htr
  · rw [hpay] at hrp; exact hres rp hrp htr
  · rw [hpay] at hrp
    simp only [Payments.AddPayment, List.mem_append, List.mem_singleton] at hrp
    rcases hrp with hrp | hrp
    · exact hres rp hrp htr
    · rw [hrp]

/-- C7, witness: in the scenario `unified address falling back to P2PKH` the payment was
requested with a memo and the resolved payment to the P2PKH receiver has none. -/
theorem C7_no_memo_witness :
    Payment.memoInvariant
        ⟨.unified ⟨none, none, none, some ⟨8⟩⟩, 90000, some ⟨[1, 2, 3]⟩⟩ = true ∧
    ∀ rp ∈ planTransparentFallback.payments.payments,
      rp.address.isTransparent = true → rp.memo = none :=
  ⟨rfl, C7_no_memo_on_transparent (by decide) planTransparentFallback_returned⟩

/-- A receiver is in the transparent pool exactly when it is P2PKH or P2SH. -/
theorem pool_transparent_iff (a : RecipientAddress) :
    a.pool = .Transparent ↔ a.isTransparent = true := by
  cases a <;> simp [RecipientAddress.pool, RecipientAddress.isTransparent]

/-- A receiver is in the Sapling pool exactly when it is a Sapling receiver. -/
theorem pool_sapling_iff (a : RecipientAddress) :
    a.pool = .Sapling ↔ a.isSapling = true := by
  cases a <;> simp [RecipientAddress.pool, RecipientAddress.isSapling]

/-- A receiver is in the Orchard pool exactly when it is an Orchard receiver. -/
theorem pool_orchard_iff (a : RecipientAddress) :
    a.pool = .Orchard ↔ a.isOrchard = true := by
  cases a <;> simp [RecipientAddress.pool, RecipientAddress.isOrchard]

/-- A list is not empty exactly when its length is positive. -/
theorem isEmpty_eq_false_iff_length_pos {α : Type} (l : List α) :
    (!l.isEmpty) = true ↔ 0 < l.length := by
  cases l <;> simp

/-- C8: for every plan, `GetRequiredPrivacyPolicy` returns what the reference of the
specification gives: `AllowRevealedSenders` if any UTXO is selected, otherwise
`AllowRevealedRecipients` if some resolved payment is transparent, otherwise
`AllowRevealedAmounts` for the three pool crossings, otherwise `FullPrivacy`. -/
theorem C8_required_policy_eq_reference (t : TransactionEffects) :
    t.GetRequiredPrivacyPolicy = requiredPrivacyReference t := by
  unfold TransactionEffects.GetRequiredPrivacyPolicy requiredPrivacyReference
  simp only [Payments.HasTransparentRecipient, Payments.HasSaplingRecipient,
    Payments.HasOrchardRecipient, pool_transparent_iff, pool_sapling_iff, pool_orchard_iff,
    ← isEmpty_eq_false_iff_length_pos]
  by_cases hu : (!t.spendable.utxos.isEmpty) = true
  · simp [hu]
  · simp only [hu, if_false, Bool.false_eq_true]
    by_cases ht : (t.payments.payments.any fun x => x.address.isTransparent) = true
    · have ht2 : ∃ rp ∈ t.payments.payments, rp.address.isTransparent = true := by
        simpa [List.any_eq_true] using ht
      simp [ht, ht2]
    · have ht2 : ¬ ∃ rp ∈ t.payments.payments, rp.address.isTransparent = true := by
        simpa [List.any_eq_true] using ht
      simp only [ht, ht2, if_false, Bool.false_eq_true]
      congr 1
      simp only [Bool.or_eq_true, Bool.and_eq_true, List.any_eq_true, eq_iff_iff]
      exact or_assoc

/-- C9: for every plan and strategy, if the strategy is not compatible with the plan's
required privacy policy, `ApproveAndBuild` returns an error result and makes no call on the
builder. -/
theorem C9_incompatible_strategy_rejected (t : TransactionEffects) (m : BuilderModel)
    (wallet : CWallet) (chain : CChain) (strategy : TransactionStrategy)
    (h : strategy.IsCompatibleWith t.GetRequiredPrivacyPolicy = false) :
    (t.ApproveAndBuild m wallet chain strategy).1 = [] ∧
    ∃ e, (t.ApproveAndBuild m wallet chain strategy).2 = .ok (.error e) := by
  have heq : t.ApproveAndBuild m wallet chain strategy
      = ([], .ok (.error (.PolicyNotPermitted strategy.privacy
          t.GetRequiredPrivacyPolicy))) := by
    unfold TransactionEffects.ApproveAndBuild
    simp [h]
  rw [heq]
  exact ⟨rfl, _, rfl⟩

/-- C9, witness: built with the strategy `FullPrivacy`, the plan of the scenario `Sapling
payment needing a UTXO`, which requires `AllowRevealedSenders`, is rejected without a call on
the builder. -/
theorem C9_rejected_witness :
    TransactionStrategy.IsCompatibleWith ⟨.FullPrivacy⟩
      planSaplingWithUtxo.GetRequiredPrivacyPolicy = false ∧
    (planSaplingWithUtxo.ApproveAndBuild exampleBuilder exampleWallet exampleChain
      ⟨.FullPrivacy⟩).1 = [] ∧
    ∃ e, (planSaplingWithUtxo.ApproveAndBuild exampleBuilder exampleWallet exampleChain
      ⟨.FullPrivacy⟩).2 = .ok (.error e) :=
  ⟨by decide, C9_incompatible_strategy_rejected planSaplingWithUtxo exampleBuilder
    exampleWallet exampleChain ⟨.FullPrivacy⟩ (by decide)⟩

/-- C10: every call of `PrepareTransaction` that returns an `InputSelectionError` leaves the
wallet as it was: its sets of locked coins and notes are unchanged. -/
theorem C10_error_leaves_locks_unchanged {b : WalletTxBuilder} {wallet : CWallet}
    {selector : ZTXOSelector} {spendable : SpendableInputs} {payments : List Payment}
    {chain : CChain} {strategy : TransactionStrategy} {fee : CAmount}
    {anchorConfirmations : Nat} {out : PrepareOutcome} {e : InputSelectionError}
    (h : b.PrepareTransaction wallet selector spendable payments chain strategy fee
      anchorConfirmations = .ok out)
    (he : out.result = .error e) :
    out.wallet = wallet ∧
    out.wallet.setLockedCoins = wallet.setLockedCoins ∧
    out.wallet.setLockedSproutNotes = wallet.setLockedSproutNotes ∧
    out.wallet.setLockedSaplingNotes = wallet.setLockedSaplingNotes := by
  have hw : out.wallet = wallet := by
    unfold WalletTxBuilder.PrepareTransaction at h
    split at h
    · simp at h
    · simp only at h
      split at h
      · simp only [Outcome.ok.injEq] at h
        subst h
        rfl
      · split at h
        · simp at h
        · simp at h
        · split at h
          · simp at h
          · simp at h
          · simp only [Outcome.ok.injEq] at h
            subst h
            simp at he
  exact ⟨hw, by rw [hw], by rw [hw], by rw [hw]⟩

/-- C10, witness: a payment to a P2PKH address under `FullPrivacy` is refused with
`TransparentRecipientNotAllowed`, and the wallet, one Sapling note of which was locked before
the call, has the same locked coins and notes after it. -/
theorem C10_error_witness :
    (builderWith 50).PrepareTransaction (exampleWallet.LockSaplingNote ⟨9, 0⟩)
        ⟨.saplingAddress ⟨600⟩⟩ ⟨[], [], [saplingNote 2 100000], []⟩
        [⟨.p2pkh ⟨5⟩, 50000, none⟩] exampleChain ⟨.FullPrivacy⟩ 10000 10
      = .ok outcomeRefused ∧
    outcomeRefused.result = .error (.AddressResolution .TransparentRecipientNotAllowed) ∧
    outcomeRefused.wallet = exampleWallet.LockSaplingNote ⟨9, 0⟩ ∧
    outcomeRefused.wallet.setLockedCoins
      = (exampleWallet.LockSaplingNote ⟨9, 0⟩).setLockedCoins ∧
    outcomeRefused.wallet.setLockedSproutNotes
      = (exampleWallet.LockSaplingNote ⟨9, 0⟩).setLockedSproutNotes ∧
    outcomeRefused.wallet.setLockedSaplingNotes
      = (exampleWallet.LockSaplingNote ⟨9, 0⟩).setLockedSaplingNotes :=
  ⟨rfl, rfl, C10_error_leaves_locks_unchanged
    (show (builderWith 50).PrepareTransaction (exampleWallet.LockSaplingNote ⟨9, 0⟩)
        ⟨.saplingAddress ⟨600⟩⟩ ⟨[], [], [saplingNote 2 100000], []⟩
        [⟨.p2pkh ⟨5⟩, 50000, none⟩] exampleChain ⟨.FullPrivacy⟩ 10000 10
      = .ok outcomeRefused from rfl)
    (show outcomeRefused.result
      = .error (.AddressResolution .TransparentRecipientNotAllowed) from rfl)⟩

/-! ## The fee and action calculator -/

/-- Within the signed 64-bit range the conversion `toInt64` changes nothing. -/
theorem toInt64_of_range {x : Int} (h0 : -2 ^ 63 ≤ x) (h1 : x < 2 ^ 63) : toInt64 x = x := by
  unfold toInt64
  omega

/-- The conversion `toInt64` only depends on its argument modulo `2 ^ 64`. -/
theorem toInt64_emod (x : Int) : toInt64 (x % 2 ^ 64) = toInt64 x := by
  unfold toInt64
  omega

/-- C13, as amended: for every logical action count `n` for which the product
`MARGINAL_FEE * max(GRACE_ACTIONS, n)` lies in the signed 64-bit range,
`CalculateConventionalFee(n)` is exactly that product. -/
theorem C13_fee_exact_below_overflow (MARGINAL_FEE : CAmount) (GRACE_ACTIONS n : Nat)
    (hlow : -2 ^ 63 ≤ MARGINAL_FEE * ((max GRACE_ACTIONS n : Nat) : Int))
    (hprod : MARGINAL_FEE * ((max GRACE_ACTIONS n : Nat) : Int) < 2 ^ 63) :
    CalculateConventionalFee MARGINAL_FEE GRACE_ACTIONS n
      = MARGINAL_FEE * ((max GRACE_ACTIONS n : Nat) : Int) := by
  unfold CalculateConventionalFee
  rw [toInt64_emod]
  exact toInt64_of_range hlow hprod

/-- C13, witness: with the constants of ZIP 317 (5000 zatoshi per action, 2 grace actions) the
fee of 7 logical actions is 35000 zatoshi. -/
theorem C13_fee_witness :
    CalculateConventionalFee 5000 2 7 = 5000 * ((max 2 7 : Nat) : Int) :=
  C13_fee_exact_below_overflow 5000 2 7 (by decide) (by decide)

/-- A positive multiple `m` of `2 ^ 64 - 1`, with `m ≤ 2 ^ 63`, converts to `-m`. -/
theorem toInt64_mul_max (m : Int) (hpos : 0 < m) (hle : m ≤ 2 ^ 63) :
    toInt64 (m * 18446744073709551615) = -m := by
  unfold toInt64
  omega

/-- At the largest `size_t` value the fee wraps to the negated marginal fee, whatever the
positive marginal fee and the grace count are. -/
theorem fee_at_max_size_t (MARGINAL_FEE : CAmount) (GRACE_ACTIONS : Nat)
    (hpos : 0 < MARGINAL_FEE) (hfee : MARGINAL_FEE ≤ 2 ^ 63) (hg : GRACE_ACTIONS < 2 ^ 64) :
    CalculateConventionalFee MARGINAL_FEE GRACE_ACTIONS (2 ^ 64 - 1) = -MARGINAL_FEE := by
  unfold CalculateConventionalFee
  rw [toInt64_emod]
  have hmax : max GRACE_ACTIONS (2 ^ 64 - 1) = 2 ^ 64 - 1 := max_eq_right (by omega)
  rw [hmax]
  have hc : (((2 ^ 64 - 1 : Nat)) : Int) = 18446744073709551615 := by norm_num
  rw [hc]
  exact toInt64_mul_max MARGINAL_FEE hpos hfee

/-- C13, counterexample: with the constants of ZIP 317 (marginal fee 5000, 2 grace actions)
and the `size_t` value `n = 2 ^ 64 - 1`, the function returns `-5000`, not the product
`5000 * (2 ^ 64 - 1)`. -/
theorem C13_counterexample_overflow :
    CalculateConventionalFee 5000 2 (2 ^ 64 - 1) = -5000 ∧
    ¬ (CalculateConventionalFee 5000 2 (2 ^ 64 - 1)
        = 5000 * ((max 2 (2 ^ 64 - 1) : Nat) : Int)) := by
  constructor
  · decide
  · decide

/-- The quotient `(num + den - 1) / den` is the exact ceiling of `num / den`. -/
theorem add_pred_div_eq_exactCeil (num den : Nat) (hden : 0 < den) :
    (num + den - 1) / den = exactCeil num den := by
  unfold exactCeil
  apply eq_of_forall_ge_iff
  intro c
  rw [Nat.ceil_le, div_le_iff₀ (by exact_mod_cast hden)]
  rw [show ((c : ℚ) * (den : ℚ)) = ((c * den : Nat) : ℚ) by push_cast; ring, Nat.cast_le]
  rw [← Nat.lt_succ_iff, Nat.div_lt_iff_lt_mul hden, Nat.succ_eq_add_one]
  constructor
  · intro h
    have : (c + 1) * den = c * den + den := by ring
    omega
  · intro h
    have : (c + 1) * den = c * den + den := by ring
    omega

/-- Without overflow of the sum, `ceil_div` is the exact ceiling. -/
theorem ceil_div_eq_exactCeil (num den : Nat) (hden : 0 < den)
    (hsum : num + den - 1 < 2 ^ 64) : ceil_div num den = exactCeil num den := by
  unfold ceil_div
  have h1 : ((num : Int) + (den : Int) - 1) = ((num + den - 1 : Nat) : Int) := by omega
  rw [h1, Int.emod_eq_of_lt (Int.ofNat_nonneg _) (by exact_mod_cast hsum), Int.toNat_ofNat]
  exact add_pred_div_eq_exactCeil num den hden

/-- C14, as amended: for positive standard sizes, serialized sizes for which
`size + standard size - 1` stays below `2 ^ 64`, `joinSplitCount < 2 ^ 31`, and a total below
`2 ^ 64`, `CalculateLogicalActionCount` returns exactly
`max(⌈in_size / P2PKH_STANDARD_INPUT_SIZE⌉, ⌈out_size / P2PKH_STANDARD_OUTPUT_SIZE⌉)
+ 2 * joinSplitCount + max(saplingSpendCount, saplingOutputCount) + orchardActionCount`. -/
theorem C14_logical_actions_exact_in_range (pin pout inSize outSize js sp so oa : Nat)
    (hpin : 0 < pin) (hpout : 0 < pout)
    (hin : inSize + pin - 1 < 2 ^ 64) (hout : outSize + pout - 1 < 2 ^ 64)
    (hjs : js < 2 ^ 31)
    (htotal : logicalActionCountReference pin pout inSize outSize js sp so oa < 2 ^ 64) :
    CalculateLogicalActionCount pin pout inSize outSize js sp so oa
      = logicalActionCountReference pin pout inSize outSize js sp so oa := by
  unfold CalculateLogicalActionCount
  unfold logicalActionCountReference at htotal ⊢
  rw [ceil_div_eq_exactCeil inSize pin hpin hin, ceil_div_eq_exactCeil outSize pout hpout hout]
  generalize max (exactCeil inSize pin) (exactCeil outSize pout) = m at htotal ⊢
  generalize max sp so = s at htotal ⊢
  omega

/-- C14, witness: with the standard sizes 150 and 34, 300 bytes of inputs and 35 bytes of
outputs, one JoinSplit, 3 Sapling spends, 2 Sapling outputs and 4 Orchard actions, the count
is `max(2, 2) + 2 + 3 + 4 = 11`. -/
theorem C14_logical_actions_witness :
    CalculateLogicalActionCount 150 34 300 35 1 3 2 4
        = logicalActionCountReference 150 34 300 35 1 3 2 4 ∧
    CalculateLogicalActionCount 150 34 300 35 1 3 2 4 = 11 :=
  ⟨C14_logical_actions_exact_in_range 150 34 300 35 1 3 2 4 (by decide) (by decide)
    (by decide) (by decide) (by decide) (by
      have h1 : exactCeil 300 150 = 2 := by
        rw [← add_pred_div_eq_exactCeil 300 150 (by decide)]
      have h2 : exactCeil 35 34 = 2 := by
        rw [← add_pred_div_eq_exactCeil 35 34 (by decide)]
      simp only [logicalActionCountReference, h1, h2]
      decide), by decide⟩

/-- With `joinSplitCount = 2 ^ 31` the count is the one of `joinSplitCount = 0`, whatever the
sizes and the other counts are. -/
theorem logicalActions_joinsplit_wrap (pin pout inSize outSize sp so oa : Nat) :
    CalculateLogicalActionCount pin pout inSize outSize (2 ^ 31) sp so oa
      = CalculateLogicalActionCount pin pout inSize outSize 0 sp so oa := by
  unfold CalculateLogicalActionCount
  norm_num

/-- C14, counterexample: with the standard sizes 150 and 34, empty `vin` and `vout` (one byte
each) and `joinSplitCount = 2 ^ 31`, an `unsigned int` value, the function returns 1, because
`2 * joinSplitCount` wraps to 0 in 32-bit arithmetic, while the exact value is `1 + 2 ^ 32`. -/
theorem C14_counterexample_joinsplit_wrap :
    CalculateLogicalActionCount 150 34 1 1 (2 ^ 31) 0 0 0 = 1 ∧
    logicalActionCountReference 150 34 1 1 (2 ^ 31) 0 0 0 = 1 + 2 ^ 32 ∧
    ¬ (CalculateLogicalActionCount 150 34 1 1 (2 ^ 31) 0 0 0
        = logicalActionCountReference 150 34 1 1 (2 ^ 31) 0 0 0) := by
  have h1 : exactCeil 1 150 = 1 := by
    rw [← add_pred_div_eq_exactCeil 1 150 (by decide)]
  have h2 : exactCeil 1 34 = 1 := by
    rw [← add_pred_div_eq_exactCeil 1 34 (by decide)]
  have hc : CalculateLogicalActionCount 150 34 1 1 (2 ^ 31) 0 0 0 = 1 := by decide
  have hr : logicalActionCountReference 150 34 1 1 (2 ^ 31) 0 0 0 = 1 + 2 ^ 32 := by
    simp only [logicalActionCountReference, h1, h2]
    decide
  refine ⟨hc, hr, ?_⟩
  rw [hc, hr]
  decide

/-! ## Locking -/

/-- Inserting on the left of a union is inserting on its right. -/
theorem insert_union_eq_union_insert {α : Type} [DecidableEq α] (s u : Finset α) (o : α) :
    insert o s ∪ u = s ∪ insert o u := by
  ext x
  simp only [Finset.mem_union, Finset.mem_insert]
  tauto

/-- Erasing before a difference is removing one more element. -/
theorem erase_sdiff_eq_sdiff_insert {α : Type} [DecidableEq α] (s u : Finset α) (o : α) :
    s.erase o \ u = s \ insert o u := by
  ext x
  simp only [Finset.mem_sdiff, Finset.mem_insert, Finset.mem_erase]
  tauto

/-- Locking a list of coins adds their outpoints to the set of locked coins and changes
nothing else. -/
theorem foldl_LockCoin (l : List COutput) (w : CWallet) :
    l.foldl (fun w utxo => w.LockCoin ⟨utxo.txHash, utxo.i⟩) w
      = { w with setLockedCoins := w.setLockedCoins ∪
            (l.map (fun utxo => (⟨utxo.txHash, utxo.i⟩ : COutPoint))).toFinset } := by
  induction l generalizing w with
  | nil => simp
  | cons a rest ih =>
    rw [List.foldl_cons, ih]
    simp only [CWallet.LockCoin, List.map_cons, List.toFinset_cons]
    rw [insert_union_eq_union_insert]

/-- Unlocking a list of coins removes their outpoints from the set of locked coins and
changes nothing else. -/
theorem foldl_UnlockCoin (l : List COutput) (w : CWallet) :
    l.foldl (fun w utxo => w.UnlockCoin ⟨utxo.txHash, utxo.i⟩) w
      = { w with setLockedCoins := w.setLockedCoins \
            (l.map (fun utxo => (⟨utxo.txHash, utxo.i⟩ : COutPoint))).toFinset } := by
  induction l generalizing w with
  | nil => simp
  | cons a rest ih =>
    rw [List.foldl_cons, ih]
    simp only [CWallet.UnlockCoin, List.map_cons, List.toFinset_cons]
    rw [erase_sdiff_eq_sdiff_insert]

/-- Locking a list of Sprout notes adds their outpoints to the set of locked Sprout notes and
changes nothing else. -/
theorem foldl_LockSproutNote (l : List SproutNoteEntry) (w : CWallet) :
    l.foldl (fun w note => w.LockSproutNote note.jsop) w
      = { w with setLockedSproutNotes := w.setLockedSproutNotes ∪
            (l.map (·.jsop)).toFinset } := by
  induction l generalizing w with
  | nil => simp
  | cons a rest ih =>
    rw [List.foldl_cons, ih]
    simp only [CWallet.LockSproutNote, List.map_cons, List.toFinset_cons]
    rw [insert_union_eq_union_insert]

/-- Unlocking a list of Sprout notes removes their outpoints from the set of locked Sprout
notes and changes nothing else. -/
theorem foldl_UnlockSproutNote (l : List SproutNoteEntry) (w : CWallet) :
    l.foldl (fun w note => w.UnlockSproutNote note.jsop) w
      = { w with setLockedSproutNotes := w.setLockedSproutNotes \
            (l.map (·.jsop)).toFinset } := by
  induction l generalizing w with
  | nil => simp
  | cons a rest ih =>
    rw [List.foldl_cons, ih]
    simp only [CWallet.UnlockSproutNote, List.map_cons, List.toFinset_cons]
    rw [erase_sdiff_eq_sdiff_insert]

/-- Locking a list of Sapling notes adds their outpoints to the set of locked Sapling notes
and changes nothing else. -/
theorem foldl_LockSaplingNote (l : List SaplingNoteEntry) (w : CWallet) :
    l.foldl (fun w note => w.LockSaplingNote note.op) w
      = { w with setLockedSaplingNotes := w.setLockedSaplingNotes ∪
            (l.map (·.op)).toFinset } := by
  induction l generalizing w with
  | nil => simp
  | cons a rest ih =>
    rw [List.foldl_cons, ih]
    simp only [CWallet.LockSaplingNote, List.map_cons, List.toFinset_cons]
    rw [insert_union_eq_union_insert]

/-- Unlocking a list of Sapling notes removes their outpoints from the set of locked Sapling
notes and changes nothing else. -/
theorem foldl_UnlockSaplingNote (l : List SaplingNoteEntry) (w : CWallet) :
    l.foldl (fun w note => w.UnlockSaplingNote note.op) w
      = { w with setLockedSaplingNotes := w.setLockedSaplingNotes \
            (l.map (·.op)).toFinset } := by
  induction l generalizing w with
  | nil => simp
  | cons a rest ih =>
    rw [List.foldl_cons, ih]
    simp only [CWallet.UnlockSaplingNote, List.map_cons, List.toFinset_cons]
    rw [erase_sdiff_eq_sdiff_insert]

/-- The wallet after `LockSpendable`: the outpoints of the plan's UTXOs, Sprout notes and
Sapling notes are added to the three locked sets; nothing else changes. -/
theorem lockSpendable_eq (t : TransactionEffects) (w : CWallet) :
    t.LockSpendable w
      = { w with
          setLockedCoins := w.setLockedCoins ∪ t.utxoOutPoints
          setLockedSproutNotes := w.setLockedSproutNotes ∪ t.sproutOutPoints
          setLockedSaplingNotes := w.setLockedSaplingNotes ∪ t.saplingOutPoints } := by
  unfold TransactionEffects.LockSpendable
  simp only [foldl_LockCoin, foldl_LockSproutNote, foldl_LockSaplingNote]
  rfl

/-- The wallet after `UnlockSpendable`: the outpoints of the plan's UTXOs, Sprout notes and
Sapling notes are removed from the three locked sets; nothing else changes. -/
theorem unlockSpendable_eq (t : TransactionEffects) (w : CWallet) :
    t.UnlockSpendable w
      = { w with
          setLockedCoins := w.setLockedCoins \ t.utxoOutPoints
          setLockedSproutNotes := w.setLockedSproutNotes \ t.sproutOutPoints
          setLockedSaplingNotes := w.setLockedSaplingNotes \ t.saplingOutPoints } := by
  unfold TransactionEffects.UnlockSpendable
  simp only [foldl_UnlockCoin, foldl_UnlockSproutNote, foldl_UnlockSaplingNote]
  rfl

/-- C11, as amended: for every plan and every initial wallet, `LockSpendable` followed by
`UnlockSpendable` leaves each set of locked coins and notes equal to the initial set less the
plan's own inputs; the initial lock state is restored when none of the plan's UTXOs, Sprout
notes and Sapling notes was locked before. -/
theorem C11_lock_then_unlock (t : TransactionEffects) (w : CWallet) :
    (t.UnlockSpendable (t.LockSpendable w)).setLockedCoins
      = w.setLockedCoins \ t.utxoOutPoints ∧
    (t.UnlockSpendable (t.LockSpendable w)).setLockedSproutNotes
      = w.setLockedSproutNotes \ t.sproutOutPoints ∧
    (t.UnlockSpendable (t.LockSpendable w)).setLockedSaplingNotes
      = w.setLockedSaplingNotes \ t.saplingOutPoints ∧
    (Disjoint w.setLockedCoins t.utxoOutPoints →
      Disjoint w.setLockedSproutNotes t.sproutOutPoints →
      Disjoint w.setLockedSaplingNotes t.saplingOutPoints →
      t.UnlockSpendable (t.LockSpendable w) = w) := by
  rw [unlockSpendable_eq, lockSpendable_eq]
  refine ⟨Finset.union_sdiff_right _ _, Finset.union_sdiff_right _ _,
    Finset.union_sdiff_right _ _, ?_⟩
  intro h1 h2 h3
  simp only [Finset.union_sdiff_right, Finset.sdiff_eq_self_of_disjoint h1,
    Finset.sdiff_eq_self_of_disjoint h2, Finset.sdiff_eq_self_of_disjoint h3]

/-- C11, witness: in the example wallet, where nothing is locked, locking and unlocking the
inputs of the plan `one UTXO, fully spent` gives the wallet back. -/
theorem C11_lock_then_unlock_witness :
    Disjoint exampleWallet.setLockedCoins planOneUtxo.utxoOutPoints ∧
    planOneUtxo.UnlockSpendable (planOneUtxo.LockSpendable exampleWallet) = exampleWallet :=
  ⟨by decide, (C11_lock_then_unlock planOneUtxo exampleWallet).2.2.2 (by decide) (by decide)
    (by decide)⟩

/-- C11, counterexample: the coin spent by the plan `one UTXO, fully spent` is locked in the
initial wallet; after `LockSpendable` and `UnlockSpendable` it is no longer locked, so the set
of locked coins differs from the initial one. -/
theorem C11_counterexample_already_locked :
    (exampleWallet.LockCoin ⟨1, 0⟩).setLockedCoins = {⟨1, 0⟩} ∧
    (planOneUtxo.UnlockSpendable
      (planOneUtxo.LockSpendable (exampleWallet.LockCoin ⟨1, 0⟩))).setLockedCoins = ∅ ∧
    ¬ ((planOneUtxo.UnlockSpendable
      (planOneUtxo.LockSpendable (exampleWallet.LockCoin ⟨1, 0⟩))).setLockedCoins
        = (exampleWallet.LockCoin ⟨1, 0⟩).setLockedCoins) := by
  refine ⟨by decide, by decide, by decide⟩

/-! ## The payment resolver -/

/-- The Orchard receiver the loop chooses is the Orchard receiver of the address. -/
theorem orchardReceiverFor_receiver {strategy : TransactionStrategy} {cro : Bool}
    {st : ResolverState} {p : Payment} {ua : UnifiedAddress} {r : OrchardRawAddress}
    (h : orchardReceiverFor strategy cro st p ua = some r) : ua.orchardReceiver = some r := by
  unfold orchardReceiverFor at h
  split at h
  · split at h
    · split at h
      · rename_i heq _
        rw [heq, ← h]
      · simp at h
    · simp at h
  · simp at h

/-- The Sapling receiver the loop chooses is the Sapling receiver of the address. -/
theorem saplingReceiverFor_receiver {strategy : TransactionStrategy}
    {st : ResolverState} {p : Payment} {ua : UnifiedAddress} {r : SaplingPaymentAddress}
    (h : saplingReceiverFor strategy st p ua = some r) : ua.saplingReceiver = some r := by
  unfold saplingReceiverFor at h
  split at h
  · split at h
    · rename_i heq _
      rw [heq, ← h]
    · simp at h
  · simp at h

/-- A loop iteration that does not fail appends one resolved payment with the amount of the
payment, `isInternal = false` and a receiver the recipient offers. -/
theorem resolvePayment_offers {strategy : TransactionStrategy} {cro : Bool}
    {st st1 : ResolverState} {p : Payment}
    (h : resolvePayment strategy cro st p = .ok st1) :
    ∃ rp, st1.resolvedPayments = st.resolvedPayments ++ [rp] ∧
      rp.amount = p.amount ∧ rp.isInternal = false ∧ p.address.offers rp.address := by
  unfold resolvePayment at h
  split at h
  · rename_i haddr
    split at h
    · injection h with h; subst h
      exact ⟨_, rfl, rfl, rfl, by rw [haddr]; simp [PaymentAddress.offers]⟩
    · simp at h
  · rename_i haddr
    split at h
    · injection h with h; subst h
      exact ⟨_, rfl, rfl, rfl, by rw [haddr]; simp [PaymentAddress.offers]⟩
    · simp at h
  · simp at h
  · rename_i haddr
    split at h
    · injection h with h; subst h
      exact ⟨_, rfl, rfl, rfl, by rw [haddr]; simp [PaymentAddress.offers]⟩
    · simp at h
  · rename_i haddr
    split at h
    · rename_i ho
      injection h with h; subst h
      exact ⟨_, rfl, rfl, rfl, by
        rw [haddr]; simpa [PaymentAddress.offers] using orchardReceiverFor_receiver ho⟩
    · split at h
      · rename_i hs
        injection h with h; subst h
        exact ⟨_, rfl, rfl, rfl, by
          rw [haddr]; simpa [PaymentAddress.offers] using saplingReceiverFor_receiver hs⟩
      · split at h
        · split at h
          · rename_i hr
            injection h with h; subst h
            exact ⟨_, rfl, rfl, rfl, by rw [haddr]; simpa [PaymentAddress.offers] using hr⟩
          · split at h
            · rename_i hr
              injection h with h; subst h
              exact ⟨_, rfl, rfl, rfl, by rw [haddr]; simpa [PaymentAddress.offers] using hr⟩
            · simp at h
        · split at h <;> simp at h

/-- A payment loop that does not fail appends, in order, one resolved payment per payment,
with its amount, `isInternal = false` and a receiver the recipient offers. -/
theorem resolvePayments_offers {strategy : TransactionStrategy} {cro : Bool} :
    ∀ (ps : List Payment) {st st1 : ResolverState},
      resolvePayments strategy cro ps st = .ok st1 →
      ∃ rps, st1.resolvedPayments = st.resolvedPayments ++ rps ∧
        List.Forall₂ (fun p rp => rp.amount = p.amount ∧ rp.isInternal = false ∧
          p.address.offers rp.address) ps rps
  | [], st, st1, h => by
    simp only [resolvePayments] at h
    injection h with h; subst h
    exact ⟨[], by simp, List.Forall₂.nil⟩
  | p :: rest, st, st1, h => by
    simp only [resolvePayments] at h
    split at h
    · simp at h
    · rename_i st2 h2
      obtain ⟨rp, hrp, hfrom⟩ := resolvePayment_offers h2
      obtain ⟨rps, hrps, hall⟩ := resolvePayments_offers rest h
      exact ⟨rp :: rps, by simp [hrps, hrp], List.Forall₂.cons hfrom hall⟩

/-- Lists related pairwise are related at every index. -/
theorem forall2_get {α β : Type} {R : α → β → Prop} {l1 : List α} {l2 : List β}
    (h : List.Forall₂ R l1 l2) :
    ∀ (i : Nat) (a : α) (b : β), l1.get? i = some a → l2.get? i = some b → R a b := by
  induction h with
  | nil => intro i a b ha; simp at ha
  | cons hab _ ih =>
    intro i a b ha hb
    cases i with
    | zero =>
      simp only [List.get?_cons_zero, Option.some.injEq] at ha hb
      subst ha hb
      exact hab
    | succ n =>
      simp only [List.get?_cons_succ] at ha hb
      exact ih n a b ha hb

/-- C15: on every payment list on which `ResolveInputsAndPayments` succeeds, the resolved
payments are as many as the payments and in their order: the i-th resolved payment has the
amount of the i-th payment, `isInternal = false` and a receiver that is the i-th recipient
itself or a receiver of its unified address; the resolved total is the sum of the requested
amounts. -/
theorem C15_resolved_payments_follow_payments {b : WalletTxBuilder} {wallet : CWallet}
    {selector : ZTXOSelector} {spendable sp1 : SpendableInputs} {payments : List Payment}
    {chain : CChain} {strategy : TransactionStrategy} {fee : CAmount} {anchorHeight : Int}
    {sel : InputSelection}
    (h : b.ResolveInputsAndPayments wallet selector spendable payments chain strategy fee
      anchorHeight = (.selection sel, sp1)) :
    sel.payments.payments.length = payments.length ∧
    (∀ (i : Nat) (p : Payment) (rp : ResolvedPayment),
      payments.get? i = some p → sel.payments.payments.get? i = some rp →
      rp.amount = p.amount ∧ rp.isInternal = false ∧ p.address.offers rp.address) ∧
    sel.payments.Total = (payments.map (·.amount)).sum := by
  obtain ⟨st, hst, hsel, -⟩ := resolveInputs_selection h
  obtain ⟨rps, hrps, hall⟩ := resolvePayments_offers payments hst
  simp only [List.nil_append] at hrps
  subst hsel
  simp only [hrps]
  refine ⟨hall.length_eq.symm, forall2_get hall, ?_⟩
  simp only [Payments.Total]
  clear hrps hst h
  induction hall with
  | nil => rfl
  | cons hab _ ih => simp [ih, hab.1]

/-- The payment loop over a concatenation runs the first part, then the second from the state
the first part leaves, unless the first part fails. -/
theorem resolvePayments_append {strategy : TransactionStrategy} {cro : Bool} :
    ∀ (pre rest : List Payment) (st : ResolverState),
      resolvePayments strategy cro (pre ++ rest) st
        = match resolvePayments strategy cro pre st with
          | .error e => .error e
          | .ok st1 => resolvePayments strategy cro rest st1
  | [], rest, st => by simp [resolvePayments]
  | p :: pre, rest, st => by
    simp only [List.cons_append, resolvePayments]
    cases hp : resolvePayment strategy cro st p with
    | error e => rfl
    | ok st1 => exact resolvePayments_append pre rest st1

/-- A payment loop that fails fails at a first payment: the payments before it resolve, and
the error is the one of that payment in the state they leave. -/
theorem resolvePayments_error_first {strategy : TransactionStrategy} {cro : Bool}
    {e : AddressResolutionError} :
    ∀ (ps : List Payment) (st : ResolverState),
      resolvePayments strategy cro ps st = .error e →
      ∃ pre p rest st1, ps = pre ++ p :: rest ∧
        resolvePayments strategy cro pre st = .ok st1 ∧
        resolvePayment strategy cro st1 p = .error e
  | [], st, h => by simp [resolvePayments] at h
  | p :: ps, st, h => by
    simp only [resolvePayments] at h
    cases hp : resolvePayment strategy cro st p with
    | error e1 =>
      rw [hp] at h
      simp only [Except.error.injEq] at h
      subst h
      exact ⟨[], p, ps, st, rfl, rfl, hp⟩
    | ok st2 =>
      rw [hp] at h
      obtain ⟨pre, q, rest, st1, hps, hpre, hq⟩ := resolvePayments_error_first ps st2 h
      refine ⟨p :: pre, q, rest, st1, by rw [hps]; rfl, ?_, hq⟩
      simp only [resolvePayments, hp]
      exact hpre

/-- When the payments before a payment resolve and that payment fails, the loop fails with
its error, whatever follows. -/
theorem resolvePayments_error_at {strategy : TransactionStrategy} {cro : Bool}
    {e : AddressResolutionError} {pre : List Payment} {p : Payment} {st st1 : ResolverState}
    (hpre : resolvePayments strategy cro pre st = .ok st1)
    (hp : resolvePayment strategy cro st1 p = .error e) (rest : List Payment) :
    resolvePayments strategy cro (pre ++ p :: rest) st = .error e := by
  rw [resolvePayments_append, hpre]
  simp only [resolvePayments, hp]

/-- When the payment loop fails, `ResolveInputsAndPayments` returns its error and leaves the
candidate inputs untouched. -/
theorem resolveInputs_of_loop_error {b : WalletTxBuilder} {wallet : CWallet}
    {selector : ZTXOSelector} {spendable : SpendableInputs} {payments : List Payment}
    {chain : CChain} {strategy : TransactionStrategy} {fee : CAmount} {anchorHeight : Int}
    {e : AddressResolutionError}
    (hloop : resolvePayments strategy
      (canResolveOrchardOf b spendable payments fee anchorHeight) payments
      (initialResolverState spendable) = .error e) :
    b.ResolveInputsAndPayments wallet selector spendable payments chain strategy fee
      anchorHeight = (.error (.AddressResolution e), spendable) := by
  unfold canResolveOrchardOf targetAmountOf initialResolverState at hloop
  unfold WalletTxBuilder.ResolveInputsAndPayments
  simp only [hloop]

/-- The flag `canResolveOrchard` only depends on the payments through their total. -/
theorem canResolveOrchardOf_congr (b : WalletTxBuilder) (spendable : SpendableInputs)
    {ps1 ps2 : List Payment} (fee : CAmount) (anchorHeight : Int)
    (hsum : (ps2.map (·.amount)).sum = (ps1.map (·.amount)).sum) :
    canResolveOrchardOf b spendable ps2 fee anchorHeight
      = canResolveOrchardOf b spendable ps1 fee anchorHeight := by
  unfold canResolveOrchardOf targetAmountOf
  rw [foldl_amount_eq, foldl_amount_eq, hsum]

/-- C16: when the payment loop of `ResolveInputsAndPayments` fails with an error, there is a
first payment that cannot be resolved: the payments before it resolve, the error is the one
that payment produces, and `ResolveInputsAndPayments` returns that error for every payment
list that has the same payments up to and including it and the same total amount, whatever
payments follow. -/
theorem C16_first_error_independent_of_rest {b : WalletTxBuilder} {wallet : CWallet}
    {selector : ZTXOSelector} {spendable : SpendableInputs} {payments : List Payment}
    {chain : CChain} {strategy : TransactionStrategy} {fee : CAmount} {anchorHeight : Int}
    {e : AddressResolutionError}
    (hloop : resolvePayments strategy
      (canResolveOrchardOf b spendable payments fee anchorHeight) payments
      (initialResolverState spendable) = .error e) :
    ∃ pre p rest st, payments = pre ++ p :: rest ∧
      resolvePayments strategy (canResolveOrchardOf b spendable payments fee anchorHeight)
        pre (initialResolverState spendable) = .ok st ∧
      resolvePayment strategy (canResolveOrchardOf b spendable payments fee anchorHeight)
        st p = .error e ∧
      b.ResolveInputsAndPayments wallet selector spendable payments chain strategy fee
        anchorHeight = (.error (.AddressResolution e), spendable) ∧
      ∀ rest2 : List Payment,
        ((pre ++ p :: rest2).map (·.amount)).sum = (payments.map (·.amount)).sum →
        b.ResolveInputsAndPayments wallet selector spendable (pre ++ p :: rest2) chain
          strategy fee anchorHeight = (.error (.AddressResolution e), spendable) := by
  obtain ⟨pre, p, rest, st, hps, hpre, hp⟩ := resolvePayments_error_first _ _ hloop
  refine ⟨pre, p, rest, st, hps, hpre, hp, resolveInputs_of_loop_error hloop, ?_⟩
  intro rest2 hsum
  apply resolveInputs_of_loop_error
  rw [canResolveOrchardOf_congr b spendable fee anchorHeight hsum]
  exact resolvePayments_error_at hpre hp rest2

/-- When some payment of the list fails in every state, the payment loop fails. -/
theorem resolvePayments_error_of_mem {strategy : TransactionStrategy} {cro : Bool}
    {p : Payment} (hfail : ∀ st, ∃ e, resolvePayment strategy cro st p = .error e) :
    ∀ (ps : List Payment) (st : ResolverState), p ∈ ps →
      ∃ e, resolvePayments strategy cro ps st = .error e
  | [], st, hmem => by simp at hmem
  | q :: ps, st, hmem => by
    simp only [resolvePayments]
    cases hq : resolvePayment strategy cro st q with
    | error e => exact ⟨e, rfl⟩
    | ok st1 =>
      rcases List.mem_cons.1 hmem with heq | hin
      · subst heq
        obtain ⟨e, he⟩ := hfail st
        rw [he] at hq
        simp at hq
      · exact resolvePayments_error_of_mem hfail ps st1 hin

/-- C17: a payment to a P2PKH or P2SH recipient reached by the payment loop resolves to that
same address with the same amount when the strategy allows revealed recipients, and fails
with `TransparentRecipientNotAllowed` otherwise; hence `ResolveInputsAndPayments` never
succeeds on a list with a P2PKH or P2SH recipient under a strategy that does not allow
revealed recipients. -/
theorem C17_transparent_recipient (strategy : TransactionStrategy) :
    (∀ (cro : Bool) (st : ResolverState) (k : CKeyID) (amount : CAmount) (memo : Option Memo),
      resolvePayment strategy cro st ⟨.p2pkh k, amount, memo⟩
        = if strategy.AllowRevealedRecipients = true then
            .ok { st with resolvedPayments := st.resolvedPayments ++
                    [⟨none, .p2pkh k, amount, memo, false⟩] }
          else .error .TransparentRecipientNotAllowed) ∧
    (∀ (cro : Bool) (st : ResolverState) (s : CScriptID) (amount : CAmount)
        (memo : Option Memo),
      resolvePayment strategy cro st ⟨.p2sh s, amount, memo⟩
        = if strategy.AllowRevealedRecipients = true then
            .ok { st with resolvedPayments := st.resolvedPayments ++
                    [⟨none, .p2sh s, amount, memo, false⟩] }
          else .error .TransparentRecipientNotAllowed) ∧
    (strategy.AllowRevealedRecipients = false →
      ∀ (b : WalletTxBuilder) (wallet : CWallet) (selector : ZTXOSelector)
        (spendable : SpendableInputs) (payments : List Payment) (chain : CChain)
        (fee : CAmount) (anchorHeight : Int),
        (∃ p ∈ payments, p.address.isTransparent = true) →
        ∃ e, b.ResolveInputsAndPayments wallet selector spendable payments chain strategy fee
          anchorHeight = (.error (.AddressResolution e), spendable)) := by
  refine ⟨fun cro st k amount memo => by simp [resolvePayment],
    fun cro st s amount memo => by simp [resolvePayment], ?_⟩
  intro hno b wallet selector spendable payments chain fee anchorHeight hex
  obtain ⟨p, hp, htr⟩ := hex
  have hfail : ∀ st, ∃ e, resolvePayment strategy
      (canResolveOrchardOf b spendable payments fee anchorHeight) st p = .error e := by
    intro st
    unfold resolvePayment
    cases haddr : p.address with
    | p2pkh k => exact ⟨.TransparentRecipientNotAllowed, by simp [hno]⟩
    | p2sh s => exact ⟨.TransparentRecipientNotAllowed, by simp [hno]⟩
    | sprout a => simp [PaymentAddress.isTransparent, haddr] at htr
    | sapling a => simp [PaymentAddress.isTransparent, haddr] at htr
    | unified ua => simp [PaymentAddress.isTransparent, haddr] at htr
  obtain ⟨e, he⟩ := resolvePayments_error_of_mem hfail payments
    (initialResolverState spendable) hp
  exact ⟨e, resolveInputs_of_loop_error he⟩

/-- C18: `ResolveInputsAndPayments` does not succeed on a payment list that contains a Sprout
payment address as recipient; if every earlier payment resolves, the error is
`SproutRecipientsNotSupported`; consequently the payment list of a returned plan has no
Sprout recipient, and the receiver of a resolved payment is a P2PKH, P2SH, Sapling or Orchard
receiver, never a Sprout one. -/
theorem C18_sprout_recipient_refused {b : WalletTxBuilder} {wallet : CWallet}
    {selector : ZTXOSelector} {spendable : SpendableInputs} {payments : List Payment}
    {chain : CChain} {strategy : TransactionStrategy} {fee : CAmount} :
    (∀ anchorHeight : Int, (∃ p ∈ payments, p.address.isSprout = true) →
      ∃ e, b.ResolveInputsAndPayments wallet selector spendable payments chain strategy fee
        anchorHeight = (.error (.AddressResolution e), spendable)) ∧
    (∀ (anchorHeight : Int) (pre rest : List Payment) (p : Payment) (st : ResolverState),
      payments = pre ++ p :: rest → p.address.isSprout = true →
      resolvePayments strategy (canResolveOrchardOf b spendable payments fee anchorHeight)
        pre (initialResolverState spendable) = .ok st →
      b.ResolveInputsAndPayments wallet selector spendable payments chain strategy fee
        anchorHeight
        = (.error (.AddressResolution .SproutRecipientsNotSupported), spendable)) ∧
    (∀ (anchorConfirmations : Nat) (t : TransactionEffects),
      ReturnsPlan b wallet selector spendable payments chain strategy fee
        anchorConfirmations t →
      ∀ p ∈ payments, p.address.isSprout = false) ∧
    (∀ rp : ResolvedPayment, (∃ k, rp.address = .p2pkh k) ∨ (∃ s, rp.address = .p2sh s) ∨
      (∃ a, rp.address = .sapling a) ∨ (∃ o, rp.address = .orchard o)) := by
  have hsprout : ∀ (cro : Bool) (p : Payment), p.address.isSprout = true →
      ∀ st, resolvePayment strategy cro st p = .error .SproutRecipientsNotSupported := by
    intro cro p hp st
    unfold resolvePayment
    cases haddr : p.address with
    | sprout a => rfl
    | p2pkh k => simp [PaymentAddress.isSprout, haddr] at hp
    | p2sh s => simp [PaymentAddress.isSprout, haddr] at hp
    | sapling a => simp [PaymentAddress.isSprout, haddr] at hp
    | unified ua => simp [PaymentAddress.isSprout, haddr] at hp
  have hfirst : ∀ anchorHeight : Int, (∃ p ∈ payments, p.address.isSprout = true) →
      ∃ e, b.ResolveInputsAndPayments wallet selector spendable payments chain strategy fee
        anchorHeight = (.error (.AddressResolution e), spendable) := by
    rintro anchorHeight ⟨p, hp, hs⟩
    obtain ⟨e, he⟩ := resolvePayments_error_of_mem
      (fun st => ⟨_, hsprout (canResolveOrchardOf b spendable payments fee anchorHeight) p hs st⟩)
      payments (initialResolverState spendable) hp
    exact ⟨e, resolveInputs_of_loop_error he⟩
  refine ⟨hfirst, ?_, ?_, ?_⟩
  · intro anchorHeight pre rest p st hps hs hpre
    apply resolveInputs_of_loop_error
    have := resolvePayments_error_at hpre (hsprout _ p hs st) rest
    rw [← hps] at this
    exact this
  · intro anchorConfirmations t hplan p hp
    cases hs : p.address.isSprout with
    | false => rfl
    | true =>
      obtain ⟨e, he⟩ := hfirst (GetAnchorHeight chain anchorConfirmations) ⟨p, hp, hs⟩
      obtain ⟨out, hout, hres⟩ := hplan
      obtain ⟨sel, hsel, -⟩ := prepare_effects hout hres
      rw [he] at hsel
      simp at hsel
  · intro rp
    cases rp.address with
    | p2pkh k => exact Or.inl ⟨k, rfl⟩
    | p2sh s => exact Or.inr (Or.inl ⟨s, rfl⟩)
    | sapling a => exact Or.inr (Or.inr (Or.inl ⟨a, rfl⟩))
    | orchard o => exact Or.inr (Or.inr (Or.inr ⟨o, rfl⟩))

/-- The first branch condition of the loop for a unified address fails exactly when the
Orchard receiver does not qualify. -/
theorem orchardReceiverFor_eq (strategy : TransactionStrategy) (cro : Bool)
    (st : ResolverState) (p : Payment) (ua : UnifiedAddress) :
    orchardReceiverFor strategy cro st p ua
      = if (ua.orchardReceiver.isSome && cro
            && (strategy.AllowRevealedAmounts || decide (p.amount ≤ st.maxOrchardAvailable)))
            = true
        then ua.orchardReceiver else none := by
  unfold orchardReceiverFor
  generalize (strategy.AllowRevealedAmounts || decide (p.amount ≤ st.maxOrchardAvailable)) = q
  cases cro <;> cases ua.orchardReceiver <;> cases q <;> rfl

/-- The second branch condition of the loop for a unified address fails exactly when the
Sapling receiver does not qualify. -/
theorem saplingReceiverFor_eq (strategy : TransactionStrategy)
    (st : ResolverState) (p : Payment) (ua : UnifiedAddress) :
    saplingReceiverFor strategy st p ua
      = if (ua.saplingReceiver.isSome
            && (strategy.AllowRevealedAmounts || decide (p.amount ≤ st.maxSaplingAvailable)))
            = true
        then ua.saplingReceiver else none := by
  unfold saplingReceiverFor
  generalize (strategy.AllowRevealedAmounts || decide (p.amount ≤ st.maxSaplingAvailable)) = q
  cases ua.saplingReceiver <;> cases q <;> rfl

/-- The receiver the specification selects, read off the branch conditions of the loop. -/
theorem firstQualifyingReceiver_eq (strategy : TransactionStrategy) (cro : Bool)
    (st : ResolverState) (ua : UnifiedAddress) (amount : CAmount) (memo : Option Memo) :
    firstQualifyingReceiver strategy cro st.maxOrchardAvailable st.maxSaplingAvailable
        amount ua
      = match orchardReceiverFor strategy cro st ⟨.unified ua, amount, memo⟩ ua with
        | some r => some (.orchard r)
        | none =>
          match saplingReceiverFor strategy st ⟨.unified ua, amount, memo⟩ ua with
          | some r => some (.sapling r)
          | none =>
            if strategy.AllowRevealedRecipients = true then
              match ua.p2shReceiver with
              | some r => some (.p2sh r)
              | none => ua.p2pkhReceiver.map RecipientAddress.p2pkh
            else none := by
  rw [orchardReceiverFor_eq, saplingReceiverFor_eq]
  unfold firstQualifyingReceiver
  obtain ⟨orch, sap, p2sh, p2pkh⟩ := ua
  simp only
  generalize (strategy.AllowRevealedAmounts || decide (amount ≤ st.maxOrchardAvailable)) = qo
  generalize (strategy.AllowRevealedAmounts || decide (amount ≤ st.maxSaplingAvailable)) = qs
  generalize strategy.AllowRevealedRecipients = arr
  cases cro <;> cases orch <;> cases sap <;> cases p2sh <;> cases p2pkh <;>
    cases qo <;> cases qs <;> cases arr <;> rfl

/-- C19: for a payment to a unified address, the payment loop resolves the payment to the
first receiver that qualifies in the order Orchard, Sapling, P2SH, P2PKH, appending one
resolved payment with that receiver, the unified address, the amount, `isInternal = false`
and the memo of the payment (no memo for a transparent receiver); and it fails exactly when no
receiver qualifies. -/
theorem C19_unified_receiver_order (strategy : TransactionStrategy) (cro : Bool)
    (st : ResolverState) (ua : UnifiedAddress) (amount : CAmount) (memo : Option Memo) :
    (∀ r, firstQualifyingReceiver strategy cro st.maxOrchardAvailable st.maxSaplingAvailable
        amount ua = some r →
      ∃ st1, resolvePayment strategy cro st ⟨.unified ua, amount, memo⟩ = .ok st1 ∧
        st1.resolvedPayments = st.resolvedPayments ++
          [⟨some ua, r, amount, if r.isTransparent = true then none else memo, false⟩]) ∧
    (firstQualifyingReceiver strategy cro st.maxOrchardAvailable st.maxSaplingAvailable
        amount ua = none ↔
      ∃ e, resolvePayment strategy cro st ⟨.unified ua, amount, memo⟩ = .error e) := by
  rw [firstQualifyingReceiver_eq strategy cro st ua amount memo]
  unfold resolvePayment
  simp only
  cases h1 : orchardReceiverFor strategy cro st ⟨.unified ua, amount, memo⟩ ua with
  | some r1 =>
    refine ⟨fun r hr => ?_, by simp⟩
    simp only [Option.some.injEq] at hr
    subst hr
    exact ⟨_, rfl, rfl⟩
  | none =>
    cases h2 : saplingReceiverFor strategy st ⟨.unified ua, amount, memo⟩ ua with
    | some r2 =>
      refine ⟨fun r hr => ?_, by simp⟩
      simp only [Option.some.injEq] at hr
      subst hr
      exact ⟨_, rfl, rfl⟩
    | none =>
      cases harr : strategy.AllowRevealedRecipients with
      | false =>
        refine ⟨fun r hr => by simp at hr, ?_⟩
        cases hara : strategy.AllowRevealedAmounts <;> simp
      | true =>
        cases h3 : ua.p2shReceiver with
        | some r3 =>
          refine ⟨fun r hr => ?_, by simp⟩
          simp only [if_true, Option.some.injEq] at hr
          subst hr
          exact ⟨_, rfl, rfl⟩
        | none =>
          cases h4 : ua.p2pkhReceiver with
          | some r4 =>
            refine ⟨fun r hr => ?_, by simp⟩
            simp only [if_true, Option.map_some', Option.some.injEq] at hr
            subst hr
            exact ⟨_, rfl, rfl⟩
          | none => simp

/-- C19, witness: under `FullPrivacy`, with 100 zatoshi of Orchard funds available and
`canResolveOrchard`, a payment of 50 with a memo to a unified address with all four receivers
resolves to the Orchard receiver and keeps its memo. -/
theorem C19_unified_receiver_witness :
    firstQualifyingReceiver ⟨.FullPrivacy⟩ true 100 0 50
        ⟨some ⟨5⟩, some ⟨6⟩, some ⟨7⟩, some ⟨8⟩⟩ = some (.orchard ⟨5⟩) ∧
    ∃ st1, resolvePayment ⟨.FullPrivacy⟩ true ⟨0, 100, 0, []⟩
        ⟨.unified ⟨some ⟨5⟩, some ⟨6⟩, some ⟨7⟩, some ⟨8⟩⟩, 50, some ⟨[1, 2]⟩⟩ = .ok st1 ∧
      st1.resolvedPayments =
        [⟨some ⟨some ⟨5⟩, some ⟨6⟩, some ⟨7⟩, some ⟨8⟩⟩, .orchard ⟨5⟩, 50, some ⟨[1, 2]⟩,
          false⟩] :=
  ⟨by decide, (C19_unified_receiver_order ⟨.FullPrivacy⟩ true ⟨0, 100, 0, []⟩
    ⟨some ⟨5⟩, some ⟨6⟩, some ⟨7⟩, some ⟨8⟩⟩ 50 (some ⟨[1, 2]⟩)).1 (.orchard ⟨5⟩)
      (by decide)⟩

/-- When the Orchard receiver is not chosen although revealed amounts are allowed, Orchard
cannot be resolved or the address has no Orchard receiver. -/
theorem orchardReceiverFor_none {strategy : TransactionStrategy} {cro : Bool}
    {st : ResolverState} {p : Payment} {ua : UnifiedAddress}
    (h : orchardReceiverFor strategy cro st p ua = none)
    (hara : strategy.AllowRevealedAmounts = true) :
    cro = false ∨ ua.orchardReceiver = none := by
  unfold orchardReceiverFor at h
  cases cro with
  | false => exact Or.inl rfl
  | true =>
    right
    cases ho : ua.orchardReceiver with
    | none => rfl
    | some r => simp [ho, hara] at h

/-- When the Sapling receiver is not chosen although revealed amounts are allowed, the address
has no Sapling receiver. -/
theorem saplingReceiverFor_none {strategy : TransactionStrategy}
    {st : ResolverState} {p : Payment} {ua : UnifiedAddress}
    (h : saplingReceiverFor strategy st p ua = none)
    (hara : strategy.AllowRevealedAmounts = true) : ua.saplingReceiver = none := by
  unfold saplingReceiverFor at h
  cases hs : ua.saplingReceiver with
  | none => rfl
  | some r => simp [hs, hara] at h

/-- C20: for a payment to a unified address: if the address has only an Orchard receiver,
`canResolveOrchard` is false and the strategy allows revealed recipients, the payment fails
with `CouldNotResolveReceiver`; and, for a strategy whose `AllowRevealedRecipients` implies
`AllowRevealedAmounts`, the error is `CouldNotResolveReceiver` only when the strategy allows
revealed recipients, the address has no Sapling, P2SH or P2PKH receiver, and
`canResolveOrchard` is false or the address has no Orchard receiver. -/
theorem C20_could_not_resolve_receiver (strategy : TransactionStrategy) (cro : Bool)
    (st : ResolverState) (ua : UnifiedAddress) (amount : CAmount) (memo : Option Memo) :
    (ua.orchardReceiver.isSome = true → ua.saplingReceiver = none → ua.p2shReceiver = none →
      ua.p2pkhReceiver = none → cro = false → strategy.AllowRevealedRecipients = true →
      resolvePayment strategy cro st ⟨.unified ua, amount, memo⟩
        = .error .CouldNotResolveReceiver) ∧
    ((strategy.AllowRevealedRecipients = true → strategy.AllowRevealedAmounts = true) →
      resolvePayment strategy cro st ⟨.unified ua, amount, memo⟩
        = .error .CouldNotResolveReceiver →
      strategy.AllowRevealedRecipients = true ∧ ua.saplingReceiver = none ∧
        ua.p2shReceiver = none ∧ ua.p2pkhReceiver = none ∧
        (cro = false ∨ ua.orchardReceiver = none)) := by
  constructor
  · intro _ hsap hp2sh hp2pkh hcro harr
    subst hcro
    simp [resolvePayment, orchardReceiverFor, saplingReceiverFor, hsap, hp2sh, hp2pkh, harr]
  · intro himp h
    unfold resolvePayment at h
    simp only at h
    cases h1 : orchardReceiverFor strategy cro st ⟨.unified ua, amount, memo⟩ ua with
    | some r1 => simp [h1] at h
    | none =>
      cases h2 : saplingReceiverFor strategy st ⟨.unified ua, amount, memo⟩ ua with
      | some r2 => simp [h1, h2] at h
      | none =>
        cases harr : strategy.AllowRevealedRecipients with
        | false =>
          cases hara : strategy.AllowRevealedAmounts <;> simp [h1, h2, harr, hara] at h
        | true =>
          have hara := himp harr
          cases h3 : ua.p2shReceiver with
          | some r3 => simp [h1, h2, harr, h3] at h
          | none =>
            cases h4 : ua.p2pkhReceiver with
            | some r4 => simp [h1, h2, harr, h3, h4] at h
            | none =>
              exact ⟨rfl, saplingReceiverFor_none h2 hara, rfl, rfl,
                orchardReceiverFor_none h1 hara⟩

/-- C20, witness: under `AllowRevealedRecipients`, with `canResolveOrchard` false, a payment
to a unified address that has only an Orchard receiver fails with `CouldNotResolveReceiver`;
the strategy allows revealed recipients and revealed amounts. -/
theorem C20_could_not_resolve_witness :
    TransactionStrategy.AllowRevealedRecipients ⟨.AllowRevealedRecipients⟩ = true ∧
    TransactionStrategy.AllowRevealedAmounts ⟨.AllowRevealedRecipients⟩ = true ∧
    resolvePayment ⟨.AllowRevealedRecipients⟩ false ⟨200000000, 0, 0, []⟩
        ⟨.unified ⟨some ⟨5⟩, none, none, none⟩, 100000000, none⟩
      = .error .CouldNotResolveReceiver ∧
    (TransactionStrategy.AllowRevealedRecipients ⟨.AllowRevealedRecipients⟩ = true ∧
      (⟨some ⟨5⟩, none, none, none⟩ : UnifiedAddress).saplingReceiver = none ∧
      (⟨some ⟨5⟩, none, none, none⟩ : UnifiedAddress).p2shReceiver = none ∧
      (⟨some ⟨5⟩, none, none, none⟩ : UnifiedAddress).p2pkhReceiver = none ∧
      (false = false ∨ (⟨some ⟨5⟩, none, none, none⟩ : UnifiedAddress).orchardReceiver
        = none)) :=
  ⟨by decide, by decide,
    (C20_could_not_resolve_receiver ⟨.AllowRevealedRecipients⟩ false ⟨200000000, 0, 0, []⟩
      ⟨some ⟨5⟩, none, none, none⟩ 100000000 none).1 rfl rfl rfl rfl rfl (by decide),
    (C20_could_not_resolve_receiver ⟨.AllowRevealedRecipients⟩ false ⟨200000000, 0, 0, []⟩
      ⟨some ⟨5⟩, none, none, none⟩ 100000000 none).2 (fun _ => by decide)
      ((C20_could_not_resolve_receiver ⟨.AllowRevealedRecipients⟩ false
        ⟨200000000, 0, 0, []⟩ ⟨some ⟨5⟩, none, none, none⟩ 100000000 none).1
        rfl rfl rfl rfl rfl (by decide))⟩

/-! ## Witnesses of the resolver claims and the locking of Orchard notes -/

/-- After `LockSpendable` every UTXO, Sprout note and Sapling note of the plan is in the
wallet's locked sets, and after `UnlockSpendable` none of them is. -/
theorem lockSpendable_marks_transparent_sprout_sapling (t : TransactionEffects)
    (w : CWallet) :
    (∀ utxo ∈ t.spendable.utxos,
      (⟨utxo.txHash, utxo.i⟩ : COutPoint) ∈ (t.LockSpendable w).setLockedCoins ∧
      (⟨utxo.txHash, utxo.i⟩ : COutPoint) ∉ (t.UnlockSpendable w).setLockedCoins) ∧
    (∀ note ∈ t.spendable.sproutNoteEntries,
      note.jsop ∈ (t.LockSpendable w).setLockedSproutNotes ∧
      note.jsop ∉ (t.UnlockSpendable w).setLockedSproutNotes) ∧
    (∀ note ∈ t.spendable.saplingNoteEntries,
      note.op ∈ (t.LockSpendable w).setLockedSaplingNotes ∧
      note.op ∉ (t.UnlockSpendable w).setLockedSaplingNotes) := by
  rw [lockSpendable_eq, unlockSpendable_eq]
  refine ⟨fun utxo h => ?_, fun note h => ?_, fun note h => ?_⟩
  · have hm : (⟨utxo.txHash, utxo.i⟩ : COutPoint) ∈ t.utxoOutPoints := by
      simp only [TransactionEffects.utxoOutPoints, List.mem_toFinset, List.mem_map]
      exact ⟨utxo, h, rfl⟩
    exact ⟨Finset.mem_union_right _ hm, fun hc => (Finset.mem_sdiff.1 hc).2 hm⟩
  · have hm : note.jsop ∈ t.sproutOutPoints := by
      simp only [TransactionEffects.sproutOutPoints, List.mem_toFinset, List.mem_map]
      exact ⟨note, h, rfl⟩
    exact ⟨Finset.mem_union_right _ hm, fun hc => (Finset.mem_sdiff.1 hc).2 hm⟩
  · have hm : note.op ∈ t.saplingOutPoints := by
      simp only [TransactionEffects.saplingOutPoints, List.mem_toFinset, List.mem_map]
      exact ⟨note, h, rfl⟩
    exact ⟨Finset.mem_union_right _ hm, fun hc => (Finset.mem_sdiff.1 hc).2 hm⟩

/-- C12, the code at the failing input: the plan returned in the scenario `Orchard payment
with Orchard change` spends one Orchard note, and `LockSpendable` leaves the wallet exactly as
it was, with nothing locked: the Orchard note is not marked. -/
theorem C12_orchard_note_not_locked :
    ReturnsPlan (builderWith 1) exampleWallet
      ⟨.unifiedAddress ⟨some ⟨3⟩, some ⟨4⟩, none, none⟩⟩
      ⟨[], [], [], [orchardNote 2 200000000]⟩
      [⟨.unified ⟨some ⟨5⟩, some ⟨6⟩, none, none⟩, 100000000, none⟩] exampleChain
      ⟨.FullPrivacy⟩ 10000 10 planOrchardChange ∧
    planOrchardChange.spendable.orchardNoteMetadata = [orchardNote 2 200000000] ∧
    planOrchardChange.LockSpendable exampleWallet = exampleWallet ∧
    (planOrchardChange.LockSpendable exampleWallet).setLockedCoins = ∅ ∧
    (planOrchardChange.LockSpendable exampleWallet).setLockedSproutNotes = ∅ ∧
    (planOrchardChange.LockSpendable exampleWallet).setLockedSaplingNotes = ∅ :=
  ⟨planOrchardChange_returned, rfl, rfl, rfl, rfl, rfl⟩

/-- C15, witness: in the scenario `Orchard payment with Orchard change` the one payment is
resolved to one payment of the same amount. -/
theorem C15_resolved_payments_witness :
    (builderWith 1).ResolveInputsAndPayments exampleWallet
        ⟨.unifiedAddress ⟨some ⟨3⟩, some ⟨4⟩, none, none⟩⟩
        ⟨[], [], [], [orchardNote 2 200000000]⟩
        [⟨.unified ⟨some ⟨5⟩, some ⟨6⟩, none, none⟩, 100000000, none⟩] exampleChain
        ⟨.FullPrivacy⟩ 10000 1999991
      = (.selection selectionOrchard, ⟨[], [], [], [orchardNote 2 200000000]⟩) ∧
    selectionOrchard.payments.payments.length = 1 ∧
    selectionOrchard.payments.Total = 100000000 :=
  ⟨rfl,
    (C15_resolved_payments_follow_payments
      (show (builderWith 1).ResolveInputsAndPayments exampleWallet
        ⟨.unifiedAddress ⟨some ⟨3⟩, some ⟨4⟩, none, none⟩⟩
        ⟨[], [], [], [orchardNote 2 200000000]⟩
        [⟨.unified ⟨some ⟨5⟩, some ⟨6⟩, none, none⟩, 100000000, none⟩] exampleChain
        ⟨.FullPrivacy⟩ 10000 1999991
      = (.selection selectionOrchard, ⟨[], [], [], [orchardNote 2 200000000]⟩) from rfl)).1,
    (C15_resolved_payments_follow_payments
      (show (builderWith 1).ResolveInputsAndPayments exampleWallet
        ⟨.unifiedAddress ⟨some ⟨3⟩, some ⟨4⟩, none, none⟩⟩
        ⟨[], [], [], [orchardNote 2 200000000]⟩
        [⟨.unified ⟨some ⟨5⟩, some ⟨6⟩, none, none⟩, 100000000, none⟩] exampleChain
        ⟨.FullPrivacy⟩ 10000 1999991
      = (.selection selectionOrchard, ⟨[], [], [], [orchardNote 2 200000000]⟩) from rfl)).2.2⟩

/-- C16, witness: in the scenario `three payments, the second refused`, under `FullPrivacy`,
the loop fails with `TransparentRecipientNotAllowed`, the error of the second payment, and
the same error is returned whatever follows it. -/
theorem C16_first_error_witness :
    resolvePayments ⟨.FullPrivacy⟩
        (canResolveOrchardOf (builderWith 50) spendableOneSapling paymentsSecondRefused 10000
          1999991)
        paymentsSecondRefused (initialResolverState spendableOneSapling)
      = .error .TransparentRecipientNotAllowed ∧
    ∃ pre p rest st, paymentsSecondRefused = pre ++ p :: rest ∧
      resolvePayments ⟨.FullPrivacy⟩
        (canResolveOrchardOf (builderWith 50) spendableOneSapling paymentsSecondRefused 10000
          1999991) pre (initialResolverState spendableOneSapling) = .ok st ∧
      resolvePayment ⟨.FullPrivacy⟩
        (canResolveOrchardOf (builderWith 50) spendableOneSapling paymentsSecondRefused 10000
          1999991) st p = .error .TransparentRecipientNotAllowed ∧
      (builderWith 50).ResolveInputsAndPayments exampleWallet ⟨.saplingAddress ⟨600⟩⟩
        spendableOneSapling paymentsSecondRefused exampleChain ⟨.FullPrivacy⟩ 10000 1999991
        = (.error (.AddressResolution .TransparentRecipientNotAllowed),
            spendableOneSapling) ∧
      ∀ rest2 : List Payment,
        ((pre ++ p :: rest2).map (·.amount)).sum
          = (paymentsSecondRefused.map (·.amount)).sum →
        (builderWith 50).ResolveInputsAndPayments exampleWallet ⟨.saplingAddress ⟨600⟩⟩
          spendableOneSapling (pre ++ p :: rest2) exampleChain ⟨.FullPrivacy⟩ 10000 1999991
          = (.error (.AddressResolution .TransparentRecipientNotAllowed),
              spendableOneSapling) :=
  ⟨rfl, C16_first_error_independent_of_rest
    (show resolvePayments ⟨.FullPrivacy⟩
        (canResolveOrchardOf (builderWith 50) spendableOneSapling paymentsSecondRefused 10000
          1999991)
        paymentsSecondRefused (initialResolverState spendableOneSapling)
      = .error .TransparentRecipientNotAllowed from rfl)⟩

/-- C17, witness: `FullPrivacy` does not allow revealed recipients, and
`ResolveInputsAndPayments` refuses the payments of the scenario `three payments, the second
refused`, which contain a P2PKH recipient. -/
theorem C17_transparent_recipient_witness :
    TransactionStrategy.AllowRevealedRecipients ⟨.FullPrivacy⟩ = false ∧
    (∃ p ∈ paymentsSecondRefused, p.address.isTransparent = true) ∧
    ∃ e, (builderWith 50).ResolveInputsAndPayments exampleWallet ⟨.saplingAddress ⟨600⟩⟩
        spendableOneSapling paymentsSecondRefused exampleChain ⟨.FullPrivacy⟩ 10000 1999991
      = (.error (.AddressResolution e), spendableOneSapling) :=
  ⟨by decide, ⟨⟨.p2pkh ⟨5⟩, 20000, none⟩, by decide, rfl⟩,
    (C17_transparent_recipient ⟨.FullPrivacy⟩).2.2 (by decide) (builderWith 50) exampleWallet
      ⟨.saplingAddress ⟨600⟩⟩ spendableOneSapling paymentsSecondRefused exampleChain 10000
      1999991 ⟨⟨.p2pkh ⟨5⟩, 20000, none⟩, by decide, rfl⟩⟩

/-- C18, witness: a payment list whose second payment goes to a Sprout address is refused
under `NoPrivacy`, with `SproutRecipientsNotSupported` since the first payment resolves. -/
theorem C18_sprout_recipient_witness :
    (∃ p ∈ [(⟨.sapling ⟨1⟩, 10000, none⟩ : Payment), ⟨.sprout ⟨9⟩, 20000, none⟩],
      p.address.isSprout = true) ∧
    (∃ e, (builderWith 50).ResolveInputsAndPayments exampleWallet ⟨.saplingAddress ⟨600⟩⟩
        spendableOneSapling [⟨.sapling ⟨1⟩, 10000, none⟩, ⟨.sprout ⟨9⟩, 20000, none⟩]
        exampleChain ⟨.NoPrivacy⟩ 10000 1999991
      = (.error (.AddressResolution e), spendableOneSapling)) ∧
    (builderWith 50).ResolveInputsAndPayments exampleWallet ⟨.saplingAddress ⟨600⟩⟩
        spendableOneSapling [⟨.sapling ⟨1⟩, 10000, none⟩, ⟨.sprout ⟨9⟩, 20000, none⟩]
        exampleChain ⟨.NoPrivacy⟩ 10000 1999991
      = (.error (.AddressResolution .SproutRecipientsNotSupported), spendableOneSapling) :=
  ⟨⟨⟨.sprout ⟨9⟩, 20000, none⟩, by decide, rfl⟩,
    (@C18_sprout_recipient_refused (builderWith 50) exampleWallet ⟨.saplingAddress ⟨600⟩⟩
      spendableOneSapling [⟨.sapling ⟨1⟩, 10000, none⟩, ⟨.sprout ⟨9⟩, 20000, none⟩]
      exampleChain ⟨.NoPrivacy⟩ 10000).1 1999991 ⟨⟨.sprout ⟨9⟩, 20000, none⟩, by decide, rfl⟩,
    (@C18_sprout_recipient_refused (builderWith 50) exampleWallet ⟨.saplingAddress ⟨600⟩⟩
      spendableOneSapling [⟨.sapling ⟨1⟩, 10000, none⟩, ⟨.sprout ⟨9⟩, 20000, none⟩]
      exampleChain ⟨.NoPrivacy⟩ 10000).2.1 1999991 [⟨.sapling ⟨1⟩, 10000, none⟩] []
      ⟨.sprout ⟨9⟩, 20000, none⟩ _ rfl rfl rfl⟩

/-! ## Errors of the resolver and of input selection -/

/-- C21: for a payment to a unified address for which neither the Orchard nor the Sapling
receiver qualifies, under a strategy that does not allow revealed recipients, the error is
`TransparentReceiverNotAllowed` if the strategy allows revealed amounts and
`RevealingReceiverAmountsNotAllowed` otherwise, whatever transparent receivers the address
has. -/
theorem C21_unified_error_without_revealed_recipients (strategy : TransactionStrategy)
    (cro : Bool) (st : ResolverState) (ua : UnifiedAddress) (amount : CAmount)
    (memo : Option Memo)
    (horch : (ua.orchardReceiver.isSome && cro
      && (strategy.AllowRevealedAmounts || decide (amount ≤ st.maxOrchardAvailable))) = false)
    (hsap : (ua.saplingReceiver.isSome
      && (strategy.AllowRevealedAmounts || decide (amount ≤ st.maxSaplingAvailable))) = false)
    (harr : strategy.AllowRevealedRecipients = false) :
    resolvePayment strategy cro st ⟨.unified ua, amount, memo⟩
      = .error (if strategy.AllowRevealedAmounts = true
          then AddressResolutionError.TransparentReceiverNotAllowed
          else AddressResolutionError.RevealingReceiverAmountsNotAllowed) := by
  have h1 : orchardReceiverFor strategy cro st ⟨.unified ua, amount, memo⟩ ua = none := by
    rw [orchardReceiverFor_eq]
    simp only [horch, Bool.false_eq_true, if_false]
  have h2 : saplingReceiverFor strategy st ⟨.unified ua, amount, memo⟩ ua = none := by
    rw [saplingReceiverFor_eq]
    simp only [hsap, Bool.false_eq_true, if_false]
  unfold resolvePayment
  simp only [h1, h2, harr, Bool.false_eq_true, if_false]
  cases strategy.AllowRevealedAmounts <;> rfl

/-- C21, witness: under `FullPrivacy`, with no Orchard funds and 10 zatoshi of Sapling funds,
a payment of 50 to a unified address with all four receivers fails with
`RevealingReceiverAmountsNotAllowed`. -/
theorem C21_unified_error_witness :
    TransactionStrategy.AllowRevealedRecipients ⟨.FullPrivacy⟩ = false ∧
    resolvePayment ⟨.FullPrivacy⟩ true ⟨10, 0, 0, []⟩
        ⟨.unified ⟨some ⟨5⟩, some ⟨6⟩, some ⟨7⟩, some ⟨8⟩⟩, 50, none⟩
      = .error (if TransactionStrategy.AllowRevealedAmounts ⟨.FullPrivacy⟩ = true
          then AddressResolutionError.TransparentReceiverNotAllowed
          else AddressResolutionError.RevealingReceiverAmountsNotAllowed) :=
  ⟨by decide, C21_unified_error_without_revealed_recipients ⟨.FullPrivacy⟩ true
    ⟨10, 0, 0, []⟩ ⟨some ⟨5⟩, some ⟨6⟩, some ⟨7⟩, some ⟨8⟩⟩ 50 none
    (by decide) (by decide) (by decide)⟩

/-- C22: when all payments resolve, the count of Orchard outputs is within the limit and
`LimitToAmount` returns `false`, `ResolveInputsAndPayments` returns `InvalidFundsError` with
the total of the spendable set as `available`; the reason is `DustThresholdError(dustThreshold,
change)` exactly when `0 < change < dustThreshold` for `change = spendable.Total() -
targetAmount`, and `InsufficientFundsError(targetAmount)` otherwise, in particular whenever
the total is below the target; a limiter honouring its contract has left the set untouched. -/
theorem C22_invalid_funds {b : WalletTxBuilder} {wallet : CWallet}
    {selector : ZTXOSelector} {spendable sp1 : SpendableInputs} {payments : List Payment}
    {chain : CChain} {strategy : TransactionStrategy} {fee : CAmount} {anchorHeight : Int}
    {st : ResolverState}
    (hloop : resolvePayments strategy
      (canResolveOrchardOf b spendable payments fee anchorHeight) payments
      (initialResolverState spendable) = .ok st)
    (hcount : st.orchardOutputs ≤ b.maxOrchardActions)
    (hlim : b.LimitToAmount spendable (targetAmountOf payments fee) b.DefaultDustThreshold
      (Payments.GetRecipientPools ⟨st.resolvedPayments⟩) = (false, sp1)) :
    b.ResolveInputsAndPayments wallet selector spendable payments chain strategy fee
        anchorHeight
      = (.error (.InvalidFunds sp1.Total
          (if 0 < sp1.Total - targetAmountOf payments fee
              ∧ sp1.Total - targetAmountOf payments fee < b.DefaultDustThreshold
           then .DustThresholdError b.DefaultDustThreshold
              (sp1.Total - targetAmountOf payments fee)
           else .InsufficientFundsError (targetAmountOf payments fee))), sp1) ∧
    (sp1.Total < targetAmountOf payments fee →
      b.ResolveInputsAndPayments wallet selector spendable payments chain strategy fee
          anchorHeight
        = (.error (.InvalidFunds sp1.Total
            (.InsufficientFundsError (targetAmountOf payments fee))), sp1)) ∧
    (LimitToAmountSound b → sp1 = spendable) := by
  have hmain : b.ResolveInputsAndPayments wallet selector spendable payments chain strategy
        fee anchorHeight
      = (.error (.InvalidFunds sp1.Total
          (if 0 < sp1.Total - targetAmountOf payments fee
              ∧ sp1.Total - targetAmountOf payments fee < b.DefaultDustThreshold
           then .DustThresholdError b.DefaultDustThreshold
              (sp1.Total - targetAmountOf payments fee)
           else .InsufficientFundsError (targetAmountOf payments fee))), sp1) := by
    unfold canResolveOrchardOf targetAmountOf initialResolverState at hloop
    unfold targetAmountOf at hlim
    unfold WalletTxBuilder.ResolveInputsAndPayments targetAmountOf
    simp only [hloop, hlim, Nat.not_lt.2 hcount, if_false, Bool.not_false, if_true, gt_iff_lt]
  refine ⟨hmain, ?_, fun hsound => ((hsound _ _ _ _ _ _ hlim).2 rfl)⟩
  intro hlt
  rw [hmain]
  have hneg : ¬ (0 < sp1.Total - targetAmountOf payments fee
      ∧ sp1.Total - targetAmountOf payments fee < b.DefaultDustThreshold) := by
    intro hc
    linarith [hc.1]
  simp only [hneg, if_false]

/-- C22, witness: in the scenario `dust change` a payment of 100000000 with fee 990 would
leave 10 zatoshi of change, below the dust threshold of 54: the limiter returns `false` and
the error is `InvalidFundsError` with `DustThresholdError(54, 10)`. -/
theorem C22_invalid_funds_witness :
    (builderWith 50).LimitToAmount spendableDust
        (targetAmountOf [⟨.sapling ⟨1⟩, 100000000, none⟩] 990)
        (builderWith 50).DefaultDustThreshold {OutputPool.Sapling}
      = (false, spendableDust) ∧
    (builderWith 50).ResolveInputsAndPayments exampleWallet ⟨.saplingAddress ⟨600⟩⟩
        spendableDust [⟨.sapling ⟨1⟩, 100000000, none⟩] exampleChain ⟨.FullPrivacy⟩ 990
        1999991
      = (.error (.InvalidFunds 100001000 (.DustThresholdError 54 10)), spendableDust) :=
  ⟨rfl, (C22_invalid_funds
    (show resolvePayments ⟨.FullPrivacy⟩
        (canResolveOrchardOf (builderWith 50) spendableDust
          [⟨.sapling ⟨1⟩, 100000000, none⟩] 990 1999991)
        [⟨.sapling ⟨1⟩, 100000000, none⟩] (initialResolverState spendableDust)
      = .ok ⟨1000, 0, 0, [⟨none, .sapling ⟨1⟩, 100000000, none, false⟩]⟩ from rfl)
    (show (0 : Nat) ≤ (builderWith 50).maxOrchardActions from by decide)
    (show (builderWith 50).LimitToAmount spendableDust
        (targetAmountOf [⟨.sapling ⟨1⟩, 100000000, none⟩] 990)
        (builderWith 50).DefaultDustThreshold
        (Payments.GetRecipientPools ⟨[⟨none, .sapling ⟨1⟩, 100000000, none, false⟩]⟩)
      = (false, spendableDust) from rfl)).1⟩

/-- C23, as amended: when payment resolution and input limiting succeed, the selected inputs
include a transparent coinbase output and some resolved payment is transparent,
`ResolveInputsAndPayments` fails: with `TransparentRecipientNotAllowed` if the selected total
equals the target amount, and with `ChangeNotAllowedError`, checked first, if it does not. -/
theorem C23_coinbase_with_transparent_recipient {b : WalletTxBuilder} {wallet : CWallet}
    {selector : ZTXOSelector} {spendable sp1 : SpendableInputs} {payments : List Payment}
    {chain : CChain} {strategy : TransactionStrategy} {fee : CAmount} {anchorHeight : Int}
    {st : ResolverState}
    (hloop : resolvePayments strategy
      (canResolveOrchardOf b spendable payments fee anchorHeight) payments
      (initialResolverState spendable) = .ok st)
    (hcount : st.orchardOutputs ≤ b.maxOrchardActions)
    (hlim : b.LimitToAmount spendable (targetAmountOf payments fee) b.DefaultDustThreshold
      (Payments.GetRecipientPools ⟨st.resolvedPayments⟩) = (true, sp1))
    (hcb : sp1.HasTransparentCoinbase = true)
    (htr : Payments.HasTransparentRecipient ⟨st.resolvedPayments⟩ = true) :
    (sp1.Total = targetAmountOf payments fee →
      b.ResolveInputsAndPayments wallet selector spendable payments chain strategy fee
          anchorHeight
        = (.error (.AddressResolution .TransparentRecipientNotAllowed), sp1)) ∧
    (sp1.Total ≠ targetAmountOf payments fee →
      b.ResolveInputsAndPayments wallet selector spendable payments chain strategy fee
          anchorHeight
        = (.error (.ChangeNotAllowed sp1.Total (targetAmountOf payments fee)), sp1)) := by
  unfold canResolveOrchardOf targetAmountOf initialResolverState at hloop
  unfold targetAmountOf at hlim
  unfold WalletTxBuilder.ResolveInputsAndPayments targetAmountOf
  constructor
  · intro heq
    simp only [hloop, hlim, Nat.not_lt.2 hcount, if_false, Bool.not_true, hcb, htr, heq,
      Bool.true_and, ne_eq, not_true_eq_false, decide_False, Bool.false_eq_true, if_true,
      gt_iff_lt]
  · intro hne
    simp only [hloop, hlim, Nat.not_lt.2 hcount, if_false, Bool.not_true, hcb,
      Bool.true_and, ne_eq, hne, not_false_eq_true, decide_True, if_true,
      Bool.false_eq_true, gt_iff_lt]

/-- C23, witness: in the scenario `coinbase with a transparent recipient`, a payment of
499990000 to a P2PKH address with fee 10000 consumes the coinbase output of 500000000 fully,
and the error is `TransparentRecipientNotAllowed`. -/
theorem C23_coinbase_witness :
    SpendableInputs.HasTransparentCoinbase spendableCoinbase = true ∧
    spendableCoinbase.Total = targetAmountOf [⟨.p2pkh ⟨5⟩, 499990000, none⟩] 10000 ∧
    (builderWith 50).ResolveInputsAndPayments exampleWallet ⟨.keyId ⟨700⟩⟩
        spendableCoinbase [⟨.p2pkh ⟨5⟩, 499990000, none⟩] exampleChain ⟨.NoPrivacy⟩ 10000
        1999991
      = (.error (.AddressResolution .TransparentRecipientNotAllowed), spendableCoinbase) :=
  ⟨rfl, by decide, (C23_coinbase_with_transparent_recipient
    (show resolvePayments ⟨.NoPrivacy⟩
        (canResolveOrchardOf (builderWith 50) spendableCoinbase
          [⟨.p2pkh ⟨5⟩, 499990000, none⟩] 10000 1999991)
        [⟨.p2pkh ⟨5⟩, 499990000, none⟩] (initialResolverState spendableCoinbase)
      = .ok ⟨0, 0, 0, [⟨none, .p2pkh ⟨5⟩, 499990000, none, false⟩]⟩ from rfl)
    (show (0 : Nat) ≤ (builderWith 50).maxOrchardActions from by decide)
    (show (builderWith 50).LimitToAmount spendableCoinbase
        (targetAmountOf [⟨.p2pkh ⟨5⟩, 499990000, none⟩] 10000)
        (builderWith 50).DefaultDustThreshold
        (Payments.GetRecipientPools ⟨[⟨none, .p2pkh ⟨5⟩, 499990000, none, false⟩]⟩)
      = (true, spendableCoinbase) from rfl)
    rfl rfl).1 (by decide)⟩

/-- C23, counterexample: with the coinbase output of 500000000 selected and a payment of
100000000 to a P2PKH address (fee 10000), payment resolution and input limiting succeed, a
resolved payment is transparent, and `ResolveInputsAndPayments` fails with
`ChangeNotAllowedError(500000000, 100010000)`, not with `TransparentRecipientNotAllowed`. -/
theorem C23_counterexample_change_not_allowed :
    resolvePayments ⟨.NoPrivacy⟩
        (canResolveOrchardOf (builderWith 50) spendableCoinbase
          [⟨.p2pkh ⟨5⟩, 100000000, none⟩] 10000 1999991)
        [⟨.p2pkh ⟨5⟩, 100000000, none⟩] (initialResolverState spendableCoinbase)
      = .ok ⟨0, 0, 0, [⟨none, .p2pkh ⟨5⟩, 100000000, none, false⟩]⟩ ∧
    (builderWith 50).LimitToAmount spendableCoinbase
        (targetAmountOf [⟨.p2pkh ⟨5⟩, 100000000, none⟩] 10000)
        (builderWith 50).DefaultDustThreshold {OutputPool.Transparent}
      = (true, spendableCoinbase) ∧
    SpendableInputs.HasTransparentCoinbase spendableCoinbase = true ∧
    Payments.HasTransparentRecipient ⟨[⟨none, .p2pkh ⟨5⟩, 100000000, none, false⟩]⟩ = true ∧
    (builderWith 50).ResolveInputsAndPayments exampleWallet ⟨.keyId ⟨700⟩⟩
        spendableCoinbase [⟨.p2pkh ⟨5⟩, 100000000, none⟩] exampleChain ⟨.NoPrivacy⟩ 10000
        1999991
      = (.error (.ChangeNotAllowed 500000000 100010000), spendableCoinbase) ∧
    ¬ ((builderWith 50).ResolveInputsAndPayments exampleWallet ⟨.keyId ⟨700⟩⟩
        spendableCoinbase [⟨.p2pkh ⟨5⟩, 100000000, none⟩] exampleChain ⟨.NoPrivacy⟩ 10000
        1999991
      = (.error (.AddressResolution .TransparentRecipientNotAllowed), spendableCoinbase)) :=
  ⟨rfl, rfl, rfl, rfl, rfl, by decide⟩

/-! ## The change of a plan -/

/-- The run of the scenario `Sapling selector, Orchard recipient`. -/
theorem planSaplingSelectorOrchardChange_returned :
    ReturnsPlan (builderWith 50) exampleWallet ⟨.saplingAddress ⟨600⟩⟩
      ⟨[], [], [saplingNote 2 200000], []⟩
      [⟨.unified ⟨some ⟨5⟩, none, none, none⟩, 100000, none⟩] exampleChain
      ⟨.AllowRevealedAmounts⟩ 10000 10 planSaplingSelectorOrchardChange :=
  ⟨⟨.effects planSaplingSelectorOrchardChange,
    planSaplingSelectorOrchardChange.LockSpendable exampleWallet,
    planSaplingSelectorOrchardChange.spendable⟩, rfl, rfl⟩

/-- How a returned plan got its change: with positive change amount, the change address and
the payments of the plan are what `selectChangeAddress` returned. -/
theorem prepare_change {b : WalletTxBuilder} {wallet : CWallet} {selector : ZTXOSelector}
    {spendable : SpendableInputs} {payments : List Payment} {chain : CChain}
    {strategy : TransactionStrategy} {fee : CAmount} {anchorConfirmations : Nat}
    {t : TransactionEffects}
    (h : ReturnsPlan b wallet selector spendable payments chain strategy fee
      anchorConfirmations t) :
    ∃ sel, b.ResolveInputsAndPayments wallet selector spendable payments chain strategy fee
        (GetAnchorHeight chain anchorConfirmations) = (.selection sel, t.spendable) ∧
      (0 < t.spendable.Total - sel.payments.Total - fee →
        ∃ ca, selectChangeAddress wallet selector sel.payments
            (t.spendable.Total - sel.payments.Total - fee)
            ((wallet.FindAccountForSelector selector).getD b.ZCASH_LEGACY_ACCOUNT)
            b.ZCASH_LEGACY_ACCOUNT
            (getAllowedChangePools b strategy t.spendable sel.payments
              ((wallet.FindAccountForSelector selector).getD b.ZCASH_LEGACY_ACCOUNT)
              (GetAnchorHeight chain anchorConfirmations)) = .ok (ca, t.payments) ∧
          t.changeAddr = some ca) ∧
      (¬ 0 < t.spendable.Total - sel.payments.Total - fee →
        t.changeAddr = none ∧ t.payments = sel.payments) := by
  obtain ⟨out, h, ht⟩ := h
  unfold WalletTxBuilder.PrepareTransaction at h
  split at h
  · simp at h
  · simp only at h
    split at h
    · simp only [Outcome.ok.injEq] at h
      subst h
      simp at ht
    · rename_i sel hsel
      split at h
      · simp at h
      · simp at h
      · rename_i changeAddr ps hchange
        split at h
        · simp at h
        · simp at h
        · rename_i ovks hovks
          simp only [Outcome.ok.injEq] at h
          subst h
          simp only [PrepareTransactionResult.effects.injEq] at ht
          subst ht
          refine ⟨sel, Prod.ext hsel rfl, ?_, ?_⟩
          · intro hpos
            simp only [InputSelection.GetPayments] at hchange hpos ⊢
            rw [if_pos hpos] at hchange
            split at hchange
            · rename_i ca ps1 hsca
              simp only [Outcome.ok.injEq, Prod.mk.injEq] at hchange
              obtain ⟨h1, h2⟩ := hchange
              subst h1 h2
              exact ⟨ca, hsca, rfl⟩
            · simp at hchange
            · simp at hchange
          · intro hneg
            simp only [InputSelection.GetPayments] at hchange hneg ⊢
            rw [if_neg hneg] at hchange
            simp only [Outcome.ok.injEq, Prod.mk.injEq] at hchange
            obtain ⟨h1, h2⟩ := hchange
            subst h1 h2
            exact ⟨rfl, rfl⟩

/-- C24: in every plan returned by `PrepareTransaction`, the payments returned by
`ResolveInputsAndPayments` all have `isInternal = false`; if `changeAmount =
spendable.Total() - resolvedPayments.Total() - fee` is not positive, no change address is set
and the payments of the plan are exactly those; if it is positive and the selector is not a
Sprout selector, the payments of the plan are those followed by exactly one more payment,
with `isInternal = true`, no memo, no unified address, amount `changeAmount` and the plan's
change address as receiver. -/
theorem C24_change_payment {b : WalletTxBuilder} {wallet : CWallet}
    {selector : ZTXOSelector} {spendable : SpendableInputs} {payments : List Payment}
    {chain : CChain} {strategy : TransactionStrategy} {fee : CAmount}
    {anchorConfirmations : Nat} {t : TransactionEffects}
    (h : ReturnsPlan b wallet selector spendable payments chain strategy fee
      anchorConfirmations t) :
    ∃ sel, b.ResolveInputsAndPayments wallet selector spendable payments chain strategy fee
        (GetAnchorHeight chain anchorConfirmations) = (.selection sel, t.spendable) ∧
      (∀ rp ∈ sel.payments.payments, rp.isInternal = false) ∧
      (t.spendable.Total - sel.payments.Total - fee ≤ 0 →
        t.changeAddr = none ∧ t.payments = sel.payments) ∧
      (0 < t.spendable.Total - sel.payments.Total - fee → selector.isSprout = false →
        ∃ addr, t.changeAddr = some (.recipient addr) ∧
          t.payments.payments = sel.payments.payments ++
            [⟨none, addr, t.spendable.Total - sel.payments.Total - fee, none, true⟩]) := by
  obtain ⟨out, hout, hres⟩ := h
  obtain ⟨sel, hsel, -, -, -, hshape⟩ := prepare_effects hout hres
  obtain ⟨st, hst, hseleq, -⟩ := resolveInputs_selection hsel
  obtain ⟨rps, hrps, hall⟩ := resolvePayments_ok payments hst
  simp only [List.nil_append] at hrps
  refine ⟨sel, hsel, ?_, ?_, ?_⟩
  · intro rp hrp
    rw [hseleq, hrps] at hrp
    obtain ⟨p, -, hfrom⟩ := forall2_resolved_mem hall hrp
    exact hfrom.2.1
  · intro hle
    rcases hshape with ⟨-, h1, h2⟩ | ⟨hpos, -⟩ | ⟨hpos, -⟩
    · exact ⟨h1, h2⟩
    · exact absurd hpos (not_lt.2 hle)
    · exact absurd hpos (not_lt.2 hle)
  · intro hpos hns
    rcases hshape with ⟨hle, -⟩ | ⟨-, hs, -⟩ | ⟨-, -, addr, h1, h2⟩
    · exact absurd hpos (not_lt.2 hle)
    · rw [hns] at hs; exact absurd hs (by decide)
    · exact ⟨addr, h1, by rw [h2]; rfl⟩

/-- C24, witness: in the scenario `Sapling payment needing a UTXO` the change of 20000 is
the one payment appended, internal, without memo, to the plan's change address. -/
theorem C24_change_payment_witness :
    ∃ sel, (builderWith 50).ResolveInputsAndPayments exampleWallet
        ⟨.account ⟨0, [.P2PKH, .Sapling]⟩⟩
        ⟨[utxo 1 30000 false], [], [saplingNote 2 50000], []⟩
        [⟨.sapling ⟨1⟩, 50000, none⟩] exampleChain ⟨.FullPrivacy⟩ 10000
        (GetAnchorHeight exampleChain 10) = (.selection sel, planSaplingWithUtxo.spendable) ∧
      (∀ rp ∈ sel.payments.payments, rp.isInternal = false) ∧
      (planSaplingWithUtxo.spendable.Total - sel.payments.Total - 10000 ≤ 0 →
        planSaplingWithUtxo.changeAddr = none ∧ planSaplingWithUtxo.payments = sel.payments) ∧
      (0 < planSaplingWithUtxo.spendable.Total - sel.payments.Total - 10000 →
        ZTXOSelector.isSprout ⟨.account ⟨0, [.P2PKH, .Sapling]⟩⟩ = false →
        ∃ addr, planSaplingWithUtxo.changeAddr = some (.recipient addr) ∧
          planSaplingWithUtxo.payments.payments = sel.payments.payments ++
            [⟨none, addr, planSaplingWithUtxo.spendable.Total - sel.payments.Total - 10000,
              none, true⟩]) :=
  C24_change_payment planSaplingWithUtxo_returned


/-- The loop of `getAllowedChangePools` adds, for every receiver type, the pools of
`changePoolsOfReceiverType`. -/
theorem changePools_foldl_mem (b : WalletTxBuilder) (strategy : TransactionStrategy)
    (spendable : SpendableInputs) (anchorHeight : Int) (x : OutputPool)
    (receiverTypes : List ReceiverType) (init : Finset OutputPool) :
    x ∈ receiverTypes.foldl (fun result rtype =>
      match rtype with
      | .P2PKH =>
        if !spendable.utxos.isEmpty || strategy.AllowRevealedRecipients
        then insert OutputPool.Transparent result else result
      | .P2SH =>
        if !spendable.utxos.isEmpty || strategy.AllowRevealedRecipients
        then insert OutputPool.Transparent result else result
      | .Sapling =>
        if !spendable.saplingNoteEntries.isEmpty || strategy.AllowRevealedAmounts
        then insert OutputPool.Sapling result else result
      | .Orchard =>
        if b.nu5Active anchorHeight
            && (!spendable.orchardNoteMetadata.isEmpty || strategy.AllowRevealedAmounts)
        then insert OutputPool.Orchard result else result) init ↔
    x ∈ init ∨
      ∃ r ∈ receiverTypes, x ∈ changePoolsOfReceiverType b strategy spendable anchorHeight r := by
  induction receiverTypes generalizing init with
  | nil => simp
  | cons r rest ih =>
    rw [List.foldl_cons, ih]
    simp only [List.mem_cons, exists_eq_or_imp]
    cases r <;> simp only [changePoolsOfReceiverType] <;> split_ifs <;>
      simp only [Finset.mem_insert, Finset.mem_singleton, Finset.not_mem_empty, false_or] <;>
      tauto

/-- Membership in the allowed change pools. -/
theorem getAllowedChangePools_mem (b : WalletTxBuilder) (strategy : TransactionStrategy)
    (spendable : SpendableInputs) (resolvedPayments : Payments) (sendFromAccount : AccountId)
    (anchorHeight : Int) (receiverTypes : List ReceiverType) (x : OutputPool) :
    x ∈ getAllowedChangePools b strategy spendable resolvedPayments sendFromAccount
        anchorHeight receiverTypes ↔
      x ∈ resolvedPayments.GetRecipientPools ∨
      (sendFromAccount ≠ b.ZCASH_LEGACY_ACCOUNT ∧ x = OutputPool.Sapling) ∨
      ∃ r ∈ receiverTypes, x ∈ changePoolsOfReceiverType b strategy spendable anchorHeight r := by
  unfold getAllowedChangePools
  refine (changePools_foldl_mem b strategy spendable anchorHeight x receiverTypes _).trans ?_
  split_ifs with h
  · simp only [Finset.mem_insert]
    tauto
  · tauto

/-- A property holds of some receiver type of a list iff it holds of one of the four
receiver types that is in the list. -/
theorem exists_receiverType_mem (l : List ReceiverType) (P : ReceiverType → Prop) :
    (∃ r ∈ l, P r) ↔
      (ReceiverType.P2PKH ∈ l ∧ P .P2PKH) ∨ (ReceiverType.P2SH ∈ l ∧ P .P2SH) ∨
      (ReceiverType.Sapling ∈ l ∧ P .Sapling) ∨ (ReceiverType.Orchard ∈ l ∧ P .Orchard) := by
  constructor
  · rintro ⟨r, hr, hp⟩
    cases r
    · exact Or.inl ⟨hr, hp⟩
    · exact Or.inr (Or.inl ⟨hr, hp⟩)
    · exact Or.inr (Or.inr (Or.inl ⟨hr, hp⟩))
    · exact Or.inr (Or.inr (Or.inr ⟨hr, hp⟩))
  · rintro (⟨h, hp⟩ | ⟨h, hp⟩ | ⟨h, hp⟩ | ⟨h, hp⟩)
    exacts [⟨_, h, hp⟩, ⟨_, h, hp⟩, ⟨_, h, hp⟩, ⟨_, h, hp⟩]

/-- C25: the allowed change pools computed for a list of receiver types are exactly the
recipient pools of the resolved payments, plus Sapling if the sending account is not the
legacy account, plus Transparent if P2PKH or P2SH is among the receiver types and (UTXOs are
selected or `AllowRevealedRecipients`), plus Sapling if Sapling is among the receiver types
and (Sapling notes are selected or `AllowRevealedAmounts`), plus Orchard if Orchard is among
the receiver types, NU5 is active at the anchor height and (Orchard notes are selected or
`AllowRevealedAmounts`). -/
theorem C25_allowed_change_pools (b : WalletTxBuilder) (strategy : TransactionStrategy)
    (spendable : SpendableInputs) (resolvedPayments : Payments) (sendFromAccount : AccountId)
    (anchorHeight : Int) (receiverTypes : List ReceiverType) :
    getAllowedChangePools b strategy spendable resolvedPayments sendFromAccount anchorHeight
        receiverTypes =
      allowedChangePoolsReference b strategy spendable resolvedPayments sendFromAccount
        anchorHeight receiverTypes := by
  ext x
  rw [getAllowedChangePools_mem, exists_receiverType_mem]
  unfold allowedChangePoolsReference
  simp only [Finset.mem_union, changePoolsOfReceiverType]
  have hu : (!spendable.utxos.isEmpty || strategy.AllowRevealedRecipients) = true ↔
      (spendable.utxos ≠ [] ∨ strategy.AllowRevealedRecipients = true) := by
    cases spendable.utxos <;> simp
  have hs : (!spendable.saplingNoteEntries.isEmpty || strategy.AllowRevealedAmounts) = true ↔
      (spendable.saplingNoteEntries ≠ [] ∨ strategy.AllowRevealedAmounts = true) := by
    cases spendable.saplingNoteEntries <;> simp
  have ho : (b.nu5Active anchorHeight
        && (!spendable.orchardNoteMetadata.isEmpty || strategy.AllowRevealedAmounts)) = true ↔
      (b.nu5Active anchorHeight = true ∧
        (spendable.orchardNoteMetadata ≠ [] ∨ strategy.AllowRevealedAmounts = true)) := by
    cases spendable.orchardNoteMetadata <;> simp
  have hm : ∀ (c : Prop) [Decidable c] (a : OutputPool),
      x ∈ (if c then ({a} : Finset OutputPool) else ∅) ↔ c ∧ x = a := by
    intro c _ a
    split_ifs with hc
    · simp [hc]
    · simp [hc]
  simp only [hm, hu, hs, ho]
  constructor
  · rintro (h | ⟨h1, h2⟩ | ⟨h1, h2, h3⟩ | ⟨h1, h2, h3⟩ | ⟨h1, h2, h3⟩ | ⟨h1, ⟨h2, h4⟩, h3⟩)
    · exact Or.inl (Or.inl (Or.inl (Or.inl h)))
    · exact Or.inl (Or.inl (Or.inl (Or.inr ⟨h1, h2⟩)))
    · exact Or.inl (Or.inl (Or.inr ⟨⟨Or.inl h1, h2⟩, h3⟩))
    · exact Or.inl (Or.inl (Or.inr ⟨⟨Or.inr h1, h2⟩, h3⟩))
    · exact Or.inl (Or.inr ⟨⟨h1, h2⟩, h3⟩)
    · exact Or.inr ⟨⟨h1, h2, h4⟩, h3⟩
  · rintro ((((h | ⟨h1, h2⟩) | ⟨⟨h1 | h1, h2⟩, h3⟩) | ⟨⟨h1, h2⟩, h3⟩) | ⟨⟨h1, h2, h4⟩, h3⟩)
    · exact Or.inl h
    · exact Or.inr (Or.inl ⟨h1, h2⟩)
    · exact Or.inr (Or.inr (Or.inl ⟨h1, h2, h3⟩))
    · exact Or.inr (Or.inr (Or.inr (Or.inl ⟨h1, h2, h3⟩)))
    · exact Or.inr (Or.inr (Or.inr (Or.inr (Or.inl ⟨h1, h2, h3⟩))))
    · exact Or.inr (Or.inr (Or.inr (Or.inr (Or.inr ⟨h1, ⟨h2, h4⟩, h3⟩))))


/-- For the receiver types `{Sapling}` and a sending account that is not the legacy account,
the allowed change pools are the recipient pools of the resolved payments and Sapling. -/
theorem getAllowedChangePools_sapling (b : WalletTxBuilder) (strategy : TransactionStrategy)
    (spendable : SpendableInputs) (resolvedPayments : Payments) (sendFromAccount : AccountId)
    (anchorHeight : Int) (hacct : sendFromAccount ≠ b.ZCASH_LEGACY_ACCOUNT) :
    getAllowedChangePools b strategy spendable resolvedPayments sendFromAccount anchorHeight
        [ReceiverType.Sapling] = insert OutputPool.Sapling resolvedPayments.GetRecipientPools := by
  ext x
  rw [getAllowedChangePools_mem]
  simp only [List.mem_singleton, exists_eq_left, changePoolsOfReceiverType, Finset.mem_insert]
  constructor
  · rintro (h | ⟨-, h⟩ | h)
    · exact Or.inr h
    · exact Or.inl h
    · split_ifs at h
      · exact Or.inl (Finset.mem_singleton.1 h)
      · exact absurd h (Finset.not_mem_empty x)
  · rintro (h | h)
    · exact Or.inr (Or.inl ⟨hacct, h⟩)
    · exact Or.inl h

/-- C26 (amended): for a Sapling selector (payment address or extended full viewing key) and
a returned plan with positive change, if the sending account is the legacy account the change
address is the originating Sapling address (the selector's address, or the viewing key's
default address); otherwise the pool set passed to `GenerateChangeAddressForAccount` is the
recipient pools of the resolved payments together with Sapling, and the change address of the
plan is the address the wallet generates for the account and that set. -/
theorem C26_sapling_selector_change {b : WalletTxBuilder} {wallet : CWallet}
    {selector : ZTXOSelector} {spendable : SpendableInputs} {payments : List Payment}
    {chain : CChain} {strategy : TransactionStrategy} {fee : CAmount}
    {anchorConfirmations : Nat} {t : TransactionEffects} (addr : SaplingPaymentAddress)
    (h : ReturnsPlan b wallet selector spendable payments chain strategy fee
      anchorConfirmations t)
    (hsel : selector.pattern = .saplingAddress addr ∨
      ∃ fvk, selector.pattern = .saplingExtendedFullViewingKey fvk ∧ fvk.defaultAddress = addr)
    (hpos : 0 < t.spendable.Total - targetAmountOf payments fee) :
    ∃ sel, b.ResolveInputsAndPayments wallet selector spendable payments chain strategy fee
        (GetAnchorHeight chain anchorConfirmations) = (.selection sel, t.spendable) ∧
      ((wallet.FindAccountForSelector selector).getD b.ZCASH_LEGACY_ACCOUNT
          = b.ZCASH_LEGACY_ACCOUNT →
        t.changeAddr = some (.recipient (.sapling addr))) ∧
      ((wallet.FindAccountForSelector selector).getD b.ZCASH_LEGACY_ACCOUNT
          ≠ b.ZCASH_LEGACY_ACCOUNT →
        getAllowedChangePools b strategy t.spendable sel.payments
            ((wallet.FindAccountForSelector selector).getD b.ZCASH_LEGACY_ACCOUNT)
            (GetAnchorHeight chain anchorConfirmations) [ReceiverType.Sapling]
          = insert OutputPool.Sapling sel.payments.GetRecipientPools ∧
        t.changeAddr = (wallet.GenerateChangeAddressForAccount
            ((wallet.FindAccountForSelector selector).getD b.ZCASH_LEGACY_ACCOUNT)
            (insert OutputPool.Sapling sel.payments.GetRecipientPools)).map
          ChangeAddress.recipient) := by
  obtain ⟨sel, hrip, hchange, -⟩ := prepare_change h
  obtain ⟨st, hst, hseleq, -⟩ := resolveInputs_selection hrip
  obtain ⟨rps, hrps, hall⟩ := resolvePayments_ok payments hst
  simp only [List.nil_append] at hrps
  have htot : sel.payments.Total + fee = targetAmountOf payments fee := by
    rw [hseleq, hrps]
    exact resolved_total_eq fee hall
  have hpos2 : 0 < t.spendable.Total - sel.payments.Total - fee := by linarith
  obtain ⟨ca, hca, hcaeq⟩ := hchange hpos2
  have hform : addChangePayment sel.payments (t.spendable.Total - sel.payments.Total - fee)
      (if (wallet.FindAccountForSelector selector).getD b.ZCASH_LEGACY_ACCOUNT
          = b.ZCASH_LEGACY_ACCOUNT then some (RecipientAddress.sapling addr)
       else wallet.GenerateChangeAddressForAccount
          ((wallet.FindAccountForSelector selector).getD b.ZCASH_LEGACY_ACCOUNT)
          (getAllowedChangePools b strategy t.spendable sel.payments
            ((wallet.FindAccountForSelector selector).getD b.ZCASH_LEGACY_ACCOUNT)
            (GetAnchorHeight chain anchorConfirmations) [ReceiverType.Sapling]))
      = .ok (ca, t.payments) := by
    rcases hsel with hp | ⟨fvk, hp, hfvk⟩
    · simpa only [selectChangeAddress, hp] using hca
    · subst hfvk
      simpa only [selectChangeAddress, hp] using hca
  refine ⟨sel, hrip, ?_, ?_⟩
  · intro hleg
    rw [if_pos hleg] at hform
    simp only [addChangePayment, Outcome.ok.injEq, Prod.mk.injEq] at hform
    rw [hcaeq, ← hform.1]
  · intro hleg
    have hpools := getAllowedChangePools_sapling b strategy t.spendable sel.payments _
      (GetAnchorHeight chain anchorConfirmations) hleg
    refine ⟨hpools, ?_⟩
    rw [if_neg hleg, hpools] at hform
    cases hgen : wallet.GenerateChangeAddressForAccount
        ((wallet.FindAccountForSelector selector).getD b.ZCASH_LEGACY_ACCOUNT)
        (insert OutputPool.Sapling sel.payments.GetRecipientPools) with
    | none =>
      rw [hgen] at hform
      simp [addChangePayment] at hform
    | some a =>
      rw [hgen] at hform
      simp only [addChangePayment, Outcome.ok.injEq, Prod.mk.injEq] at hform
      rw [hcaeq, ← hform.1]
      rfl

/-- C26, witness: in the scenario `Sapling selector, Orchard recipient` the sending account
is account 0, the pools passed to the wallet are the recipient pool Orchard and Sapling, and
the change address is the one the wallet generates for them. -/
theorem C26_sapling_selector_change_witness :
    (0 : CAmount) < planSaplingSelectorOrchardChange.spendable.Total - targetAmountOf
        [⟨.unified ⟨some ⟨5⟩, none, none, none⟩, 100000, none⟩] 10000 ∧
    ∃ sel, (builderWith 50).ResolveInputsAndPayments exampleWallet ⟨.saplingAddress ⟨600⟩⟩
        ⟨[], [], [saplingNote 2 200000], []⟩
        [⟨.unified ⟨some ⟨5⟩, none, none, none⟩, 100000, none⟩] exampleChain
        ⟨.AllowRevealedAmounts⟩ 10000 (GetAnchorHeight exampleChain 10)
          = (.selection sel, planSaplingSelectorOrchardChange.spendable) ∧
      ((exampleWallet.FindAccountForSelector ⟨.saplingAddress ⟨600⟩⟩).getD
          (builderWith 50).ZCASH_LEGACY_ACCOUNT = (builderWith 50).ZCASH_LEGACY_ACCOUNT →
        planSaplingSelectorOrchardChange.changeAddr
          = some (.recipient (.sapling ⟨600⟩))) ∧
      ((exampleWallet.FindAccountForSelector ⟨.saplingAddress ⟨600⟩⟩).getD
          (builderWith 50).ZCASH_LEGACY_ACCOUNT ≠ (builderWith 50).ZCASH_LEGACY_ACCOUNT →
        getAllowedChangePools (builderWith 50) ⟨.AllowRevealedAmounts⟩
            planSaplingSelectorOrchardChange.spendable sel.payments
            ((exampleWallet.FindAccountForSelector ⟨.saplingAddress ⟨600⟩⟩).getD
              (builderWith 50).ZCASH_LEGACY_ACCOUNT)
            (GetAnchorHeight exampleChain 10) [ReceiverType.Sapling]
          = insert OutputPool.Sapling sel.payments.GetRecipientPools ∧
        planSaplingSelectorOrchardChange.changeAddr
          = (exampleWallet.GenerateChangeAddressForAccount
            ((exampleWallet.FindAccountForSelector ⟨.saplingAddress ⟨600⟩⟩).getD
              (builderWith 50).ZCASH_LEGACY_ACCOUNT)
            (insert OutputPool.Sapling sel.payments.GetRecipientPools)).map
          ChangeAddress.recipient) :=
  ⟨by decide,
    C26_sapling_selector_change ⟨600⟩ planSaplingSelectorOrchardChange_returned
      (Or.inl rfl) (by decide)⟩

/-- C26, counterexample: for the Sapling-address selector of the scenario `Sapling selector,
Orchard recipient` (account 0, not the legacy account, positive change 90000) the pool set
computed for the receiver types `{Sapling}` is `{Orchard, Sapling}`, not `{Sapling}`, and the
returned plan sends the change to the Orchard address the wallet generates for that set,
whereas for `{Sapling}` the wallet generates the Sapling address 901. -/
theorem C26_counterexample_pools_not_sapling_only :
    ReturnsPlan (builderWith 50) exampleWallet ⟨.saplingAddress ⟨600⟩⟩
      ⟨[], [], [saplingNote 2 200000], []⟩
      [⟨.unified ⟨some ⟨5⟩, none, none, none⟩, 100000, none⟩] exampleChain
      ⟨.AllowRevealedAmounts⟩ 10000 10 planSaplingSelectorOrchardChange ∧
    (exampleWallet.FindAccountForSelector ⟨.saplingAddress ⟨600⟩⟩).getD
      (builderWith 50).ZCASH_LEGACY_ACCOUNT ≠ (builderWith 50).ZCASH_LEGACY_ACCOUNT ∧
    getAllowedChangePools (builderWith 50) ⟨.AllowRevealedAmounts⟩
        ⟨[], [], [saplingNote 2 200000], []⟩
        ⟨[⟨some ⟨some ⟨5⟩, none, none, none⟩, .orchard ⟨5⟩, 100000, none, false⟩]⟩ 0
        (GetAnchorHeight exampleChain 10) [ReceiverType.Sapling]
      = {OutputPool.Orchard, OutputPool.Sapling} ∧
    ({OutputPool.Orchard, OutputPool.Sapling} : Finset OutputPool) ≠ {OutputPool.Sapling} ∧
    planSaplingSelectorOrchardChange.changeAddr = some (.recipient (.orchard ⟨900⟩)) ∧
    exampleWallet.GenerateChangeAddressForAccount 0 {OutputPool.Sapling}
      = some (.sapling ⟨901⟩) :=
  ⟨planSaplingSelectorOrchardChange_returned, by decide, by decide, by decide, rfl, rfl⟩


/-! ## The Orchard anchor and the calls on the builder -/

/-- A step followed by a continuation keeps the calls made so far. -/
theorem stepExtends_bind {α β : Type} {p : List BuilderOp} {f : α → BuildState}
    {g : β → BuildState} {x : BuildStep α} {k : α → BuildStep β}
    (hx : StepExtends p f x) (hk : ∀ a, p <+: (f a).ops → StepExtends p g (k a)) :
    StepExtends p g (x >>= k) := by
  cases x with
  | error r => exact hx
  | ok a => exact hk a hx

/-- A call on the builder keeps the calls made so far. -/
theorem call_extends (m : BuilderModel) {p : List BuilderOp} {st : BuildState}
    (op : BuilderOp) (h : p <+: st.ops) : StepExtends p id (m.call st op) := by
  unfold BuilderModel.call
  split_ifs
  · exact h.trans (List.prefix_append _ _)
  · exact h.trans (List.prefix_append _ _)

/-- The loop collecting the Sapling keys makes no call. -/
theorem collectSaplingKeys_extends (wallet : CWallet) {p : List BuilderOp}
    (l : List SaplingNoteEntry) (keys : List SaplingExtendedSpendingKey) (st : BuildState)
    (h : p <+: st.ops) : StepExtends p Prod.snd (collectSaplingKeys wallet l keys st) := by
  induction l generalizing keys st with
  | nil => exact h
  | cons t rest ih =>
    unfold collectSaplingKeys
    split
    · exact h
    · exact ih _ _ h

/-- The loop adding the Orchard spends keeps the calls made so far. -/
theorem addOrchardSpends_extends (m : BuilderModel) {p : List BuilderOp}
    (l : List (Nat × OrchardSpendInfo)) (st : BuildState) (h : p <+: st.ops) :
    StepExtends p id (addOrchardSpends m l st) := by
  induction l generalizing st with
  | nil => exact h
  | cons s rest ih =>
    unfold addOrchardSpends
    have hc := call_extends m (.AddOrchardSpend s.1 s.2) h
    split
    · rename_i r hr
      rw [hr] at hc
      exact hc
    · rename_i st1 hst1
      rw [hst1] at hc
      split_ifs
      · exact hc
      · exact ih _ hc

/-- The loop adding the Sapling spends keeps the calls made so far. -/
theorem addSaplingSpends_extends (m : BuilderModel) (anchor : uint256)
    (witnesses : List (Option Nat)) {p : List BuilderOp}
    (l : List (SaplingNoteEntry × SaplingExtendedSpendingKey)) (i : Nat) (st : BuildState)
    (h : p <+: st.ops) : StepExtends p id (addSaplingSpends m anchor witnesses l i st) := by
  induction l generalizing i st with
  | nil => exact h
  | cons s rest ih =>
    obtain ⟨note, key⟩ := s
    unfold addSaplingSpends
    split
    · exact h
    · rename_i witness _
      have hc := call_extends m (.AddSaplingSpend key.id note anchor witness) h
      split
      · rename_i r hr
        rw [hr] at hc
        exact hc
      · rename_i st1 hst1
        rw [hst1] at hc
        exact ih _ _ hc

/-- The loop adding the outputs keeps the calls made so far. -/
theorem addOutputs_extends (m : BuilderModel) (internalOVK externalOVK : uint256)
    {p : List BuilderOp} (l : List ResolvedPayment) (st : BuildState) (h : p <+: st.ops) :
    StepExtends p id (addOutputs m internalOVK externalOVK l st) := by
  induction l generalizing st with
  | nil => exact h
  | cons r rest ih =>
    unfold addOutputs
    simp only
    have hstep : StepExtends p id
        (match r.address with
        | .p2pkh keyId =>
          if r.memo.isSome then .error (st.ops, .ok (.error .MemoToTransparentAddress))
          else m.call st (.AddTransparentOutput (.p2pkh keyId) r.amount)
        | .p2sh scriptId =>
          if r.memo.isSome then .error (st.ops, .ok (.error .MemoToTransparentAddress))
          else m.call st (.AddTransparentOutput (.p2sh scriptId) r.amount)
        | .sapling addr =>
          m.call st (.AddSaplingOutput (if r.isInternal then internalOVK else externalOVK)
            addr r.amount r.memo)
        | .orchard addr =>
          m.call st (.AddOrchardOutput (if r.isInternal then internalOVK else externalOVK)
            addr r.amount r.memo)) := by
      split
      · split_ifs
        · exact h
        · exact call_extends m _ h
      · split_ifs
        · exact h
        · exact call_extends m _ h
      · exact call_extends m _ h
      · exact call_extends m _ h
    split
    · rename_i e he
      rw [he] at hstep
      exact hstep
    · rename_i st1 hst1
      rw [hst1] at hstep
      exact ih _ hstep

/-- The loop adding the transparent inputs keeps the calls made so far. -/
theorem addTransparentInputs_extends (m : BuilderModel) {p : List BuilderOp}
    (l : List COutput) (st : BuildState) (h : p <+: st.ops) :
    StepExtends p id (addTransparentInputs m l st) := by
  induction l generalizing st with
  | nil => exact h
  | cons out rest ih =>
    unfold addTransparentInputs
    have hc := call_extends m
      (.AddTransparentInput ⟨out.txHash, out.i⟩ out.scriptPubKey out.nValue) h
    split
    · rename_i r hr
      rw [hr] at hc
      exact hc
    · rename_i st1 hst1
      rw [hst1] at hc
      exact ih _ hc

/-- The loop adding the Sprout spends keeps the calls made so far. -/
theorem addSproutSpends_extends (m : BuilderModel) (wallet : CWallet)
    (vSproutWitnesses : List (Option Nat)) {p : List BuilderOp}
    (l : List SproutNoteEntry) (i : Nat) (st : BuildState) (h : p <+: st.ops) :
    StepExtends p id (addSproutSpends m wallet vSproutWitnesses l i st) := by
  induction l generalizing i st with
  | nil => exact h
  | cons t rest ih =>
    unfold addSproutSpends
    split
    · exact h
    · rename_i sk _
      split
      · exact h
      · rename_i witness _
        have hc := call_extends m (.AddSproutInput sk t witness) h
        split
        · rename_i r hr
          rw [hr] at hc
          exact hc
        · rename_i st1 hst1
          rw [hst1] at hc
          exact ih _ _ hc

/-- Once the Orchard anchor is determined, the first call on the builder is its construction
with the next block height and that anchor. -/
theorem buildSteps_starts_with_new (t : TransactionEffects) (m : BuilderModel)
    (wallet : CWallet) (chain : CChain) (a : Option uint256)
    (ha : t.orchardAnchor m chain = .ok a) :
    StepExtends [BuilderOp.New (chain.Height + 1) a] id (t.buildSteps m wallet chain) := by
  unfold TransactionEffects.buildSteps
  simp only [ha]
  have h0 : StepExtends [BuilderOp.New (chain.Height + 1) a] id
      (m.call ⟨[], 0⟩ (.New (chain.Height + 1) a)) := by
    unfold BuilderModel.call
    split_ifs
    · exact List.prefix_refl _
    · exact List.prefix_refl _
  refine stepExtends_bind h0 (fun st hst => ?_)
  refine stepExtends_bind (call_extends m _ hst) (fun st1 hst1 => ?_)
  refine stepExtends_bind (collectSaplingKeys_extends wallet _ _ _ hst1) (fun ks hks => ?_)
  obtain ⟨saplingKeys, st2⟩ := ks
  simp only
  split
  · exact hks
  · refine stepExtends_bind (addOrchardSpends_extends m _ _ hks) (fun st3 hst3 => ?_)
    refine stepExtends_bind (addSaplingSpends_extends m _ _ _ _ _ hst3) (fun st4 hst4 => ?_)
    refine stepExtends_bind (addOutputs_extends m _ _ _ _ hst4) (fun st5 hst5 => ?_)
    refine stepExtends_bind (addTransparentInputs_extends m _ _ hst5) (fun st6 hst6 => ?_)
    split
    · exact hst6
    · refine stepExtends_bind (addSproutSpends_extends m wallet _ _ _ _ hst6)
        (fun st7 hst7 => ?_)
      split
      · exact stepExtends_bind (call_extends m _ hst7) (fun st8 hst8 => call_extends m _ hst8)
      · split_ifs
        · exact call_extends m _ hst7
        · exact hst7
      · exact call_extends m _ hst7


/-- C28 (amended): in `ApproveAndBuild`, once the privacy check passes, the builder is
constructed first, with the next block height; the Orchard anchor given to it is the final
Orchard root of `chain[anchorHeight]` when the plan has no Sprout inputs, and (the plan
involves Orchard or the preferred transaction version is strictly greater than the ZIP-225
minimum version), and `anchorConfirmations > 0`; in every other case it is left unset. -/
theorem C28_orchard_anchor (t : TransactionEffects) (m : BuilderModel) (wallet : CWallet)
    (chain : CChain) (strategy : TransactionStrategy)
    (hcompat : strategy.IsCompatibleWith t.GetRequiredPrivacyPolicy = true) :
    (t.spendable.sproutNoteEntries = [] ∧
        (t.InvolvesOrchard = true ∨ m.nPreferredTxVersion > m.ZIP225_MIN_TX_VERSION) ∧
        0 < t.anchorConfirmations →
      ∀ root, chain.orchardRootAt t.anchorHeight = some root →
        ∃ rest, (t.ApproveAndBuild m wallet chain strategy).1
          = BuilderOp.New (chain.Height + 1) (some root) :: rest) ∧
    (¬ (t.spendable.sproutNoteEntries = [] ∧
        (t.InvolvesOrchard = true ∨ m.nPreferredTxVersion > m.ZIP225_MIN_TX_VERSION) ∧
        0 < t.anchorConfirmations) →
      ∃ rest, (t.ApproveAndBuild m wallet chain strategy).1
        = BuilderOp.New (chain.Height + 1) none :: rest) := by
  have hcond : (t.spendable.sproutNoteEntries.isEmpty
      && (t.InvolvesOrchard || decide (m.nPreferredTxVersion > m.ZIP225_MIN_TX_VERSION))
      && decide (t.anchorConfirmations > 0)) = true ↔
      (t.spendable.sproutNoteEntries = [] ∧
        (t.InvolvesOrchard = true ∨ m.nPreferredTxVersion > m.ZIP225_MIN_TX_VERSION) ∧
        0 < t.anchorConfirmations) := by
    simp only [Bool.and_eq_true, Bool.or_eq_true, decide_eq_true_eq, List.isEmpty_iff,
      and_assoc, gt_iff_lt]
  have hops : ∀ a, t.orchardAnchor m chain = .ok a →
      ∃ rest, (t.ApproveAndBuild m wallet chain strategy).1
        = BuilderOp.New (chain.Height + 1) a :: rest := by
    intro a ha
    have hs := buildSteps_starts_with_new t m wallet chain a ha
    unfold TransactionEffects.ApproveAndBuild
    simp only [hcompat, Bool.not_true, Bool.false_eq_true, if_false]
    cases hb : t.buildSteps m wallet chain with
    | error r =>
      rw [hb] at hs
      obtain ⟨rest, hrest⟩ := hs
      exact ⟨rest, hrest.symm⟩
    | ok st =>
      rw [hb] at hs
      obtain ⟨rest, hrest⟩ := hs
      exact ⟨rest, hrest.symm⟩
  constructor
  · intro hc root hroot
    apply hops
    unfold TransactionEffects.orchardAnchor
    rw [if_pos (hcond.2 hc), hroot]
  · intro hc
    apply hops
    unfold TransactionEffects.orchardAnchor
    rw [if_neg (fun h => hc (hcond.1 h))]

/-- C28, witness: the plan of the scenario `Orchard change` involves Orchard, has no Sprout
input and ten anchor confirmations, so that the builder is given the Orchard root 99. -/
theorem C28_orchard_anchor_witness :
    TransactionStrategy.IsCompatibleWith ⟨.NoPrivacy⟩
        planOrchardChange.GetRequiredPrivacyPolicy = true ∧
    ∃ rest, (planOrchardChange.ApproveAndBuild exampleBuilder exampleWallet exampleChain
        ⟨.NoPrivacy⟩).1 = BuilderOp.New (exampleChain.Height + 1) (some 99) :: rest :=
  ⟨by decide,
    (C28_orchard_anchor planOrchardChange exampleBuilder exampleWallet exampleChain
      ⟨.NoPrivacy⟩ (by decide)).1 ⟨rfl, Or.inl (by decide), by decide⟩ 99 rfl⟩

/-- C28, counterexample: the plan of the scenario `Sapling payment needing a UTXO` has no
Sprout input and ten anchor confirmations, and the preferred transaction version 5 is at
least the ZIP-225 minimum version 5; the privacy check passes and the chain has an Orchard
root at the anchor height, yet the builder is constructed without Orchard anchor. -/
theorem C28_counterexample_equal_versions :
    ReturnsPlan (builderWith 50) exampleWallet ⟨.account ⟨0, [.P2PKH, .Sapling]⟩⟩
      ⟨[utxo 1 30000 false], [], [saplingNote 2 50000], []⟩ [⟨.sapling ⟨1⟩, 50000, none⟩]
      exampleChain ⟨.FullPrivacy⟩ 10000 10 planSaplingWithUtxo ∧
    planSaplingWithUtxo.spendable.sproutNoteEntries = [] ∧
    exampleBuilder.nPreferredTxVersion ≥ exampleBuilder.ZIP225_MIN_TX_VERSION ∧
    0 < planSaplingWithUtxo.anchorConfirmations ∧
    TransactionStrategy.IsCompatibleWith ⟨.NoPrivacy⟩
        planSaplingWithUtxo.GetRequiredPrivacyPolicy = true ∧
    exampleChain.orchardRootAt planSaplingWithUtxo.anchorHeight = some 99 ∧
    planSaplingWithUtxo.orchardAnchor exampleBuilder exampleChain = .ok none ∧
    (planSaplingWithUtxo.ApproveAndBuild exampleBuilder exampleWallet exampleChain
        ⟨.NoPrivacy⟩).1.head? = some (BuilderOp.New 2000001 none) :=
  ⟨planSaplingWithUtxo_returned, rfl, by decide, by decide, by decide, rfl, by decide,
    by decide⟩


/-- The run of the scenario `Orchard note without anchor confirmations`. -/
theorem planOrchardNoAnchor_returned :
    ReturnsPlan (builderWith 50) exampleWallet ⟨.account ⟨0, [.Sapling]⟩⟩
      ⟨[], [], [], [orchardNote 3 200000]⟩ [⟨.sapling ⟨1⟩, 100000, none⟩] exampleChain
      ⟨.AllowRevealedAmounts⟩ 10000 0 planOrchardNoAnchor :=
  ⟨⟨.effects planOrchardNoAnchor, planOrchardNoAnchor.LockSpendable exampleWallet,
    planOrchardNoAnchor.spendable⟩, rfl, rfl⟩

/-- C29: the plan of the scenario `Orchard note without anchor confirmations` is returned by
`PrepareTransaction` with a Sapling recipient address as change address; in `ApproveAndBuild`
the privacy check passes, the witnesses are available and every call on the builder succeeds,
but with `anchorConfirmations = 0` no Orchard anchor is set and no Orchard spend is added, so
that `totalSpend` is 0 while `payments.Total() + fee` is 200000 and the assertion
`totalSpend == payments.Total() + fee` fails. -/
theorem C29_balance_assertion_fails_without_anchor :
    ReturnsPlan (builderWith 50) exampleWallet ⟨.account ⟨0, [.Sapling]⟩⟩
      ⟨[], [], [], [orchardNote 3 200000]⟩ [⟨.sapling ⟨1⟩, 100000, none⟩] exampleChain
      ⟨.AllowRevealedAmounts⟩ 10000 0 planOrchardNoAnchor ∧
    planOrchardNoAnchor.changeAddr = some (.recipient (.sapling ⟨901⟩)) ∧
    TransactionStrategy.IsCompatibleWith ⟨.AllowRevealedAmounts⟩
      planOrchardNoAnchor.GetRequiredPrivacyPolicy = true ∧
    planOrchardNoAnchor.orchardAnchor exampleBuilder exampleChain = .ok none ∧
    planOrchardNoAnchor.payments.Total + planOrchardNoAnchor.fee = 200000 ∧
    planOrchardNoAnchor.ApproveAndBuild exampleBuilder exampleWallet exampleChain
        ⟨.AllowRevealedAmounts⟩ =
      ([.New 2000001 none, .SetFee 10000, .AddSaplingOutput 12 ⟨1⟩ 100000 none,
        .AddSaplingOutput 11 ⟨901⟩ 90000 none], .assertionFailure) :=
  ⟨planOrchardNoAnchor_returned, rfl, by decide, by decide, by decide, by decide⟩


/-! ## The budgets of the payment loop -/

/-- The Sapling amounts after one more resolved payment. -/
theorem resolvedSaplingTotal_append (rps : List ResolvedPayment) (rp : ResolvedPayment) :
    resolvedSaplingTotal (rps ++ [rp])
      = resolvedSaplingTotal rps + (if rp.address.isSapling then rp.amount else 0) := by
  unfold resolvedSaplingTotal
  rw [List.filter_append, List.map_append, List.sum_append]
  cases h : rp.address.isSapling <;> simp [List.filter, h]

/-- The Orchard amounts after one more resolved payment. -/
theorem resolvedOrchardTotal_append (rps : List ResolvedPayment) (rp : ResolvedPayment) :
    resolvedOrchardTotal (rps ++ [rp])
      = resolvedOrchardTotal rps + (if rp.address.isOrchard then rp.amount else 0) := by
  unfold resolvedOrchardTotal
  rw [List.filter_append, List.map_append, List.sum_append]
  cases h : rp.address.isOrchard <;> simp [List.filter, h]

/-- Without revealed amounts, an Orchard receiver is chosen only within the Orchard budget. -/
theorem orchardReceiverFor_le {strategy : TransactionStrategy} {cro : Bool}
    {st : ResolverState} {p : Payment} {ua : UnifiedAddress} {r : OrchardRawAddress}
    (hno : strategy.AllowRevealedAmounts = false)
    (h : orchardReceiverFor strategy cro st p ua = some r) :
    p.amount ≤ st.maxOrchardAvailable := by
  rw [orchardReceiverFor_eq] at h
  split at h
  · rename_i hc
    simp only [hno, Bool.false_or, Bool.and_eq_true, decide_eq_true_eq] at hc
    exact hc.2
  · simp at h

/-- Without revealed amounts, a Sapling receiver is chosen only within the Sapling budget. -/
theorem saplingReceiverFor_le {strategy : TransactionStrategy}
    {st : ResolverState} {p : Payment} {ua : UnifiedAddress} {r : SaplingPaymentAddress}
    (hno : strategy.AllowRevealedAmounts = false)
    (h : saplingReceiverFor strategy st p ua = some r) :
    p.amount ≤ st.maxSaplingAvailable := by
  rw [saplingReceiverFor_eq] at h
  split at h
  · rename_i hc
    simp only [hno, Bool.false_or, Bool.and_eq_true, decide_eq_true_eq] at hc
    exact hc.2
  · simp at h

/-- The arithmetic of one step within a budget. -/
theorem budget_step (budget amount total init : Int) (hle : amount ≤ budget)
    (hinv : budget + total = init) :
    0 ≤ budget - amount ∧ budget - amount + (total + amount) = init := by
  omega

/-- One iteration of the payment loop keeps the invariant of the budgets. -/
theorem resolvePayment_budget {strategy : TransactionStrategy} {cro : Bool}
    {st st1 : ResolverState} {p : Payment} {initS initO : CAmount}
    (hno : strategy.AllowRevealedAmounts = false)
    (h : resolvePayment strategy cro st p = .ok st1)
    (hinv : BudgetInvariant initS initO st) : BudgetInvariant initS initO st1 := by
  obtain ⟨hs, ho, hsum, hosum⟩ := hinv
  unfold resolvePayment at h
  split at h
  · split at h
    · injection h with h; subst h
      refine ⟨hs, ho, ?_, ?_⟩
      · simpa [resolvedSaplingTotal_append, RecipientAddress.isSapling] using hsum
      · simpa [resolvedOrchardTotal_append, RecipientAddress.isOrchard] using hosum
    · simp at h
  · split at h
    · injection h with h; subst h
      refine ⟨hs, ho, ?_, ?_⟩
      · simpa [resolvedSaplingTotal_append, RecipientAddress.isSapling] using hsum
      · simpa [resolvedOrchardTotal_append, RecipientAddress.isOrchard] using hosum
    · simp at h
  · simp at h
  · split at h
    · rename_i hc
      simp only [hno, Bool.false_or, decide_eq_true_eq] at hc
      injection h with h; subst h
      have hb := budget_step _ _ _ _ hc hsum
      refine ⟨?_, ho, ?_, ?_⟩
      · simpa [hno] using hb.1
      · simpa [hno, resolvedSaplingTotal_append, RecipientAddress.isSapling] using hb.2
      · simpa [resolvedOrchardTotal_append, RecipientAddress.isOrchard] using hosum
    · simp at h
  · split at h
    · rename_i r hr
      have hc := orchardReceiverFor_le hno hr
      injection h with h; subst h
      have hb := budget_step _ _ _ _ hc hosum
      refine ⟨hs, ?_, ?_, ?_⟩
      · simpa [hno] using hb.1
      · simpa [resolvedSaplingTotal_append, RecipientAddress.isSapling] using hsum
      · simpa [hno, resolvedOrchardTotal_append, RecipientAddress.isOrchard] using hb.2
    · split at h
      · rename_i r hr
        have hc := saplingReceiverFor_le hno hr
        injection h with h; subst h
        have hb := budget_step _ _ _ _ hc hsum
        refine ⟨?_, ho, ?_, ?_⟩
        · simpa [hno] using hb.1
        · simpa [hno, resolvedSaplingTotal_append, RecipientAddress.isSapling] using hb.2
        · simpa [resolvedOrchardTotal_append, RecipientAddress.isOrchard] using hosum
      · split at h
        · split at h
          · injection h with h; subst h
            refine ⟨hs, ho, ?_, ?_⟩
            · simpa [resolvedSaplingTotal_append, RecipientAddress.isSapling] using hsum
            · simpa [resolvedOrchardTotal_append, RecipientAddress.isOrchard] using hosum
          · split at h
            · injection h with h; subst h
              refine ⟨hs, ho, ?_, ?_⟩
              · simpa [resolvedSaplingTotal_append, RecipientAddress.isSapling] using hsum
              · simpa [resolvedOrchardTotal_append, RecipientAddress.isOrchard] using hosum
            · simp at h
        · split at h <;> simp at h

/-- The payment loop keeps the invariant of the budgets. -/
theorem resolvePayments_budget {strategy : TransactionStrategy} {cro : Bool}
    {initS initO : CAmount} (hno : strategy.AllowRevealedAmounts = false) :
    ∀ (ps : List Payment) {st st1 : ResolverState},
      resolvePayments strategy cro ps st = .ok st1 →
      BudgetInvariant initS initO st → BudgetInvariant initS initO st1
  | [], st, st1, h, hinv => by
    simp only [resolvePayments] at h
    injection h with h; subst h
    exact hinv
  | p :: rest, st, st1, h, hinv => by
    simp only [resolvePayments] at h
    split at h
    · simp at h
    · rename_i st2 h2
      exact resolvePayments_budget hno rest h (resolvePayment_budget hno h2 hinv)

/-- C30: for every strategy that does not allow revealed amounts and every payment list on
which the payment loop of `ResolveInputsAndPayments` succeeds, the sum of the amounts of the
payments resolved to Sapling receivers is at most the spendable Sapling total, and the sum of
the amounts resolved to Orchard receivers is at most the spendable Orchard total, both totals
being those of the candidate inputs before `LimitToAmount`. -/
theorem C30_shielded_amounts_within_totals {strategy : TransactionStrategy} {cro : Bool}
    {spendable : SpendableInputs} {payments : List Payment} {st : ResolverState}
    (hno : strategy.AllowRevealedAmounts = false)
    (h : resolvePayments strategy cro payments (initialResolverState spendable) = .ok st) :
    resolvedSaplingTotal st.resolvedPayments ≤ spendable.GetSaplingTotal ∧
    resolvedOrchardTotal st.resolvedPayments ≤ spendable.GetOrchardTotal := by
  have h0 : BudgetInvariant spendable.GetSaplingTotal spendable.GetOrchardTotal
      (initialResolverState spendable) := by
    refine ⟨?_, ?_, ?_, ?_⟩
    · exact Int.natCast_nonneg _
    · exact Int.natCast_nonneg _
    · simp [initialResolverState, resolvedSaplingTotal]
    · simp [initialResolverState, resolvedOrchardTotal]
  obtain ⟨hs, ho, hsum, hosum⟩ := resolvePayments_budget hno payments h h0
  constructor
  · linarith
  · linarith

/-- C30, witness: two payments of 30000 and 20000 to Sapling addresses out of one Sapling
note of 60000 under `FullPrivacy`. -/
theorem C30_shielded_amounts_witness :
    TransactionStrategy.AllowRevealedAmounts ⟨.FullPrivacy⟩ = false ∧
    resolvePayments ⟨.FullPrivacy⟩ true
        [⟨.sapling ⟨1⟩, 30000, none⟩, ⟨.sapling ⟨2⟩, 20000, none⟩]
        (initialResolverState ⟨[], [], [saplingNote 2 60000], []⟩)
      = .ok ⟨10000, 0, 0, [⟨none, .sapling ⟨1⟩, 30000, none, false⟩,
          ⟨none, .sapling ⟨2⟩, 20000, none, false⟩]⟩ ∧
    resolvedSaplingTotal [⟨none, .sapling ⟨1⟩, 30000, none, false⟩,
        ⟨none, .sapling ⟨2⟩, 20000, none, false⟩]
      ≤ SpendableInputs.GetSaplingTotal ⟨[], [], [saplingNote 2 60000], []⟩ ∧
    resolvedOrchardTotal [⟨none, .sapling ⟨1⟩, 30000, none, false⟩,
        ⟨none, .sapling ⟨2⟩, 20000, none, false⟩]
      ≤ SpendableInputs.GetOrchardTotal ⟨[], [], [saplingNote 2 60000], []⟩ :=
  ⟨by decide, rfl,
    @C30_shielded_amounts_within_totals ⟨.FullPrivacy⟩ true
      ⟨[], [], [saplingNote 2 60000], []⟩
      [⟨.sapling ⟨1⟩, 30000, none⟩, ⟨.sapling ⟨2⟩, 20000, none⟩]
      ⟨10000, 0, 0, [⟨none, .sapling ⟨1⟩, 30000, none, false⟩,
          ⟨none, .sapling ⟨2⟩, 20000, none, false⟩]⟩ (by decide) rfl⟩

/-! ## The outgoing viewing keys -/

/-- C27: `GetOVKsForUFVK(ufvk, spendable)` selects by strict pool priority: if any Orchard
note is present it returns the OVKs of the Orchard key of the UFVK, whatever the other inputs;
else if any Sapling note is present, the OVKs of its Sapling key; else if any UTXO is present,
the shielding OVKs of its transparent key (the key of the chosen pool being an asserted
precondition); and it throws exactly when the spendable set has no Orchard notes, no Sapling
notes and no UTXOs, which includes a Sprout-only and an empty set. -/
theorem C27_ovks_by_pool_priority (ufvk : UnifiedFullViewingKey)
    (spendable : SpendableInputs) :
    (spendable.orchardNoteMetadata ≠ [] → ∀ k, ufvk.orchardKey = some k →
      GetOVKsForUFVK ufvk spendable = .ok k) ∧
    (spendable.orchardNoteMetadata = [] → spendable.saplingNoteEntries ≠ [] →
      ∀ k, ufvk.saplingKey = some k → GetOVKsForUFVK ufvk spendable = .ok k) ∧
    (spendable.orchardNoteMetadata = [] → spendable.saplingNoteEntries = [] →
      spendable.utxos ≠ [] →
      ∀ k, ufvk.transparentKey = some k → GetOVKsForUFVK ufvk spendable = .ok k) ∧
    (GetOVKsForUFVK ufvk spendable = .exception ↔
      spendable.orchardNoteMetadata = [] ∧ spendable.saplingNoteEntries = [] ∧
        spendable.utxos = []) := by
  unfold GetOVKsForUFVK
  refine ⟨?_, ?_, ?_, ?_⟩
  · intro ho k hk
    have : spendable.orchardNoteMetadata.isEmpty = false := by
      cases hl : spendable.orchardNoteMetadata with
      | nil => exact absurd hl ho
      | cons a l => rfl
    simp [this, hk]
  · intro ho hs k hk
    have : spendable.saplingNoteEntries.isEmpty = false := by
      cases hl : spendable.saplingNoteEntries with
      | nil => exact absurd hl hs
      | cons a l => rfl
    simp [ho, this, hk]
  · intro ho hs hu k hk
    have : spendable.utxos.isEmpty = false := by
      cases hl : spendable.utxos with
      | nil => exact absurd hl hu
      | cons a l => rfl
    simp [ho, hs, this, hk]
  · cases ho : spendable.orchardNoteMetadata with
    | cons a l =>
      cases hk : ufvk.orchardKey <;> simp
    | nil =>
      cases hs : spendable.saplingNoteEntries with
      | cons a l =>
        cases hk : ufvk.saplingKey <;> simp
      | nil =>
        cases hu : spendable.utxos with
        | cons a l =>
          cases hk : ufvk.transparentKey <;> simp
        | nil => simp

/-- C27, witness: with an Orchard note, a Sapling note and a UTXO selected, the key of the
example wallet gives its Orchard OVKs; with Sprout notes only, the function throws. -/
theorem C27_ovks_by_pool_priority_witness :
    GetOVKsForUFVK exampleUFVK
        ⟨[utxo 1 30000 false], [], [saplingNote 2 50000], [orchardNote 3 70000]⟩
      = .ok (11, 12) ∧
    GetOVKsForUFVK exampleUFVK ⟨[], [sproutNote 1 100000], [], []⟩ = .exception :=
  ⟨(C27_ovks_by_pool_priority exampleUFVK
      ⟨[utxo 1 30000 false], [], [saplingNote 2 50000], [orchardNote 3 70000]⟩).1
      (List.cons_ne_nil _ _) (11, 12) rfl,
    (C27_ovks_by_pool_priority exampleUFVK ⟨[], [sproutNote 1 100000], [], []⟩).2.2.2.2
      ⟨rfl, rfl, rfl⟩⟩

end Zcash
